import Mathlib

/-!
# Verification development for the `eta` / `fu` compiler core

Shallow embedding of the variable sets and node classification of `src/ir/node.c`,
the arena of `src/core/mem_pool.c`, the type table of `src/fu/lang/types.c` and the
bidirectional checker of `src/fu/lang/check.c`, followed by the theorems about them.

Conventions: a C pointer is the index of the pointee in the store that owns it, a
function that can hit a failed `assert` or an out-of-bounds read returns `Option`
(`none` being that failure), and mutable state is passed explicitly.
-/

namespace Eta

/-! ## Variable sets and node classification (`src/ir/node.c`) -/

/-- The `ir_var_set` record: the `vars` array; `var_count` is its length.  The
elements are node pointers, compared by address, so they are modelled as numbers. -/
structure ir_var_set where
  vars : List Nat
deriving DecidableEq, Repr

/-- The field `var_count` of a variable set. -/
def ir_var_set.var_count (s : ir_var_set) : Nat := s.vars.length

/-- The `while (i < j)` loop of `contains_var`, one iteration per unit of fuel.
`m = (i + j) / 2` is computed in `size_t`, hence the reduction modulo `2 ^ 64`;
`none` is an out-of-bounds read of `vars[m]` or exhausted fuel. -/
def contains_var_loop (vars : List Nat) (var : Nat) : Nat → Nat → Nat → Option Bool
  | 0, _, _ => none
  | fuel + 1, i, j =>
    if i < j then
      let m := (i + j) % 2 ^ 64 / 2
      match vars[m]? with
      | none => none
      | some x =>
        if var < x then contains_var_loop vars var fuel (m + 1) j
        else if var > x then contains_var_loop vars var fuel i m
        else some true
    else some false

/-- The function `contains_var`: binary search in a descending array. -/
def contains_var (fuel : Nat) (var_set : ir_var_set) (var : Nat) : Option Bool :=
  contains_var_loop var_set.vars var fuel 0 var_set.var_count

/-- The node tags that `node.c` names explicitly (the full enumeration lives in
`node.h`); `IR_OTHER n` stands for any tag not named there. -/
inductive ir_node_tag where
  | IR_ERROR | IR_CONST | IR_VAR
  | IR_KIND_NAT
  | IR_TYPE_INT | IR_TYPE_FLOAT | IR_TYPE_ARRAY | IR_TYPE_TUPLE | IR_TYPE_OPTION
  | IR_VAL_TUPLE | IR_VAL_FUNC | IR_VAL_LET
  | IR_VAL_EXTRACT | IR_VAL_VEXTRACT | IR_VAL_INSERT | IR_VAL_VINSERT
  | IR_VAL_UDIV | IR_VAL_SDIV | IR_VAL_UREM | IR_VAL_SREM | IR_VAL_FDIV | IR_VAL_FREM
  | IR_VAL_VUDIV | IR_VAL_VSDIV | IR_VAL_VUREM | IR_VAL_VSREM | IR_VAL_VFDIV | IR_VAL_VFREM
  | IR_VAL_ALLOC | IR_VAL_LOAD | IR_VAL_STORE | IR_VAL_VLOAD | IR_VAL_VSTORE
  | IR_OTHER (n : Nat)
deriving DecidableEq, Repr

/-- An IR node: its tag, its `type` edge (`none` is the null pointer) and its
operands.  Nodes are immutable once interned, so the graph is a tree of values. -/
inductive ir_node where
  | mk (tag : ir_node_tag) (type : Option ir_node) (ops : List ir_node)

/-- The field `tag` of a node. -/
def ir_node.tag : ir_node → ir_node_tag
  | .mk t _ _ => t

/-- The field `type` of a node. -/
def ir_node.type : ir_node → Option ir_node
  | .mk _ t _ => t

/-- The field `ops` of a node. -/
def ir_node.ops : ir_node → List ir_node
  | .mk _ _ o => o

/-- The predicate `is_kind`: `node->type == NULL || node->tag == IR_ERROR`. -/
def is_kind (node : ir_node) : Bool :=
  node.type.isNone || node.tag == ir_node_tag.IR_ERROR

/-- The predicate `is_type`: `(node->type && is_kind(node->type)) || node->tag == IR_ERROR`. -/
def is_type (node : ir_node) : Bool :=
  (match node.type with
    | none => false
    | some t => is_kind t) || node.tag == ir_node_tag.IR_ERROR

/-- The predicate `is_val`: `(node->type && is_type(node->type)) || node->tag == IR_ERROR`. -/
def is_val (node : ir_node) : Bool :=
  (match node.type with
    | none => false
    | some t => is_type t) || node.tag == ir_node_tag.IR_ERROR

/-! ## Arena allocator (`src/core/mem_pool.c`) -/

/-- A `MemBlock` header: used bytes and capacity.  The `next` link is the position
in the block list of the pool. -/
structure MemBlock where
  size : Nat
  capacity : Nat
deriving DecidableEq, Repr

/-- A `MemPool`: the linked list of blocks starting at `first` (empty when `first`
is null) and `cur`, the position of the current block (`none` when `cur` is null). -/
structure MemPool where
  blocks : List MemBlock
  cur : Option Nat
deriving DecidableEq, Repr

/-- The constant `MIN_MEM_BLOCK_CAPACITY`. -/
def MIN_MEM_BLOCK_CAPACITY : Nat := 1024

/-- The function `new_mem_pool`: both pointers null. -/
def new_mem_pool : MemPool := { blocks := [], cur := none }

/-- The function `remaining_mem`; `none` when `assert(block->capacity >= block->size)`
fails. -/
def remaining_mem (block : MemBlock) : Option Nat :=
  if block.capacity ≥ block.size then some (block.capacity - block.size) else none

/-- The function `alloc_mem_block`: the fresh block; the caller links it behind
`prev`. -/
def alloc_mem_block (capacity : Nat) : MemBlock :=
  { size := 0
    capacity := if capacity < MIN_MEM_BLOCK_CAPACITY then MIN_MEM_BLOCK_CAPACITY else capacity }

/-- The function `align_to`, in `size_t` arithmetic. -/
def align_to (size align : Nat) : Nat :=
  let offset := size % align
  if offset ≠ 0 then (size + align - offset) % 2 ^ 64 else size

/-- The loop `while (remaining_mem(cur) < size)` of `alloc_from_mem_pool`, run on the
part of the block list that starts at `cur`.  It returns that part (with a new block
linked at its end when `cur->next` is null) and how many links `cur` advanced;
`none` is a failed assertion. -/
def alloc_search (size : Nat) : List MemBlock → Option (List MemBlock × Nat)
  | [] => none
  | [b] =>
    match remaining_mem b with
    | none => none
    | some r => if r < size then some ([b, alloc_mem_block size], 1) else some ([b], 0)
  | b :: n :: rest =>
    match remaining_mem b with
    | none => none
    | some r =>
      if r < size then
        if n.size ≠ 0 then none
        else (alloc_search size (n :: rest)).map (fun res => (b :: res.1, res.2 + 1))
      else some (b :: n :: rest, 0)

/-- The function `alloc_from_mem_pool`.  `max_align` is `sizeof(max_align_t)`.  The
returned pointer is the pair (block position, offset into the block's data). -/
def alloc_from_mem_pool (max_align : Nat) (mem_pool : MemPool) (size : Nat) :
    Option ((Nat × Nat) × MemPool) :=
  let size := align_to size max_align
  let searched : Option (List MemBlock × Nat) :=
    match mem_pool.cur with
    | none => some ([alloc_mem_block size], 0)
    | some c =>
      if c < mem_pool.blocks.length then
        (alloc_search size (mem_pool.blocks.drop c)).map
          (fun res => (mem_pool.blocks.take c ++ res.1, c + res.2))
      else none
  match searched with
  | none => none
  | some (blocks, cur) =>
    match blocks[cur]? with
    | none => none
    | some b =>
      match remaining_mem b with
      | none => none
      | some r =>
        if r ≥ size then
          some ((cur, b.size), { blocks := blocks.set cur { b with size := b.size + size },
                                 cur := some cur })
        else none

/-- The function `reset_mem_pool`. -/
def reset_mem_pool (mem_pool : MemPool) : MemPool :=
  { blocks := mem_pool.blocks.map (fun b => { b with size := 0 })
    cur := if mem_pool.blocks.isEmpty then none else some 0 }

/-- A run of `alloc_from_mem_pool` calls, one per requested size, in order. -/
def alloc_all (max_align : Nat) : MemPool → List Nat → Option (List (Nat × Nat) × MemPool)
  | mem_pool, [] => some ([], mem_pool)
  | mem_pool, size :: sizes =>
    match alloc_from_mem_pool max_align mem_pool size with
    | none => none
    | some (ptr, mem_pool1) =>
      (alloc_all max_align mem_pool1 sizes).map (fun res => (ptr :: res.1, res.2))

/-- The sizes after rounding with `align_to`, and the capacities of a pool, summed. -/
def rounded_total (max_align : Nat) (sizes : List Nat) : Nat :=
  (sizes.map (fun s => align_to s max_align)).sum

/-- The total capacity of the blocks a pool owns. -/
def total_capacity (mem_pool : MemPool) : Nat :=
  (mem_pool.blocks.map (fun b => b.capacity)).sum

/-- The state of a pool in which a further demand of `need` bytes still fits without
growing: `cur` is a block of the list, every block keeps `size <= capacity`, the
blocks behind `cur` are untouched, and some block at or behind `cur` has `need`
bytes of room left. -/
def PoolFits (blocks : List MemBlock) (cur need : Nat) : Prop :=
  cur < blocks.length ∧
  (∀ x ∈ blocks, x.size ≤ x.capacity) ∧
  (∀ i x, cur < i → blocks[i]? = some x → x.size = 0) ∧
  ∃ k x, cur ≤ k ∧ blocks[k]? = some x ∧ need + x.size ≤ x.capacity

/-- The pool left by two 1024-byte allocations on a new pool: two full blocks. -/
def twoBlockPool : MemPool :=
  { blocks := [{ size := 1024, capacity := 1024 }, { size := 1024, capacity := 1024 }]
    cur := some 1 }

/-! ## Lang type table (`src/fu/lang/types.c`) -/

/-- Modelled from the spec: the enumeration `TypeTag` of `types.h`.  The primitive
tags are those of the macro list `AST_PRIM_TYPE_LIST` ("one of a fixed enumerated
set", of which the sources name `BOOL`, `I32`, `F32` and `U8`); the other tags are
the ones `types.c` and `check.c` switch on, plus the poisoned `ERROR`. -/
inductive TypeTag where
  | BOOL | I8 | I16 | I32 | I64 | U8 | U16 | U32 | U64 | F32 | F64
  | UNKNOWN | ERROR | TUPLE | FUN | ARRAY | PARAM | STRUCT | ENUM
deriving DecidableEq, Repr

/-- The numeric value of a tag, as hashed by `hash_uint32(hash, type->tag)`. -/
def TypeTag.code : TypeTag → Nat
  | .BOOL => 0 | .I8 => 1 | .I16 => 2 | .I32 => 3 | .I64 => 4 | .U8 => 5 | .U16 => 6
  | .U32 => 7 | .U64 => 8 | .F32 => 9 | .F64 => 10 | .UNKNOWN => 11 | .ERROR => 12
  | .TUPLE => 13 | .FUN => 14 | .ARRAY => 15 | .PARAM => 16 | .STRUCT => 17 | .ENUM => 18

/-- The function `is_prim_type`: the cases generated from `AST_PRIM_TYPE_LIST`. -/
def is_prim_type (tag : TypeTag) : Bool :=
  match tag with
  | .BOOL | .I8 | .I16 | .I32 | .I64 | .U8 | .U16 | .U32 | .U64 | .F32 | .F64 => true
  | _ => false

/-- The record `Type` of `types.h`.  The members of its union (`tuple_type`,
`fun_type`, `array_type`, `type_param`, `struct_type`/`enum_type`) are kept as
separate fields, zero when not set; each is only read under the tag it belongs to.
`arg_types` is the array of `tuple_type` and `arg_count` its length; `name` points
into the string pool; an entry `none` of `members` or `member_names` is a slot not
yet filled in.  The two flags are the ones `check.c` reads. -/
structure LType where
  tag : TypeTag
  id : Nat := 0
  contains_error : Bool := false
  contains_unknown : Bool := false
  arg_types : List Nat := []
  dom_type : Nat := 0
  codom_type : Nat := 0
  elem_type : Nat := 0
  name : Nat := 0
  members : List (Option Nat) := []
  member_names : List (Option Nat) := []
  member_count : Nat := 0
  child_types : Option Nat := none
deriving DecidableEq, Repr

/-- The field `tuple_type.arg_count`. -/
def LType.arg_count (t : LType) : Nat := t.arg_types.length

/-- The record `TypeTable`: `types` is the content of the hash table, one pair
(hash, `Type*`) per stored element in insertion order; `str_pool` holds the interned
strings; `mem_pool` holds the `Type` objects allocated from the arena, a `Type*`
being a position in it; `type_count` is the id counter. -/
structure TypeTable where
  types : List (Nat × Nat)
  str_pool : List String
  mem_pool : List LType
  type_count : Nat
deriving DecidableEq, Repr

/-- The hash primitives of `core/hash.h`, which the sources only call; they are a
parameter of the development. -/
structure HashFns where
  hash_init : Nat
  hash_uint32 : Nat → Nat → Nat
  hash_uint64 : Nat → Nat → Nat
  hash_str : Nat → String → Nat

/-- The function `new_type_table`: an empty hash table, an empty string pool and a
zero id counter. -/
def new_type_table : TypeTable :=
  { types := [], str_pool := [], mem_pool := [], type_count := 0 }

/-- Modelled from the spec: `make_str` of the string pool ("two equal names share
storage and are comparable by address"): the position of the string in the pool,
which grows only when the string is new. -/
def make_str (str_pool : List String) (name : String) : Nat × List String :=
  (str_pool.indexOf name, if name ∈ str_pool then str_pool else str_pool ++ [name])

/-- Modelled from the spec: `find_in_hash_table` ("a lookup takes a hash and a probe
key and returns the stored element or none", the table being "keyed by an externally
supplied hash and an externally supplied structural-equality predicate").  `compare`
is the comparator applied to a stored element and the probe; its failure propagates. -/
def find_in_hash_table (compare : Nat → Option Bool) (hash : Nat) :
    List (Nat × Nat) → Option (Option Nat)
  | [] => some none
  | (h, elem) :: rest =>
    if h = hash then
      match compare elem with
      | none => none
      | some true => some (some elem)
      | some false => find_in_hash_table compare hash rest
    else find_in_hash_table compare hash rest

/-- Modelled from the spec: `insert_in_hash_table` ("succeeds only if no
structurally-equal element is already present", the return value telling which). -/
def insert_in_hash_table (compare : Nat → Option Bool) (hash : Nat) (elem : Nat)
    (table : List (Nat × Nat)) : Option (List (Nat × Nat) × Bool) :=
  match find_in_hash_table compare hash table with
  | none => none
  | some (some _) => some (table, false)
  | some none => some (table ++ [(hash, elem)], true)

/-- The function `make_struct_or_enum_type`: a fresh object, never looked up. -/
def make_struct_or_enum_type (type_table : TypeTable) (tag : TypeTag) (name : String)
    (member_count : Nat) : Nat × TypeTable :=
  let interned := make_str type_table.str_pool name
  let type : LType :=
    { tag := tag
      name := interned.1
      members := List.replicate member_count none
      member_names := List.replicate member_count none
      member_count := member_count
      child_types := none
      id := type_table.type_count }
  (type_table.mem_pool.length,
    { type_table with
      str_pool := interned.2
      mem_pool := type_table.mem_pool ++ [type]
      type_count := type_table.type_count + 1 })

/-- The function `make_struct_type`. -/
def make_struct_type (type_table : TypeTable) (name : String) (field_count : Nat) :
    Nat × TypeTable :=
  make_struct_or_enum_type type_table .STRUCT name field_count

/-- The function `make_enum_type`. -/
def make_enum_type (type_table : TypeTable) (name : String) (option_count : Nat) :
    Nat × TypeTable :=
  make_struct_or_enum_type type_table .ENUM name option_count

/-- The loop of `hash_type` over the argument types of a tuple: it hashes
`arg_types[i]->id`; `none` is a pointer that is not an object of the arena. -/
def hash_arg_ids (H : HashFns) (mem_pool : List LType) : Nat → List Nat → Option Nat
  | hash, [] => some hash
  | hash, p :: ps =>
    match mem_pool[p]? with
    | none => none
    | some t => hash_arg_ids H mem_pool (H.hash_uint64 hash t.id) ps

/-- The function `hash_type`. -/
def hash_type (H : HashFns) (type_table : TypeTable) (hash : Nat) (type : LType) : Option Nat :=
  let hash := H.hash_uint32 hash type.tag.code
  match type.tag with
  | .TUPLE => hash_arg_ids H type_table.mem_pool hash type.arg_types
  | .FUN => hash_arg_ids H type_table.mem_pool hash [type.dom_type, type.codom_type]
  | .ARRAY => hash_arg_ids H type_table.mem_pool hash [type.elem_type]
  | .PARAM => (type_table.str_pool[type.name]?).map (fun s => H.hash_str hash s)
  | _ => some hash

/-- The loop of `compare_types` over the tuple arguments: `i` runs below the left
`arg_count` and stops at the first difference; `none` is a read of the right array
past its end. -/
def compare_arg_types : List Nat → List Nat → Option Bool
  | [], _ => some true
  | _ :: _, [] => none
  | a :: as, b :: bs => if a ≠ b then some false else compare_arg_types as bs

/-- The function `compare_types`. -/
def compare_types (type_left type_right : LType) : Option Bool :=
  if type_left.tag ≠ type_right.tag then some false
  else
    match type_left.tag with
    | .TUPLE => compare_arg_types type_left.arg_types type_right.arg_types
    | .FUN =>
      some (type_left.dom_type == type_right.dom_type &&
        type_left.codom_type == type_right.codom_type)
    | .ARRAY => some (type_left.elem_type == type_right.elem_type)
    | .PARAM => some (type_left.name == type_right.name)
    | _ => some true

/-- The comparator as the hash table calls it for a probe: the stored element is a
`Type*` into the arena and is the left argument of `compare_types`. -/
def compare_stored (type_table : TypeTable) (probe : LType) (elem : Nat) : Option Bool :=
  match type_table.mem_pool[elem]? with
  | none => none
  | some t => compare_types t probe

/-- The function `get_or_insert_type`.  Ids count arena objects, so the counter is
an unbounded number: it cannot wrap before the arena is exhausted. -/
def get_or_insert_type (H : HashFns) (type_table : TypeTable) (type : LType) :
    Option (Nat × TypeTable) :=
  match hash_type H type_table H.hash_init type with
  | none => none
  | some hash =>
    match find_in_hash_table (compare_stored type_table type) hash type_table.types with
    | none => none
    | some (some type_ptr) => some (type_ptr, type_table)
    | some none =>
      let new_type : LType := { type with id := type_table.type_count }
      let ptr := type_table.mem_pool.length
      let grown : TypeTable :=
        { type_table with
          mem_pool := type_table.mem_pool ++ [new_type]
          type_count := type_table.type_count + 1 }
      match insert_in_hash_table (compare_stored grown new_type) hash ptr grown.types with
      | some (types, true) => some (ptr, { grown with types := types })
      | _ => none

/-- The function `make_prim_type`; `none` when `assert(is_prim_type(tag))` fails. -/
def make_prim_type (H : HashFns) (type_table : TypeTable) (tag : TypeTag) :
    Option (Nat × TypeTable) :=
  if is_prim_type tag then get_or_insert_type H type_table { tag := tag } else none

/-- The function `make_unknown_type`. -/
def make_unknown_type (H : HashFns) (type_table : TypeTable) : Option (Nat × TypeTable) :=
  get_or_insert_type H type_table { tag := .UNKNOWN }

/-- The function `make_type_param`. -/
def make_type_param (H : HashFns) (type_table : TypeTable) (name : String) :
    Option (Nat × TypeTable) :=
  let interned := make_str type_table.str_pool name
  get_or_insert_type H { type_table with str_pool := interned.2 }
    { tag := .PARAM, name := interned.1 }

/-- The function `make_tuple_type`; `arg_count` is the length of `arg_types`. -/
def make_tuple_type (H : HashFns) (type_table : TypeTable) (arg_types : List Nat) :
    Option (Nat × TypeTable) :=
  get_or_insert_type H type_table { tag := .TUPLE, arg_types := arg_types }

/-- The function `make_fun_type`. -/
def make_fun_type (H : HashFns) (type_table : TypeTable) (dom_type codom_type : Nat) :
    Option (Nat × TypeTable) :=
  get_or_insert_type H type_table
    { tag := .FUN, dom_type := dom_type, codom_type := codom_type }

/-- The function `make_array_type`. -/
def make_array_type (H : HashFns) (type_table : TypeTable) (elem_type : Nat) :
    Option (Nat × TypeTable) :=
  get_or_insert_type H type_table { tag := .ARRAY, elem_type := elem_type }

/-- One call of a hash-consing constructor of `types.c`, with its arguments. -/
inductive TypeCall where
  | prim_type (tag : TypeTag)
  | unknown_type
  | type_param (name : String)
  | tuple_type (arg_types : List Nat)
  | fun_type (dom_type codom_type : Nat)
  | array_type (elem_type : Nat)
deriving DecidableEq, Repr

/-- Performing a constructor call on a type table. -/
def TypeCall.run (H : HashFns) (type_table : TypeTable) : TypeCall → Option (Nat × TypeTable)
  | .prim_type tag => make_prim_type H type_table tag
  | .unknown_type => make_unknown_type H type_table
  | .type_param name => make_type_param H type_table name
  | .tuple_type arg_types => make_tuple_type H type_table arg_types
  | .fun_type dom_type codom_type => make_fun_type H type_table dom_type codom_type
  | .array_type elem_type => make_array_type H type_table elem_type

/-- A 32-bit instance of the hash primitives in the style of FNV-1a, one round per
hashed value; used to run the definitions on concrete inputs. -/
def fnvHash : HashFns :=
  { hash_init := 0x811C9DC5
    hash_uint32 := fun h x => ((h ^^^ x) * 0x01000193) % 2 ^ 32
    hash_uint64 := fun h x => ((h ^^^ x) * 0x01000193) % 2 ^ 32
    hash_str := fun h s => s.foldl (fun acc c => ((acc ^^^ c.toNat) * 0x01000193) % 2 ^ 32) h }

/-- A later state of a type table: the hash table, the string pool and the arena have
only grown at their ends, which is all the constructors of `types.c` ever do. -/
def TableExtends (t1 t2 : TypeTable) : Prop :=
  (∃ l, t2.types = t1.types ++ l) ∧ (∃ l, t2.str_pool = t1.str_pool ++ l) ∧
  (∃ l, t2.mem_pool = t1.mem_pool ++ l)

/-- The table after `make_prim_type(BOOL)` and `make_prim_type(I32)` on a new table,
hashed with `fnvHash`: `Bool` is pointer 0 and `I32` is pointer 1. -/
def boolI32Table : TypeTable :=
  { types := [(84696351, 0), (101473970, 1)]
    str_pool := []
    mem_pool := [{ tag := .BOOL, id := 0 }, { tag := .I32, id := 1 }]
    type_count := 2 }

/-- The table `boolI32Table` after `make_tuple_type` of `(I32, Bool)`: pointer 2. -/
def pairTable : TypeTable :=
  { types := [(84696351, 0), (101473970, 1), (761760769, 2)]
    str_pool := []
    mem_pool := [{ tag := .BOOL, id := 0 }, { tag := .I32, id := 1 },
      { tag := .TUPLE, id := 2, arg_types := [1, 0] }]
    type_count := 3 }

/-- The table `pairTable` after `make_array_type` of the pair: pointer 3. -/
def pairArrayTable : TypeTable :=
  { types := [(84696351, 0), (101473970, 1), (761760769, 2), (3447912628, 3)]
    str_pool := []
    mem_pool := [{ tag := .BOOL, id := 0 }, { tag := .I32, id := 1 },
      { tag := .TUPLE, id := 2, arg_types := [1, 0] }, { tag := .ARRAY, id := 3, elem_type := 2 }]
    type_count := 4 }

/-- The hash of the probe `make_tuple_type` builds for `n` copies of one argument
type whose id is `id`: the tag, then `n` rounds of `hash_uint64`. -/
def repeated_tuple_hash (H : HashFns) (id n : Nat) : Nat :=
  (fun h => H.hash_uint64 h id)^[n] (H.hash_uint32 H.hash_init TypeTag.TUPLE.code)

/-! ## Bidirectional checker (`src/fu/lang/check.c`) -/

/-- The AST nodes the checker dispatches on, one constructor per `tag` it names.
`addr` is the address of the node: it identifies the node's `type` slot and its
`file_loc`.  Sibling nodes linked through `next` form a list.  `decl_site` of a path
is the address of the declaring node, `none` when null.  `other` is a node of any tag
the checker does not name. -/
inductive AstNode where
  | path (addr : Nat) (decl_site : Option Nat)
  | int_literal (addr : Nat)
  | float_literal (addr : Nat)
  | bool_literal (addr : Nat)
  | char_literal (addr : Nat)
  | str_literal (addr : Nat)
  | typed_expr (addr : Nat) (left : AstNode) (type : AstNode)
  | if_expr (addr : Nat) (cond : AstNode) (then_expr : AstNode) (else_expr : Option AstNode)
  | tuple_expr (addr : Nat) (args : List AstNode)
  | tuple_pattern (addr : Nat) (args : List AstNode)
  | typed_pattern (addr : Nat) (left : AstNode) (type : AstNode)
  | prim_type (addr : Nat) (tag : TypeTag)
  | tuple_type (addr : Nat) (args : List AstNode)
  | fun_decl (addr : Nat)
  | struct_decl (addr : Nat)
  | enum_decl (addr : Nat)
  | type_decl (addr : Nat)
  | var_decl (addr : Nat) (pattern : AstNode) (init : AstNode)
  | const_decl (addr : Nat) (pattern : AstNode) (init : AstNode)
  | other (addr : Nat) (tag : Nat)

/-- The address of a node, which stands for its `file_loc` and its `type` slot. -/
def AstNode.addr : AstNode → Nat
  | .path addr _ | .int_literal addr | .float_literal addr | .bool_literal addr
  | .char_literal addr | .str_literal addr | .typed_expr addr _ _ | .if_expr addr _ _ _
  | .tuple_expr addr _ | .tuple_pattern addr _ | .typed_pattern addr _ _ | .prim_type addr _
  | .tuple_type addr _ | .fun_decl addr | .struct_decl addr | .enum_decl addr
  | .type_decl addr | .var_decl addr _ _ | .const_decl addr _ _ | .other addr _ => addr

/-- The function `get_ast_list_length`. -/
def get_ast_list_length : List AstNode → Nat
  | [] => 0
  | _ :: next => get_ast_list_length next + 1

/-- The messages `check.c` passes to `log_error`, one constructor per format string,
with the `file_loc` (the address of the node it belongs to) and the arguments. -/
inductive LogMsg where
  /-- The message "expected S type T1, but got type T2", where S is "at most" for an
  upper bound and "at least" otherwise, T1 the expected type and T2 the type. -/
  | expected_bound (loc : Nat) (is_upper_bound : Bool) (expected_type type : Nat)
  /-- The message "expected type T, but got S". -/
  | expected_but_got (loc : Nat) (type : Nat) (msg : String)
  /-- The message "cannot infer type for S". -/
  | cannot_infer (loc : Nat) (msg : String)
  /-- The message "expected tuple with N argument(s), but got M". -/
  | expected_tuple (loc : Nat) (expected got : Nat)
deriving DecidableEq, Repr

/-- The record `Log` as far as `log_error` changes it: the error counter and the
messages formatted so far. -/
structure Log where
  error_count : Nat
  msgs : List LogMsg
deriving DecidableEq, Repr

/-- The state the checker works on: the log and the type table of `TypingContext`,
and the `type` slots of the AST nodes, keyed by node address, latest write first. -/
structure TypingContext where
  log : Log
  type_table : TypeTable
  node_types : List (Nat × Nat)
deriving DecidableEq, Repr

/-- The function `log_error` of `core/log.c`: it counts the error and emits the
message. -/
def log_error (context : TypingContext) (msg : LogMsg) : TypingContext :=
  { context with
    log := { error_count := context.log.error_count + 1, msgs := context.log.msgs ++ [msg] } }

/-- The assignment `node->type = type`. -/
def set_type (context : TypingContext) (addr type : Nat) : TypingContext :=
  { context with node_types := (addr, type) :: context.node_types }

/-- Reading `node->type`; `none` is a slot never written (null). -/
def get_type (context : TypingContext) (addr : Nat) : Option Nat :=
  context.node_types.lookup addr

/-- Dereferencing a `const Type*`; `none` when it is not an object of the arena. -/
def deref_type (context : TypingContext) (type : Nat) : Option LType :=
  context.type_table.mem_pool[type]?

/-- A type-table constructor run on the table of the context. -/
def with_type_table (context : TypingContext) (res : Option (Nat × TypeTable)) :
    Option (Nat × TypingContext) :=
  res.map (fun r => (r.1, { context with type_table := r.2 }))

/-- Modelled from the spec: `make_error_type` of `type_table.h`, the constructor of
the "error (poisoned)" sentinel: interned like the unknown sentinel, with the
"contains error" flag set. -/
def make_error_type (H : HashFns) (type_table : TypeTable) : Option (Nat × TypeTable) :=
  get_or_insert_type H type_table { tag := .ERROR, contains_error := true }

/-- Modelled from the spec: `is_float_type` of `types.h`, the floating-point
primitive tags. -/
def is_float_type (tag : TypeTag) : Bool :=
  match tag with
  | .F32 | .F64 => true
  | _ => false

/-- Modelled from the spec: `is_int_or_float_type` of `types.h`, the "primitive
numeric" tags: the integer and the floating-point ones. -/
def is_int_or_float_type (tag : TypeTag) : Bool :=
  match tag with
  | .I8 | .I16 | .I32 | .I64 | .U8 | .U16 | .U32 | .U64 | .F32 | .F64 => true
  | _ => false

/-- The two functions that `check.c` passes as `check_arg` / `check_one`. -/
inductive CheckFn where
  | check_expr
  | check_pattern
deriving DecidableEq, Repr

section Checker

variable (H : HashFns) (is_subtype : TypeTable → Nat → Nat → Bool)

/-- The function `expect_type`.  `is_subtype` is the external primitive; it may read
the type objects, hence the table argument.  The `&&` chain reads
`expected_type->contains_error` and `type->contains_error` only as far as needed. -/
def expect_type (context : TypingContext) (type expected_type : Nat) (is_upper_bound : Bool)
    (file_loc : Nat) : Option (Nat × TypingContext) :=
  let matches_bound :=
    if is_upper_bound then is_subtype context.type_table type expected_type
    else is_subtype context.type_table expected_type type
  if matches_bound then some (type, context)
  else
    match deref_type context expected_type with
    | none => none
    | some et =>
      if et.contains_error then some (type, context)
      else
        match deref_type context type with
        | none => none
        | some t =>
          if t.contains_error then some (type, context)
          else
            let logged := log_error context
              (.expected_bound file_loc is_upper_bound expected_type type)
            with_type_table logged (make_error_type H logged.type_table)

/-- The function `fail_expect`. -/
def fail_expect (context : TypingContext) (msg : String) (type : Nat) (file_loc : Nat) :
    Option (Nat × TypingContext) :=
  match deref_type context type with
  | none => none
  | some t =>
    let logged :=
      if !t.contains_error then log_error context (.expected_but_got file_loc type msg)
      else context
    with_type_table logged (make_error_type H logged.type_table)

/-- The function `fail_infer`. -/
def fail_infer (context : TypingContext) (msg : String) (file_loc : Nat) :
    Option (Nat × TypingContext) :=
  let logged := log_error context (.cannot_infer file_loc msg)
  with_type_table logged (make_error_type H logged.type_table)

/-- The function `expect_int_or_float_literal`. -/
def expect_int_or_float_literal (context : TypingContext) (type : Nat) (file_loc : Nat) :
    Option (Nat × TypingContext) :=
  match deref_type context type with
  | none => none
  | some t =>
    if !is_int_or_float_type t.tag then
      fail_expect H context "integer or floating-point literal" type file_loc
    else some (type, context)

/-- The function `expect_float_literal`. -/
def expect_float_literal (context : TypingContext) (type : Nat) (file_loc : Nat) :
    Option (Nat × TypingContext) :=
  match deref_type context type with
  | none => none
  | some t =>
    if !is_float_type t.tag then fail_expect H context "floating-point literal" type file_loc
    else some (type, context)

/-- The function `infer_path`: `path->path.decl_site->type`, which must be set. -/
def infer_path (context : TypingContext) (decl_site : Option Nat) : Option (Nat × TypingContext) :=
  match decl_site with
  | none => none
  | some site =>
    match get_type context site with
    | none => none
    | some type => some (type, context)

/-- The end of `check_if_expr` when there is an else branch, once both branch types
are known: the two statements
`if (is_subtype(else_type, then_type)) return if_expr->type = else_type;` and
`return if_expr->type = expect_type(context, then_type, else_type, true, ...);`. -/
def check_if_expr_branches (context : TypingContext) (addr then_type else_type : Nat) :
    Option (Nat × TypingContext) :=
  if is_subtype context.type_table else_type then_type then
    some (else_type, set_type context addr else_type)
  else
    match expect_type H is_subtype context then_type else_type true addr with
    | none => none
    | some (type, context1) => some (type, set_type context1 addr type)

mutual
/-- The function `infer_type`; the primitive cases are generated from
`AST_PRIM_TYPE_LIST`, and `infer_tuple` is only ever passed `infer_type`. -/
def infer_type (context : TypingContext) : AstNode → Option (Nat × TypingContext)
  | .prim_type _ tag =>
    if is_prim_type tag then with_type_table context (make_prim_type H context.type_table tag)
    else none
  | .tuple_type addr args => infer_tuple context addr args
  | _ => none
/-- The function `infer_tuple`, applied to the node at `addr` with arguments `args`. -/
def infer_tuple (context : TypingContext) (addr : Nat) (args : List AstNode) :
    Option (Nat × TypingContext) :=
  match infer_many context args with
  | none => none
  | some (arg_types, context1) =>
    match make_tuple_type H context1.type_table arg_types with
    | none => none
    | some (type, type_table) =>
      some (type, set_type { context1 with type_table := type_table } addr type)
/-- The function `infer_many`. -/
def infer_many (context : TypingContext) : List AstNode → Option (List Nat × TypingContext)
  | [] => some ([], context)
  | elem :: next =>
    match infer_type context elem with
    | none => none
    | some (type, context1) =>
      match infer_many context1 next with
      | none => none
      | some (types, context2) => some (type :: types, context2)
end

mutual
/-- The indirect call `check_one(context, elem, expected)` through the function
pointer. -/
def call_check (check_one : CheckFn) (context : TypingContext) (elem : AstNode)
    (expected_type : Nat) : Option (Nat × TypingContext) :=
  match check_one with
  | .check_expr => check_expr context elem expected_type
  | .check_pattern => check_pattern context elem expected_type
termination_by 4 * sizeOf elem + 2
/-- The function `check_many`: element `i` is checked against `expected_types[i]`. -/
def check_many (context : TypingContext) (elems : List AstNode) (expected_types : List Nat)
    (check_one : CheckFn) : Option (List Nat × TypingContext) :=
  match elems, expected_types with
  | [], _ => some ([], context)
  | _ :: _, [] => none
  | elem :: next, expected :: rest =>
    match call_check check_one context elem expected with
    | none => none
    | some (type, context1) =>
      match check_many context1 next rest check_one with
      | none => none
      | some (types, context2) => some (type :: types, context2)
termination_by 4 * sizeOf elems
/-- The function `check_tuple`, applied to the tuple node at `addr` with arguments
`args`. -/
def check_tuple (context : TypingContext) (addr : Nat) (args : List AstNode) (expected_type : Nat)
    (check_arg : CheckFn) : Option (Nat × TypingContext) :=
  match deref_type context expected_type with
  | none => none
  | some et =>
    if et.tag ≠ .TUPLE then none
    else
      let arg_count := get_ast_list_length args
      if et.arg_count ≠ arg_count then
        let logged := log_error context (.expected_tuple addr et.arg_count arg_count)
        with_type_table logged (make_error_type H logged.type_table)
      else
        match check_many context args et.arg_types check_arg with
        | none => none
        | some (arg_types, context1) =>
          match make_tuple_type H context1.type_table arg_types with
          | none => none
          | some (type, type_table) =>
            some (type, set_type { context1 with type_table := type_table } addr type)
termination_by 4 * sizeOf args + 1
/-- The function `check_cond`. -/
def check_cond (context : TypingContext) (cond : AstNode) : Option (Nat × TypingContext) :=
  match make_prim_type H context.type_table .BOOL with
  | none => none
  | some (bool_type, type_table) =>
    check_expr { context with type_table := type_table } cond bool_type
termination_by 4 * sizeOf cond + 2
/-- The function `check_if_expr`, applied to the node at `addr` with its three
children; the two cases are `if_expr->if_expr.else_expr` null and not null. -/
def check_if_expr (context : TypingContext) (addr : Nat) (cond then_expr : AstNode)
    (else_expr : Option AstNode) (expected_type : Nat) : Option (Nat × TypingContext) :=
  match else_expr with
  | none =>
    match check_cond context cond with
    | none => none
    | some (_, context1) =>
      match check_expr context1 then_expr expected_type with
      | none => none
      | some (then_type, context2) => some (then_type, set_type context2 addr then_type)
  | some else_node =>
    match check_cond context cond with
    | none => none
    | some (_, context1) =>
      match check_expr context1 then_expr expected_type with
      | none => none
      | some (then_type, context2) =>
        match check_expr context2 else_node expected_type with
        | none => none
        | some (else_type, context3) =>
          check_if_expr_branches H is_subtype context3 addr then_type else_type
termination_by 4 * (sizeOf cond + sizeOf then_expr + sizeOf else_expr) + 3
/-- The function `infer_expr`; `none` in the default case is
`assert(false && "invalid expression")`. -/
def infer_expr (context : TypingContext) (expr : AstNode) : Option (Nat × TypingContext) :=
  match expr with
  | .int_literal addr =>
    match make_prim_type H context.type_table .I32 with
    | none => none
    | some (type, type_table) => some (type, set_type { context with type_table := type_table } addr type)
  | .float_literal addr =>
    match make_prim_type H context.type_table .F32 with
    | none => none
    | some (type, type_table) => some (type, set_type { context with type_table := type_table } addr type)
  | .bool_literal addr =>
    match make_prim_type H context.type_table .BOOL with
    | none => none
    | some (type, type_table) => some (type, set_type { context with type_table := type_table } addr type)
  | .char_literal addr =>
    match make_prim_type H context.type_table .U8 with
    | none => none
    | some (type, type_table) => some (type, set_type { context with type_table := type_table } addr type)
  | .str_literal addr =>
    match make_prim_type H context.type_table .U8 with
    | none => none
    | some (elem_type, type_table1) =>
      match make_array_type H type_table1 elem_type with
      | none => none
      | some (type, type_table) =>
        some (type, set_type { context with type_table := type_table } addr type)
  | .typed_expr addr left type =>
    match infer_type H context type with
    | none => none
    | some (annotated, context1) =>
      match check_expr context1 left annotated with
      | none => none
      | some (result, context2) => some (result, set_type context2 addr result)
  | .if_expr addr cond then_expr else_expr =>
    match make_unknown_type H context.type_table with
    | none => none
    | some (unknown, type_table) =>
      check_if_expr { context with type_table := type_table } addr cond then_expr else_expr unknown
  | _ => none
termination_by 4 * sizeOf expr
/-- The function `check_expr`. -/
def check_expr (context : TypingContext) (expr : AstNode) (expected_type : Nat) :
    Option (Nat × TypingContext) :=
  match deref_type context expected_type with
  | none => none
  | some et =>
    if et.tag = .UNKNOWN then infer_expr context expr
    else
      match expr with
      | .path addr decl_site =>
        match infer_path context decl_site with
        | none => none
        | some (type, context1) =>
          match expect_type H is_subtype context1 type expected_type true addr with
          | none => none
          | some (result, context2) => some (result, set_type context2 addr result)
      | .int_literal addr =>
        match expect_int_or_float_literal H context expected_type addr with
        | none => none
        | some (result, context1) => some (result, set_type context1 addr result)
      | .tuple_expr addr args =>
        if et.tag = .TUPLE then check_tuple context addr args expected_type .check_expr
        else
          match fail_expect H context "tuple expression" expected_type addr with
          | none => none
          | some (result, context1) => some (result, set_type context1 addr result)
      | .if_expr addr cond then_expr else_expr =>
        check_if_expr context addr cond then_expr else_expr expected_type
      | other =>
        match infer_expr context other with
        | none => none
        | some (type, context1) =>
          expect_type H is_subtype context1 type expected_type true other.addr
termination_by 4 * sizeOf expr + 1
/-- The function `infer_pattern`; `none` in the default case is
`assert(false && "invalid pattern")`. -/
def infer_pattern (context : TypingContext) (pattern : AstNode) : Option (Nat × TypingContext) :=
  match pattern with
  | .path addr decl_site =>
    if decl_site.isSome then infer_path context decl_site
    else fail_infer H context "pattern" addr
  | .typed_pattern addr left type =>
    match infer_type H context type with
    | none => none
    | some (annotated, context1) =>
      match check_pattern context1 left annotated with
      | none => none
      | some (result, context2) => some (result, set_type context2 addr result)
  | _ => none
termination_by 4 * sizeOf pattern
/-- The function `check_pattern`. -/
def check_pattern (context : TypingContext) (pattern : AstNode) (expected_type : Nat) :
    Option (Nat × TypingContext) :=
  match deref_type context expected_type with
  | none => none
  | some et =>
    if et.tag = .UNKNOWN then infer_pattern context pattern
    else
      match pattern with
      | .tuple_pattern addr args =>
        if et.tag = .TUPLE then check_tuple context addr args expected_type .check_pattern
        else fail_expect H context "tuple pattern" expected_type addr
      | .path addr decl_site =>
        if decl_site.isNone then
          if et.contains_unknown then fail_infer H context "pattern" addr
          else some (expected_type, set_type context addr expected_type)
        else
          match infer_pattern context (.path addr decl_site) with
          | none => none
          | some (type, context1) => expect_type H is_subtype context1 type expected_type false addr
      | other =>
        match infer_pattern context other with
        | none => none
        | some (type, context1) =>
          expect_type H is_subtype context1 type expected_type false other.addr
termination_by 4 * sizeOf pattern + 1
end

/-- The expected type of argument `i` in the loop of `check_pattern_and_expr`:
`expected_type->tuple_type.arg_types[i]` when the expected type is a tuple, and
`make_unknown_type(context->type_table)` otherwise. -/
def expected_arg_type (context : TypingContext) (et : LType) (i : Nat) :
    Option (Nat × TypingContext) :=
  if et.tag = .TUPLE then (et.arg_types[i]?).map (fun t => (t, context))
  else with_type_table context (make_unknown_type H context.type_table)

mutual
/-- The loop of `check_pattern_and_expr` over the two argument lists: argument `i` is
checked against `expected_type->tuple_type.arg_types[i]` when the expected type is a
tuple and against `make_unknown_type(...)` otherwise. -/
def check_pattern_and_expr_args (context : TypingContext) (et : LType) (i : Nat)
    (pattern_args expr_args : List AstNode) : Option (List Nat × TypingContext) :=
  match pattern_args, expr_args with
  | [], _ => some ([], context)
  | _ :: _, [] => none
  | pattern_arg :: pattern_next, expr_arg :: expr_next =>
    match expected_arg_type H context et i with
    | none => none
    | some (arg_type, context1) =>
      match check_pattern_and_expr context1 pattern_arg expr_arg arg_type with
      | none => none
      | some (type, context2) =>
        match check_pattern_and_expr_args context2 et (i + 1) pattern_next expr_next with
        | none => none
        | some (types, context3) => some (type :: types, context3)
termination_by 2 * sizeOf pattern_args
/-- The function `check_pattern_and_expr`. -/
def check_pattern_and_expr (context : TypingContext) (pattern expr : AstNode)
    (expected_type : Nat) : Option (Nat × TypingContext) :=
  let fallback : Option (Nat × TypingContext) :=
    match check_expr H is_subtype context expr expected_type with
    | none => none
    | some (type, context1) => check_pattern H is_subtype context1 pattern type
  match deref_type context expected_type with
  | none => none
  | some et =>
    match pattern with
    | .tuple_pattern _ pattern_args =>
      match expr with
      | .tuple_expr _ expr_args =>
        if et.tag = .UNKNOWN ∨ et.tag = .TUPLE then
          let arg_count := get_ast_list_length pattern_args
          if arg_count = get_ast_list_length expr_args ∧
              (et.tag ≠ .TUPLE ∨ et.arg_count = arg_count) then
            match check_pattern_and_expr_args context et 0 pattern_args expr_args with
            | none => none
            | some (arg_types, context1) =>
              with_type_table context1 (make_tuple_type H context1.type_table arg_types)
          else fallback
        else fallback
      | _ => fallback
    | .typed_pattern _ _ _ =>
      match check_pattern H is_subtype context pattern expected_type with
      | none => none
      | some (type, context1) => check_expr H is_subtype context1 expr type
    | _ => fallback
termination_by 2 * sizeOf pattern + 1
end

/-- The function `check_const_or_var_decl`. -/
def check_const_or_var_decl (context : TypingContext) (pattern init : AstNode)
    (expected_type : Nat) : Option (Nat × TypingContext) :=
  check_pattern_and_expr H is_subtype context pattern init expected_type

/-- The function `check_decl`; the four unimplemented kinds return the error type,
and `none` in the default case is `assert(false && "invalid declaration")`. -/
def check_decl (context : TypingContext) (decl : AstNode) (expected_type : Nat) :
    Option (Nat × TypingContext) :=
  match decl with
  | .fun_decl _ | .struct_decl _ | .enum_decl _ | .type_decl _ =>
    with_type_table context (make_error_type H context.type_table)
  | .var_decl _ pattern init | .const_decl _ pattern init =>
    check_const_or_var_decl H is_subtype context pattern init expected_type
  | _ => none

end Checker

/-- The elementwise discipline the spec describes for tuples: the elements are
checked one after the other, in order, each check starting from the state the
previous one left, and the results are collected in the same order. -/
def check_in_order {α : Type} (check_one : TypingContext → α → Option (Nat × TypingContext)) :
    TypingContext → List α → Option (List Nat × TypingContext)
  | context, [] => some ([], context)
  | context, x :: xs =>
    match check_one context x with
    | none => none
    | some (type, context1) =>
      match check_in_order check_one context1 xs with
      | none => none
      | some (types, context2) => some (type :: types, context2)


/-- Every element stored in the hash table is an object of the arena. -/
def TableOk (type_table : TypeTable) : Prop :=
  ∀ e ∈ type_table.types, e.2 < type_table.mem_pool.length

/-- The contexts used to run the checker on concrete inputs share an empty log. -/
def emptyLog : Log := { error_count := 0, msgs := [] }

/-- A subtype relation for concrete runs: equality of types, plus `I32` below `F32`. -/
def sampleSubtype (type_table : TypeTable) (a b : Nat) : Bool :=
  a == b ||
    ((type_table.mem_pool[a]?).map (fun t => t.tag) == some TypeTag.I32 &&
      (type_table.mem_pool[b]?).map (fun t => t.tag) == some TypeTag.F32)

/-- The context holding `I32` (pointer 0) and the tuple type `(I32, I32)` (pointer 1). -/
def i32PairContext : TypingContext :=
  { log := emptyLog
    type_table :=
      { types := [(101473970, 0), (124064152, 1)]
        str_pool := []
        mem_pool := [{ tag := .I32, id := 0 }, { tag := .TUPLE, id := 1, arg_types := [0, 0] }]
        type_count := 2 }
    node_types := [] }

/-- The pattern `(x, y, z)` with three unbound names, at addresses 10 to 13. -/
def patternXYZ : List AstNode :=
  [.path 11 none, .path 12 none, .path 13 none]

/-- The context holding `Bool` (pointer 0) and the tuple type `(Bool, Bool)`
(pointer 1). -/
def boolPairContext : TypingContext :=
  { log := emptyLog
    type_table :=
      { types := [(84696351, 0), (124064152, 1)]
        str_pool := []
        mem_pool := [{ tag := .BOOL, id := 0 }, { tag := .TUPLE, id := 1, arg_types := [0, 0] }]
        type_count := 2 }
    node_types := [] }

/-- The arguments of the tuple expression `(1, true)`, at addresses 21 and 22. -/
def argsOneTrue : List AstNode :=
  [.int_literal 21, .bool_literal 22]

/-- The state after checking `(1, true)` (the node at address 20) against
`(Bool, Bool)`: one logged error, the error type at pointer 2 and the tuple type
`(error, Bool)` at pointer 3, stored in the slot of node 20. -/
def boolPairChecked : TypingContext :=
  { log := { error_count := 1
             msgs := [.expected_but_got 21 0 "integer or floating-point literal"] }
    type_table :=
      { types := [(84696351, 0), (124064152, 1), (151806827, 2), (1399457386, 3)]
        str_pool := []
        mem_pool := [{ tag := .BOOL, id := 0 }, { tag := .TUPLE, id := 1, arg_types := [0, 0] },
          { tag := .ERROR, id := 2, contains_error := true },
          { tag := .TUPLE, id := 3, arg_types := [2, 0] }]
        type_count := 4 }
    node_types := [(20, 3), (22, 0), (21, 2)] }

/-- The context in which only the unknown sentinel (pointer 0) has been made. -/
def unknownContext : TypingContext :=
  { log := emptyLog
    type_table :=
      { types := [(235694922, 0)]
        str_pool := []
        mem_pool := [{ tag := .UNKNOWN, id := 0 }]
        type_count := 1 }
    node_types := [] }

/-- The arguments of the pattern `(x, y: Bool)` with unbound `x` (address 11) and `y`
(address 13); the typed pattern is node 12 and its annotation node 14. -/
def argsXYBool : List AstNode :=
  [.path 11 none, .typed_pattern 12 (.path 13 none) (.prim_type 14 .BOOL)]

/-- The state after co-checking `(x, y: Bool)` with `(1, true)` without expectation:
no error, `I32` at pointer 1, `Bool` at pointer 2, the tuple type `(I32, Bool)` at
pointer 3, and the slots of `x`, `y`, the typed pattern and the two literals filled. -/
def unknownChecked : TypingContext :=
  { log := emptyLog
    type_table :=
      { types := [(235694922, 0), (101473970, 1), (84696351, 2), (728205531, 3)]
        str_pool := []
        mem_pool := [{ tag := .UNKNOWN, id := 0 }, { tag := .I32, id := 1 },
          { tag := .BOOL, id := 2 }, { tag := .TUPLE, id := 3, arg_types := [1, 2] }]
        type_count := 4 }
    node_types := [(22, 2), (12, 2), (13, 2), (11, 1), (21, 1)] }

/-- The nodes of `if true { 1 } else { 1.5 }`: the condition at address 31, the
branches at 32 and 33; the if-expression itself is node 30. -/
def ifCond : AstNode := .bool_literal 31

/-- The then-branch `1` of the example. -/
def ifThen : AstNode := .int_literal 32

/-- The else-branch `1.5` of the example. -/
def ifElse : AstNode := .float_literal 33

/-- The state after `check_cond` in `unknownContext`: `Bool` is pointer 1. -/
def ifCondChecked : TypingContext :=
  { log := emptyLog
    type_table :=
      { types := [(235694922, 0), (84696351, 1)]
        str_pool := []
        mem_pool := [{ tag := .UNKNOWN, id := 0 }, { tag := .BOOL, id := 1 }]
        type_count := 2 }
    node_types := [(31, 1)] }

/-- The state after the then-branch: `I32` is pointer 2. -/
def ifThenChecked : TypingContext :=
  { log := emptyLog
    type_table :=
      { types := [(235694922, 0), (84696351, 1), (101473970, 2)]
        str_pool := []
        mem_pool := [{ tag := .UNKNOWN, id := 0 }, { tag := .BOOL, id := 1 },
          { tag := .I32, id := 2 }]
        type_count := 3 }
    node_types := [(32, 2), (31, 1)] }

/-- The state after the else-branch: `F32` is pointer 3. -/
def ifElseChecked : TypingContext :=
  { log := emptyLog
    type_table :=
      { types := [(235694922, 0), (84696351, 1), (101473970, 2), (202139684, 3)]
        str_pool := []
        mem_pool := [{ tag := .UNKNOWN, id := 0 }, { tag := .BOOL, id := 1 },
          { tag := .I32, id := 2 }, { tag := .F32, id := 3 }]
        type_count := 4 }
    node_types := [(33, 3), (32, 2), (31, 1)] }

/-! ## Definitions for the arena invariants -/

/-- One operation on a pool: an allocation request or a reset. -/
inductive PoolOp where
  | alloc (size : Nat)
  | reset
deriving DecidableEq, Repr

/-- A sequence of `alloc_from_mem_pool` and `reset_mem_pool` calls; the result holds
the pointers the allocations returned, in order, and the final pool. -/
def run_pool_ops (max_align : Nat) : MemPool → List PoolOp → Option (List (Nat × Nat) × MemPool)
  | mem_pool, [] => some ([], mem_pool)
  | mem_pool, .alloc size :: ops =>
    match alloc_from_mem_pool max_align mem_pool size with
    | none => none
    | some (ptr, mem_pool1) =>
      (run_pool_ops max_align mem_pool1 ops).map (fun res => (ptr :: res.1, res.2))
  | mem_pool, .reset :: ops => run_pool_ops max_align (reset_mem_pool mem_pool) ops

/-- The invariant of the arena: `cur` is null exactly on the empty pool; otherwise it
is a block of the list, every block has `size <= capacity`, and every block behind
`cur` has `size == 0`. -/
def PoolOk (mem_pool : MemPool) : Prop :=
  match mem_pool.cur with
  | none => mem_pool.blocks = []
  | some c =>
    c < mem_pool.blocks.length ∧
    (∀ x ∈ mem_pool.blocks, x.size ≤ x.capacity) ∧
    (∀ i x, c < i → mem_pool.blocks[i]? = some x → x.size = 0)

/-- A block has room for `size` more bytes: `remaining_mem(block) >= size`. -/
def has_room (size : Nat) (block : MemBlock) : Bool :=
  decide (size ≤ block.capacity - block.size)

/-- The least multiple of `align` that is not smaller than `size`. -/
def least_multiple (size align : Nat) : Nat :=
  (size + align - 1) / align * align

/-! ## Definitions for the remaining functions of `src/ir/node.c` -/

/-- The loop of `contains_any_var_of` over `other->vars`; `fuel` bounds each binary
search. -/
def contains_any_var_loop (fuel : Nat) (var_set : ir_var_set) : List Nat → Option Bool
  | [] => some false
  | var :: rest =>
    match contains_var fuel var_set var with
    | none => none
    | some true => some true
    | some false => contains_any_var_loop fuel var_set rest

/-- The function `contains_any_var_of`. -/
def contains_any_var_of (fuel : Nat) (var_set other : ir_var_set) : Option Bool :=
  contains_any_var_loop fuel var_set other.vars

/-- The constant `SIZE_MAX` of a 64-bit `size_t`, the "variable" marker `N`. -/
def SIZE_MAX : Nat := 2 ^ 64 - 1

/-- The X-macro lists of `node.h`, which `node.c` only expands; they are a parameter
of the development.  An entry of `IR_KIND_LIST`, `IR_TYPE_LIST` or
`IR_SCALAR_OP_LIST` is kept as the enum constant it names (`IR_KIND_x`, `IR_TYPE_x`,
`IR_VAL_x`) with its operand count `n`.  An entry of `IR_VEC_OP_LIST` names two
constants, `IR_VAL_x` and `IR_VAL_Vx`, and is kept as (scalar tag, vector tag, `n`).
The entries of `IR_ARITH_OP_LIST`, `IR_CMP_OP_LIST` and `IR_BIT_OP_LIST`, expanded with
`other_op`, likewise name `IR_VAL_x` and `IR_VAL_Vx`. -/
structure NodeLists where
  kind_list : List (ir_node_tag × Nat)
  type_list : List (ir_node_tag × Nat)
  scalar_op_list : List (ir_node_tag × Nat)
  vec_op_list : List (ir_node_tag × ir_node_tag × Nat)
  arith_op_list : List (ir_node_tag × ir_node_tag)
  cmp_op_list : List (ir_node_tag × ir_node_tag)
  bit_op_list : List (ir_node_tag × ir_node_tag)

/-- The two case labels that `vec_op` generates in `get_expected_op_count` for each
entry of `IR_VEC_OP_LIST`: `case IR_VAL_Vx: return n == SIZE_MAX ? n : n + 1;` and
`case IR_VAL_x: return n;`, the sum being computed in `size_t`. -/
def vec_op_cases : List (ir_node_tag × ir_node_tag × Nat) → List (ir_node_tag × Nat)
  | [] => []
  | (scalar, vector, n) :: rest =>
    (vector, if n = SIZE_MAX then n else (n + 1) % 2 ^ 64) :: (scalar, n) :: vec_op_cases rest

/-- The case labels of the `switch` in `get_expected_op_count`, in textual order, each
with the value it returns. -/
def op_count_cases (L : NodeLists) : List (ir_node_tag × Nat) :=
  [(.IR_ERROR, 0), (.IR_CONST, 0), (.IR_VAR, SIZE_MAX)] ++ L.kind_list ++ L.type_list ++
    L.scalar_op_list ++ vec_op_cases L.vec_op_list

/-- The function `get_expected_op_count`: the value of the matching case, and
`SIZE_MAX` by default. -/
def get_expected_op_count (L : NodeLists) (tag : ir_node_tag) : Nat :=
  match (op_count_cases L).lookup tag with
  | some n => n
  | none => SIZE_MAX

/-- The function `to_vec_tag`: `case IR_VAL_x: return IR_VAL_Vx;` for the entries of
`IR_VEC_OP_LIST`, and `tag` by default. -/
def to_vec_tag (L : NodeLists) (tag : ir_node_tag) : ir_node_tag :=
  match (L.vec_op_list.map (fun e => (e.1, e.2.1))).lookup tag with
  | some vector => vector
  | none => tag

/-- The function `to_scalar_tag`: `case IR_VAL_Vx: return IR_VAL_x;` for the entries of
`IR_VEC_OP_LIST`, and `tag` by default. -/
def to_scalar_tag (L : NodeLists) (tag : ir_node_tag) : ir_node_tag :=
  match (L.vec_op_list.map (fun e => (e.2.1, e.1))).lookup tag with
  | some scalar => scalar
  | none => tag

/-- The predicate `is_vec_op`: `case IR_VAL_Vx:` for the entries of `IR_VEC_OP_LIST`. -/
def is_vec_op (L : NodeLists) (tag : ir_node_tag) : Bool :=
  L.vec_op_list.any (fun e => e.2.1 == tag)

/-- The predicate `is_arith_op`: `case IR_VAL_x: case IR_VAL_Vx:` for the entries of
`IR_ARITH_OP_LIST`. -/
def is_arith_op (L : NodeLists) (tag : ir_node_tag) : Bool :=
  L.arith_op_list.any (fun e => e.1 == tag || e.2 == tag)

/-- The predicate `is_cmp_op`, from `IR_CMP_OP_LIST`. -/
def is_cmp_op (L : NodeLists) (tag : ir_node_tag) : Bool :=
  L.cmp_op_list.any (fun e => e.1 == tag || e.2 == tag)

/-- The predicate `is_bit_op`, from `IR_BIT_OP_LIST`. -/
def is_bit_op (L : NodeLists) (tag : ir_node_tag) : Bool :=
  L.bit_op_list.any (fun e => e.1 == tag || e.2 == tag)

/-- The predicate `is_extract`. -/
def is_extract (tag : ir_node_tag) : Bool :=
  tag == .IR_VAL_EXTRACT || tag == .IR_VAL_VEXTRACT

/-- The predicate `is_insert`. -/
def is_insert (tag : ir_node_tag) : Bool :=
  tag == .IR_VAL_INSERT || tag == .IR_VAL_VINSERT

/-- The predicate `is_extract_or_insert`. -/
def is_extract_or_insert (tag : ir_node_tag) : Bool :=
  is_extract tag || is_insert tag

/-- The predicate `has_err`. -/
def has_err (tag : ir_node_tag) : Bool :=
  match tag with
  | .IR_VAL_UDIV | .IR_VAL_SDIV | .IR_VAL_UREM | .IR_VAL_SREM | .IR_VAL_FDIV | .IR_VAL_FREM
  | .IR_VAL_VUDIV | .IR_VAL_VSDIV | .IR_VAL_VUREM | .IR_VAL_VSREM | .IR_VAL_VFDIV
  | .IR_VAL_VFREM => true
  | _ => false

/-- The predicate `has_mem`. -/
def has_mem (tag : ir_node_tag) : Bool :=
  match tag with
  | .IR_VAL_ALLOC | .IR_VAL_LOAD | .IR_VAL_STORE | .IR_VAL_VLOAD | .IR_VAL_VSTORE => true
  | _ => false

/-- The function `to_val`; `none` when `assert(is_val(node))` fails. -/
def to_val (node : ir_node) : Option ir_node :=
  if is_val node then some node else none

/-- The operand index read by `get_vec_op_mask`. -/
def vec_op_mask_slot : Nat := 0

/-- The operand index read by `get_extract_or_insert_val`: `is_vec_op(tag) ? 1 : 0`. -/
def extract_or_insert_val_slot (L : NodeLists) (tag : ir_node_tag) : Nat :=
  if is_vec_op L tag then 1 else 0

/-- The operand index read by `get_extract_or_insert_index`: `is_vec_op(tag) ? 2 : 1`. -/
def extract_or_insert_index_slot (L : NodeLists) (tag : ir_node_tag) : Nat :=
  if is_vec_op L tag then 2 else 1

/-- The operand index read by `get_insert_elem`: `is_vec_op(tag) ? 3 : 2`. -/
def insert_elem_slot (L : NodeLists) (tag : ir_node_tag) : Nat :=
  if is_vec_op L tag then 3 else 2

/-- The operand index read by `get_err`: `is_vec_op(tag) ? 1 : 0`. -/
def err_slot (L : NodeLists) (tag : ir_node_tag) : Nat :=
  if is_vec_op L tag then 1 else 0

/-- The operand index read by `get_mem`: `is_vec_op(tag) ? 1 : 0`. -/
def mem_slot (L : NodeLists) (tag : ir_node_tag) : Nat :=
  if is_vec_op L tag then 1 else 0

/-- The operand index read by `get_left_operand`:
`(has_err(tag) ? 1 : 0) + (is_vec_op(tag) ? 1 : 0)`. -/
def left_operand_slot (L : NodeLists) (tag : ir_node_tag) : Nat :=
  (if has_err tag then 1 else 0) + (if is_vec_op L tag then 1 else 0)

/-- The operand index read by `get_right_operand`:
`(has_err(tag) ? 1 : 0) + (is_vec_op(tag) ? 2 : 1)`. -/
def right_operand_slot (L : NodeLists) (tag : ir_node_tag) : Nat :=
  (if has_err tag then 1 else 0) + (if is_vec_op L tag then 2 else 1)

/-- The function `get_vec_op_mask`; `none` is a failed assertion or a read past the
operands. -/
def get_vec_op_mask (L : NodeLists) (val : ir_node) : Option ir_node :=
  if is_vec_op L val.tag then (val.ops[vec_op_mask_slot]?).bind to_val else none

/-- The function `get_extract_or_insert_val`. -/
def get_extract_or_insert_val (L : NodeLists) (val : ir_node) : Option ir_node :=
  if is_extract_or_insert val.tag then
    (val.ops[extract_or_insert_val_slot L val.tag]?).bind to_val
  else none

/-- The function `get_extract_or_insert_index`. -/
def get_extract_or_insert_index (L : NodeLists) (val : ir_node) : Option ir_node :=
  if is_extract_or_insert val.tag then
    (val.ops[extract_or_insert_index_slot L val.tag]?).bind to_val
  else none

/-- The function `get_insert_elem`. -/
def get_insert_elem (L : NodeLists) (val : ir_node) : Option ir_node :=
  if is_insert val.tag then (val.ops[insert_elem_slot L val.tag]?).bind to_val else none

/-- The function `get_err`. -/
def get_err (L : NodeLists) (val : ir_node) : Option ir_node :=
  if has_err val.tag then (val.ops[err_slot L val.tag]?).bind to_val else none

/-- The function `get_mem`. -/
def get_mem (L : NodeLists) (val : ir_node) : Option ir_node :=
  if has_mem val.tag then (val.ops[mem_slot L val.tag]?).bind to_val else none

/-- The function `get_left_operand`. -/
def get_left_operand (L : NodeLists) (val : ir_node) : Option ir_node :=
  if is_arith_op L val.tag || is_cmp_op L val.tag || is_bit_op L val.tag then
    (val.ops[left_operand_slot L val.tag]?).bind to_val
  else none

/-- The function `get_right_operand`. -/
def get_right_operand (L : NodeLists) (val : ir_node) : Option ir_node :=
  if is_arith_op L val.tag || is_cmp_op L val.tag || is_bit_op L val.tag then
    (val.ops[right_operand_slot L val.tag]?).bind to_val
  else none

/-- The scalar and vector constants that `node.c` names in pairs, `IR_VAL_x` with
`IR_VAL_Vx`. -/
def named_vec_pairs : List (ir_node_tag × ir_node_tag) :=
  [(.IR_VAL_UDIV, .IR_VAL_VUDIV), (.IR_VAL_SDIV, .IR_VAL_VSDIV), (.IR_VAL_UREM, .IR_VAL_VUREM),
   (.IR_VAL_SREM, .IR_VAL_VSREM), (.IR_VAL_FDIV, .IR_VAL_VFDIV), (.IR_VAL_FREM, .IR_VAL_VFREM),
   (.IR_VAL_EXTRACT, .IR_VAL_VEXTRACT), (.IR_VAL_INSERT, .IR_VAL_VINSERT),
   (.IR_VAL_LOAD, .IR_VAL_VLOAD), (.IR_VAL_STORE, .IR_VAL_VSTORE)]

/-- What the C language guarantees about the lists: the case labels of the `switch`
in `get_expected_op_count` are pairwise distinct enum constants, and the operand counts
are `size_t` values. -/
def NodeLists.WellFormed (L : NodeLists) : Prop :=
  ((op_count_cases L).map (fun c => c.1)).Nodup ∧
  (∀ e ∈ L.vec_op_list, e.2.2 ≤ SIZE_MAX)

/-- The vector constants `IR_VAL_Vx` that `node.c` names are declared by
`IR_VEC_OP_LIST`: each pair named in `node.c` is an entry of the list. -/
def NodeLists.DeclaresNamedPairs (L : NodeLists) : Prop :=
  ∀ p ∈ named_vec_pairs, p ∈ L.vec_op_list.map (fun e => (e.1, e.2.1))

/-- A sample instance of the lists, built from the constants `node.c` names, with
`IR_OTHER 0` / `IR_OTHER 1` standing for one more vectorised binary operation and
`IR_OTHER 2` / `IR_OTHER 3` for a vectorised operation with a variable operand
count. -/
def sampleNodeLists : NodeLists :=
  { kind_list := [(.IR_KIND_NAT, 0)]
    type_list := [(.IR_TYPE_INT, 1), (.IR_TYPE_FLOAT, 1), (.IR_TYPE_ARRAY, SIZE_MAX),
      (.IR_TYPE_TUPLE, SIZE_MAX), (.IR_TYPE_OPTION, SIZE_MAX)]
    scalar_op_list := [(.IR_VAL_TUPLE, SIZE_MAX), (.IR_VAL_FUNC, 2), (.IR_VAL_LET, SIZE_MAX),
      (.IR_VAL_ALLOC, 2)]
    vec_op_list := [(.IR_VAL_UDIV, .IR_VAL_VUDIV, 3), (.IR_VAL_SDIV, .IR_VAL_VSDIV, 3),
      (.IR_VAL_UREM, .IR_VAL_VUREM, 3), (.IR_VAL_SREM, .IR_VAL_VSREM, 3),
      (.IR_VAL_FDIV, .IR_VAL_VFDIV, 3), (.IR_VAL_FREM, .IR_VAL_VFREM, 3),
      (.IR_VAL_EXTRACT, .IR_VAL_VEXTRACT, 2), (.IR_VAL_INSERT, .IR_VAL_VINSERT, 3),
      (.IR_VAL_LOAD, .IR_VAL_VLOAD, 2), (.IR_VAL_STORE, .IR_VAL_VSTORE, 3),
      (.IR_OTHER 0, .IR_OTHER 1, 2), (.IR_OTHER 2, .IR_OTHER 3, SIZE_MAX)]
    arith_op_list := [(.IR_VAL_UDIV, .IR_VAL_VUDIV), (.IR_VAL_SDIV, .IR_VAL_VSDIV),
      (.IR_VAL_UREM, .IR_VAL_VUREM), (.IR_VAL_SREM, .IR_VAL_VSREM),
      (.IR_VAL_FDIV, .IR_VAL_VFDIV), (.IR_VAL_FREM, .IR_VAL_VFREM), (.IR_OTHER 0, .IR_OTHER 1)]
    cmp_op_list := []
    bit_op_list := [] }

/-- A sample type node: the integer type, whose kind has no type. -/
def sampleIntType : ir_node :=
  .mk .IR_TYPE_INT (some (.mk .IR_KIND_NAT none [])) []

/-- Four sample values of the sample type: the mask, the error operand and the two
operands of a division. -/
def sampleMask : ir_node := .mk .IR_VAL_TUPLE (some sampleIntType) []

/-- The sample error operand. -/
def sampleErr : ir_node := .mk .IR_VAL_FUNC (some sampleIntType) []

/-- The sample left operand. -/
def sampleLeft : ir_node := .mk .IR_CONST (some sampleIntType) []

/-- The sample right operand. -/
def sampleRight : ir_node := .mk .IR_VAR (some sampleIntType) []

/-- The scalar node `udiv(err, a, b)`. -/
def sampleUdiv : ir_node :=
  .mk .IR_VAL_UDIV (some sampleIntType) [sampleErr, sampleLeft, sampleRight]

/-- The vector node `vudiv(mask, err, a, b)`. -/
def sampleVudiv : ir_node :=
  .mk .IR_VAL_VUDIV (some sampleIntType) [sampleMask, sampleErr, sampleLeft, sampleRight]

/-! ## Sequences of constructor calls on a type table -/

/-- One call of a public constructor of `types.c`: a hash-consing constructor,
`make_struct_type` or `make_enum_type`. -/
inductive TableOp where
  | call (c : TypeCall)
  | struct_type (name : String) (field_count : Nat)
  | enum_type (name : String) (option_count : Nat)
deriving DecidableEq, Repr

/-- Performing one constructor call on a type table. -/
def TableOp.run (H : HashFns) (type_table : TypeTable) : TableOp → Option (Nat × TypeTable)
  | .call c => c.run H type_table
  | .struct_type name field_count => some (make_struct_type type_table name field_count)
  | .enum_type name option_count => some (make_enum_type type_table name option_count)

/-- Performing a sequence of constructor calls, collecting the returned pointers;
`none` when one of the calls fails an assertion or reads outside an object. -/
def run_table_ops (H : HashFns) : TypeTable → List TableOp → Option (List Nat × TypeTable)
  | type_table, [] => some ([], type_table)
  | type_table, op :: ops =>
    match op.run H type_table with
    | none => none
    | some (type, type_table1) =>
      match run_table_ops H type_table1 ops with
      | none => none
      | some (types, type_table2) => some (type :: types, type_table2)

/-- The arena holds the `Type` objects in creation order, one per id handed out:
the object at position `i` has id `i`, and `type_count` is their number. -/
def IdsOk (type_table : TypeTable) : Prop :=
  type_table.mem_pool.length = type_table.type_count ∧
    ∀ (i : Nat) (t : LType), type_table.mem_pool[i]? = some t → t.id = i

/-- No object of the arena has a derived flag set. -/
def FlagsClear (type_table : TypeTable) : Prop :=
  ∀ t ∈ type_table.mem_pool, t.contains_unknown = false ∧ t.contains_error = false

/-- A sample sequence of calls: `Bool`, `I32`, `Bool` again, a struct `S`, the tuple
`(I32, Bool)`, the same tuple again, and an enum `E`. -/
def sampleTableOps : List TableOp :=
  [.call (.prim_type .BOOL), .call (.prim_type .I32), .call (.prim_type .BOOL),
   .struct_type "S" 1, .call (.tuple_type [1, 0]), .call (.tuple_type [1, 0]),
   .enum_type "E" 2]

/-- A sample sequence of hash-consing calls: the unknown type, then the tuple,
function and array types built from it. -/
def sampleUnknownCalls : List TypeCall :=
  [.unknown_type, .tuple_type [0, 0], .fun_type 0 0, .array_type 0]

/-- The table that `sampleTableOps` leaves, hashed with `fnvHash`. -/
def sampleTableResult : TypeTable :=
  { types := [(84696351, 0), (101473970, 1), (761760769, 3)]
    str_pool := ["S", "E"]
    mem_pool := [{ tag := .BOOL, id := 0 }, { tag := .I32, id := 1 },
      { tag := .STRUCT, id := 2, name := 0, members := [none], member_names := [none],
        member_count := 1 },
      { tag := .TUPLE, id := 3, arg_types := [1, 0] },
      { tag := .ENUM, id := 4, name := 1, members := [none, none],
        member_names := [none, none], member_count := 2 }]
    type_count := 5 }

/-- The table that `sampleUnknownCalls` leaves, hashed with `fnvHash`. -/
def sampleUnknownResult : TypeTable :=
  { types := [(235694922, 0), (124064152, 1), (3289983865, 2), (3481467866, 3)]
    str_pool := []
    mem_pool := [{ tag := .UNKNOWN, id := 0 }, { tag := .TUPLE, id := 1, arg_types := [0, 0] },
      { tag := .FUN, id := 2 }, { tag := .ARRAY, id := 3 }]
    type_count := 4 }

/-! ## Sample inputs for literal checking -/

/-- A subtype relation for concrete runs: equality of types, plus `F32` below `F64`. -/
def floatWidening (type_table : TypeTable) (a b : Nat) : Bool :=
  a == b ||
    ((type_table.mem_pool[a]?).map (fun t => t.tag) == some TypeTag.F32 &&
      (type_table.mem_pool[b]?).map (fun t => t.tag) == some TypeTag.F64)

/-- The context holding `F64` (pointer 0) and `Bool` (pointer 1). -/
def f64BoolContext : TypingContext :=
  { log := emptyLog
    type_table :=
      { types := [(252472541, 0), (84696351, 1)]
        str_pool := []
        mem_pool := [{ tag := .F64, id := 0 }, { tag := .BOOL, id := 1 }]
        type_count := 2 }
    node_types := [] }

/-- The state after checking the float literal at address 40 against `F64` in
`f64BoolContext` when `F32` is not a subtype of `F64`: the literal is typed `F32`
(pointer 2), one bound error is logged and the error type is at pointer 3. -/
def floatRejected : TypingContext :=
  { log := { error_count := 1, msgs := [.expected_bound 40 true 0 2] }
    type_table :=
      { types := [(252472541, 0), (84696351, 1), (202139684, 2), (151806827, 3)]
        str_pool := []
        mem_pool := [{ tag := .F64, id := 0 }, { tag := .BOOL, id := 1 }, { tag := .F32, id := 2 },
          { tag := .ERROR, id := 3, contains_error := true }]
        type_count := 4 }
    node_types := [(40, 2)] }

/-- The state after checking the float literal at address 40 against `F64` in
`f64BoolContext` when `F32` is a subtype of `F64`: the literal is typed `F32`
(pointer 2) and nothing is logged. -/
def floatWidened : TypingContext :=
  { log := emptyLog
    type_table :=
      { types := [(252472541, 0), (84696351, 1), (202139684, 2)]
        str_pool := []
        mem_pool := [{ tag := .F64, id := 0 }, { tag := .BOOL, id := 1 }, { tag := .F32, id := 2 }]
        type_count := 3 }
    node_types := [(40, 2)] }

/-! ## Sample inputs and reference definitions for the checker contracts -/

/-- The context holding `I32` (pointer 0) and the error type (pointer 1). -/
def i32ErrorContext : TypingContext :=
  { log := emptyLog
    type_table :=
      { types := [(101473970, 0), (151806827, 1)]
        str_pool := []
        mem_pool := [{ tag := .I32, id := 0 }, { tag := .ERROR, id := 1, contains_error := true }]
        type_count := 2 }
    node_types := [] }

/-- The fallback of pattern/expression co-checking as the spec words it: the
expression is checked without an expectation, that is inferred, and the pattern is
then checked against the resulting type. -/
def infer_then_check_pattern (H : HashFns) (is_subtype : TypeTable → Nat → Nat → Bool)
    (context : TypingContext) (pattern expr : AstNode) : Option (Nat × TypingContext) :=
  match infer_expr H is_subtype context expr with
  | none => none
  | some (type, context1) => check_pattern H is_subtype context1 pattern type

/-- The condition under which `check_pattern_and_expr` reaches its last `return`: the
pattern is not a typed pattern, and the pattern and the expression are not a tuple
pattern and a tuple expression of the same length under an expected type that is the
unknown type or a tuple type of that length. -/
def takes_fallback (pattern expr : AstNode) (et : LType) : Bool :=
  match pattern with
  | .typed_pattern _ _ _ => false
  | .tuple_pattern _ pattern_args =>
    match expr with
    | .tuple_expr _ expr_args =>
      !(decide (et.tag = .UNKNOWN ∨ et.tag = .TUPLE) &&
        decide (get_ast_list_length pattern_args = get_ast_list_length expr_args) &&
        decide (et.tag ≠ .TUPLE ∨ et.arg_count = get_ast_list_length pattern_args))
    | _ => true
  | _ => true

/-- The declaration `var x = (1, 2)`: the declaration is node 1, the unbound name `x`
node 2, the tuple node 3 and the literals nodes 4 and 5. -/
def declXPair : AstNode :=
  .var_decl 1 (.path 2 none) (.tuple_expr 3 [.int_literal 4, .int_literal 5])

/-- The declaration `const (x, y) = (1, 2, 3)`, a pattern of two unbound names with an
initializer of three literals. -/
def declPairTriple : AstNode :=
  .const_decl 1 (.tuple_pattern 2 [.path 6 none, .path 7 none])
    (.tuple_expr 3 [.int_literal 4, .int_literal 5, .int_literal 8])

/-! ## Definitions for sequences of allocations -/

/-- The pool `q` is a later state of the pool `p` with no reset in between: every
block of `p` is still at its position in `q`, with the same capacity and a `size` that
is not smaller. -/
def PoolGrows (p q : MemPool) : Prop :=
  p.blocks.length ≤ q.blocks.length ∧
    ∀ (k : Nat) (b : MemBlock), p.blocks[k]? = some b →
      ∃ b1, q.blocks[k]? = some b1 ∧ b1.capacity = b.capacity ∧ b.size ≤ b1.size

/-- The pool in which a run that went from `p` to `q` is replayed: the blocks of `p`
as they are, followed by the blocks that the run appended, reset to `size == 0`. -/
def replay_pool (p q : MemPool) : MemPool :=
  { blocks := p.blocks ++ (q.blocks.drop p.blocks.length).map (fun b => { b with size := 0 })
    cur := p.cur }

/-! ## Definitions for the type chain of a node -/

/-- The number of `type` edges that can be followed from a node:
`n`, `n->type`, `n->type->type`, ... until the null pointer. -/
def type_chain_length : ir_node → Nat
  | .mk _ none _ => 0
  | .mk _ (some t) _ => type_chain_length t + 1

/-- Some node on the type chain of the node has the tag `IR_ERROR`. -/
def error_on_chain : ir_node → Bool
  | .mk tag none _ => tag == ir_node_tag.IR_ERROR
  | .mk tag (some t) _ => tag == ir_node_tag.IR_ERROR || error_on_chain t

/-! ## Theorems: variable sets -/

theorem contains_var_loop_spec (vars : List Nat) (var : Nat)
    (hs : vars.Pairwise (fun a b => a ≥ b)) (hl : vars.length < 2 ^ 63) :
    ∀ fuel i j, i ≤ j → j ≤ vars.length → j - i < fuel →
      (∀ k x, k < i → vars[k]? = some x → var < x) →
      (∀ k x, j ≤ k → vars[k]? = some x → x < var) →
      contains_var_loop vars var fuel i j = some (decide (var ∈ vars)) := by
  intro fuel
  induction fuel with
  | zero => intro i j _ _ h; omega
  | succ fuel ih =>
    intro i j hij hj hf hlo hhi
    rw [List.pairwise_iff_getElem] at hs
    unfold contains_var_loop
    by_cases hlt : i < j
    · have hm : (i + j) % 2 ^ 64 = i + j := Nat.mod_eq_of_lt (by omega)
      simp only [hlt, if_true, hm]
      have hmj : (i + j) / 2 < j := by omega
      have him : i ≤ (i + j) / 2 := by omega
      have hml : (i + j) / 2 < vars.length := by omega
      rw [List.getElem?_eq_getElem hml]
      simp only
      by_cases h1 : var < vars[(i + j) / 2]
      · simp only [h1, if_true]
        apply ih _ _ (by omega) hj (by omega)
        · intro k x hk hx
          rw [List.getElem?_eq_some_iff] at hx
          obtain ⟨hkl, rfl⟩ := hx
          rcases Nat.lt_or_ge k ((i + j) / 2) with h | h
          · have := hs k ((i + j) / 2) hkl hml h
            omega
          · have : k = (i + j) / 2 := by omega
            subst this; exact h1
        · exact hhi
      · by_cases h2 : var > vars[(i + j) / 2]
        · simp only [h1, h2, if_true, if_false]
          apply ih _ _ (by omega) (by omega) (by omega) hlo
          intro k x hk hx
          rw [List.getElem?_eq_some_iff] at hx
          obtain ⟨hkl, rfl⟩ := hx
          rcases Nat.lt_or_ge ((i + j) / 2) k with h | h
          · have := hs ((i + j) / 2) k hml hkl h
            omega
          · have : k = (i + j) / 2 := by omega
            subst this; exact h2
        · simp only [h1, h2, if_false]
          have : var = vars[(i + j) / 2] := by omega
          have hmem : var ∈ vars := by rw [this]; exact List.getElem_mem _
          simp [hmem]
    · simp only [hlt, if_false]
      have hnot : var ∉ vars := by
        intro hmem
        rw [List.mem_iff_getElem?] at hmem
        obtain ⟨k, hk⟩ := hmem
        rcases Nat.lt_or_ge k i with h | h
        · have := hlo k var h hk; omega
        · have := hhi k var (by omega) hk; omega
      simp [hnot]

/-- C1. On a variable set whose array is sorted in descending order (and fits the
address space, so that `i + j` cannot wrap), the binary-search loop of `contains_var`
ends within `var_count + 1` loop tests and returns true exactly when the identifier
occurs in the array. -/
theorem contains_var_iff_mem (s : ir_var_set) (v fuel : Nat)
    (hsorted : s.vars.Pairwise (fun a b => a ≥ b)) (hlen : s.var_count < 2 ^ 63)
    (hfuel : s.var_count < fuel) :
    contains_var fuel s v = some (decide (v ∈ s.vars)) := by
  unfold contains_var
  apply contains_var_loop_spec s.vars v hsorted hlen fuel 0 _ (Nat.zero_le _) (Nat.le_refl _)
  · simpa [ir_var_set.var_count] using hfuel
  · intro k x hk; omega
  · intro k x hk hx
    rw [List.getElem?_eq_some_iff] at hx
    obtain ⟨hkl, _⟩ := hx
    change s.vars.length ≤ k at hk
    omega

/-- Witness for C1: the set `{9,5,2}` answers true for 9, 5, 2 and false for 7, 1, 10. -/
theorem contains_var_iff_mem_witness :
    (contains_var 4 ⟨[9, 5, 2]⟩ 9 = some true ∧ contains_var 4 ⟨[9, 5, 2]⟩ 5 = some true ∧
      contains_var 4 ⟨[9, 5, 2]⟩ 2 = some true ∧ contains_var 4 ⟨[9, 5, 2]⟩ 7 = some false ∧
      contains_var 4 ⟨[9, 5, 2]⟩ 1 = some false ∧ contains_var 4 ⟨[9, 5, 2]⟩ 10 = some false) ∧
    contains_var 4 ⟨[9, 5, 2]⟩ 7 = some (decide (7 ∈ [9, 5, 2])) :=
  ⟨by decide, contains_var_iff_mem ⟨[9, 5, 2]⟩ 7 4 (by decide) (by decide) (by decide)⟩

/-! ## Theorems: node classification -/

/-- C6. Classification round trip: when `n.type = t`, `t.type = k` and `k` has no
type (or is the error node), `n` is a value, `t` is a type and `k` is a kind. -/
theorem classification_round_trip (n t k : ir_node)
    (hn : n.type = some t) (ht : t.type = some k)
    (hk : k.type = none ∨ k.tag = ir_node_tag.IR_ERROR) :
    is_val n = true ∧ is_type t = true ∧ is_kind k = true := by
  have h3 : is_kind k = true := by
    rcases hk with h | h <;> simp [is_kind, h]
  have h2 : is_type t = true := by simp [is_type, ht, h3]
  exact ⟨by simp [is_val, hn, h2], h2, h3⟩

/-- Witness for C6: a constant of integer type whose kind has no type; and the same
with the error node as the kind. -/
theorem classification_round_trip_witness :
    (is_val (.mk .IR_CONST (some (.mk .IR_TYPE_INT (some (.mk (.IR_OTHER 0) none [])) [])) [])
        = true ∧
      is_type (.mk .IR_TYPE_INT (some (.mk (.IR_OTHER 0) none [])) []) = true ∧
      is_kind (.mk (.IR_OTHER 0) none []) = true) ∧
    (is_val (.mk .IR_CONST (some (.mk .IR_TYPE_INT (some (.mk .IR_ERROR
        (some (.mk (.IR_OTHER 0) none [])) [])) [])) []) = true ∧
      is_type (.mk .IR_TYPE_INT (some (.mk .IR_ERROR (some (.mk (.IR_OTHER 0) none [])) [])) [])
        = true ∧
      is_kind (.mk .IR_ERROR (some (.mk (.IR_OTHER 0) none [])) []) = true) :=
  ⟨classification_round_trip _ _ _ rfl rfl (Or.inl rfl),
   classification_round_trip _ _ _ rfl rfl (Or.inr rfl)⟩

/-! ## Theorems: arena allocator -/

theorem alloc_search_fits (size : Nat) :
    ∀ (l : List MemBlock) (k : Nat) (x : MemBlock),
      (∀ y ∈ l, y.size ≤ y.capacity) → (∀ y ∈ l.tail, y.size = 0) →
      l[k]? = some x → size + x.size ≤ x.capacity →
      ∃ j y, j ≤ k ∧ alloc_search size l = some (l, j) ∧ l[j]? = some y ∧
        size + y.size ≤ y.capacity := by
  intro l
  induction l with
  | nil => intro k x _ _ h; simp at h
  | cons b rest ih =>
    intro k x hcap hzero hk hx
    have hb : b.size ≤ b.capacity := hcap b (List.mem_cons_self _ _)
    by_cases hr : b.capacity - b.size < size
    · cases k with
      | zero =>
        simp at hk; subst hk; omega
      | succ k =>
        simp only [List.getElem?_cons_succ] at hk
        cases rest with
        | nil => simp at hk
        | cons n rest2 =>
          have hn : n.size = 0 := hzero n (by simp)
          obtain ⟨j, y, hj, hs, hy, hfit⟩ := ih k x
            (fun y hy => hcap y (List.mem_cons_of_mem _ hy))
            (fun y hy => hzero y (by
              simp only [List.tail_cons] at hy ⊢
              exact List.mem_cons_of_mem _ hy)) hk hx
          refine ⟨j + 1, y, by omega, ?_, by simpa using hy, hfit⟩
          simp [alloc_search, remaining_mem, hb, hr, hn, hs]
    · refine ⟨0, b, Nat.zero_le _, ?_, by simp, by omega⟩
      cases rest with
      | nil => simp [alloc_search, remaining_mem, hb, hr]
      | cons n rest2 => simp [alloc_search, remaining_mem, hb, hr]

theorem alloc_step_fits (A : Nat) (p : MemPool) (c size need : Nat)
    (hc : p.cur = some c) (hneed : align_to size A ≤ need) (hinv : PoolFits p.blocks c need) :
    ∃ ptr q c2, alloc_from_mem_pool A p size = some (ptr, q) ∧ q.cur = some c2 ∧
      q.blocks.length = p.blocks.length ∧ PoolFits q.blocks c2 (need - align_to size A) := by
  obtain ⟨hlt, hcap, hzero, k, x, hck, hkx, hfit⟩ := hinv
  have hdrop : (p.blocks.drop c)[k - c]? = some x := by
    rw [List.getElem?_drop]
    have : c + (k - c) = k := by omega
    rw [this]; exact hkx
  obtain ⟨j, y, hjk, hs, hy, hyfit⟩ := alloc_search_fits (align_to size A) (p.blocks.drop c)
    (k - c) x (fun z hz => hcap z (List.mem_of_mem_drop hz))
    (by
      intro z hz
      rw [List.tail_drop] at hz
      obtain ⟨i, hi⟩ := List.mem_iff_getElem?.mp hz
      rw [List.getElem?_drop] at hi
      exact hzero (c + 1 + i) z (by omega) hi)
    hdrop (by omega)
  have hyc : p.blocks[c + j]? = some y := by
    rw [List.getElem?_drop] at hy; exact hy
  have hcj : c + j < p.blocks.length := by
    rw [List.getElem?_eq_some_iff] at hyc
    exact hyc.1
  refine ⟨(c + j, y.size), ⟨p.blocks.set (c + j) { y with size := y.size + align_to size A }, some (c + j)⟩, c + j, ?_, rfl, ?_, ?_⟩
  · unfold alloc_from_mem_pool
    simp only [hc, hlt, if_true, hs, Option.map_some', List.take_append_drop, hyc,
      remaining_mem]
    have h1 : y.capacity ≥ y.size := by omega
    have h2 : y.capacity - y.size ≥ align_to size A := by omega
    simp only [h1, h2, if_true]
  · simp
  · refine ⟨by simpa using hcj, ?_, ?_, ?_⟩
    · intro z hz
      rcases List.mem_or_eq_of_mem_set hz with h | h
      · exact hcap z h
      · subst h; simp only; omega
    · intro i z hi hz
      rw [List.getElem?_set_ne (by omega)] at hz
      exact hzero i z (by omega) hz
    · by_cases hkj : k = c + j
      · refine ⟨k, { y with size := y.size + align_to size A }, by omega, ?_, ?_⟩
        · rw [hkj, List.getElem?_set_self hcj]
        · simp only
          have : x = y := by rw [hkj, hyc] at hkx; exact (Option.some.inj hkx).symm
          subst this; omega
      · refine ⟨k, x, by omega, ?_, by omega⟩
        rw [List.getElem?_set_ne (by omega)]; exact hkx

theorem alloc_all_fits (A : Nat) :
    ∀ (sizes : List Nat) (p : MemPool) (c need : Nat), p.cur = some c →
      rounded_total A sizes ≤ need → PoolFits p.blocks c need →
      ∃ ptrs q, alloc_all A p sizes = some (ptrs, q) ∧ q.blocks.length = p.blocks.length := by
  intro sizes
  induction sizes with
  | nil => intro p c need _ _ _; exact ⟨[], p, rfl, rfl⟩
  | cons s sizes ih =>
    intro p c need hc hsum hinv
    have hsum2 : align_to s A + rounded_total A sizes ≤ need := by
      simpa [rounded_total] using hsum
    obtain ⟨ptr, q, c2, hstep, hq, hlen, hinv2⟩ :=
      alloc_step_fits A p c s need hc (by omega) hinv
    obtain ⟨ptrs, r, hall, hlen2⟩ := ih q c2 (need - align_to s A) hq (by omega) hinv2
    refine ⟨ptr :: ptrs, r, ?_, by omega⟩
    simp [alloc_all, hstep, hall]

/-- C5 (as amended). After `reset_mem_pool`, a sequence of allocation requests whose
rounded-up sizes together do not exceed the capacity of one block the pool already
owns is served by `alloc_from_mem_pool` without any failure and without growing the
block list. -/
theorem reset_then_alloc_keeps_blocks (A : Nat) (p : MemPool) (sizes : List Nat)
    (b : MemBlock) (hb : b ∈ p.blocks) (hfit : rounded_total A sizes ≤ b.capacity) :
    ∃ ptrs q, alloc_all A (reset_mem_pool p) sizes = some (ptrs, q) ∧
      q.blocks.length = p.blocks.length := by
  obtain ⟨k, hk⟩ := List.mem_iff_getElem?.mp hb
  have hne : p.blocks ≠ [] := List.ne_nil_of_mem hb
  have hcur : (reset_mem_pool p).cur = some 0 := by
    cases hp : p.blocks with
    | nil => exact absurd hp hne
    | cons a l => simp [reset_mem_pool, hp]
  have hinv : PoolFits (reset_mem_pool p).blocks 0 b.capacity := by
    refine ⟨?_, ?_, ?_, k, { b with size := 0 }, Nat.zero_le _, ?_, by simp⟩
    · simp only [reset_mem_pool, List.length_map]
      exact List.length_pos.mpr hne
    · intro x hx
      simp only [reset_mem_pool, List.mem_map] at hx
      obtain ⟨y, _, rfl⟩ := hx
      simp
    · intro i x _ hx
      simp only [reset_mem_pool, List.getElem?_map, Option.map_eq_some'] at hx
      obtain ⟨y, _, rfl⟩ := hx
      rfl
    · simp [reset_mem_pool, List.getElem?_map, hk]
  obtain ⟨ptrs, q, h1, h2⟩ := alloc_all_fits A sizes (reset_mem_pool p) 0 b.capacity hcur hfit hinv
  exact ⟨ptrs, q, h1, by simpa [reset_mem_pool] using h2⟩

/-- Witness for C5 (as amended): a pool of two 1024-byte blocks serves 16, 512 and 16
bytes after a reset and still has two blocks. -/
theorem reset_then_alloc_keeps_blocks_witness :
    (⟨0, 1024⟩ : MemBlock) ∈ (⟨[⟨1024, 1024⟩, ⟨0, 1024⟩], some 1⟩ : MemPool).blocks ∧
    rounded_total 16 [16, 512, 16] ≤ (⟨0, 1024⟩ : MemBlock).capacity ∧
    ∃ ptrs q, alloc_all 16 (reset_mem_pool ⟨[⟨1024, 1024⟩, ⟨0, 1024⟩], some 1⟩) [16, 512, 16]
        = some (ptrs, q) ∧
      q.blocks.length = (⟨[⟨1024, 1024⟩, ⟨0, 1024⟩], some 1⟩ : MemPool).blocks.length :=
  ⟨by decide, by decide,
    reset_then_alloc_keeps_blocks 16 ⟨[⟨1024, 1024⟩, ⟨0, 1024⟩], some 1⟩ [16, 512, 16]
      ⟨0, 1024⟩ (by decide) (by decide)⟩

/-- Counterexample to C5 as stated: the pool built by two 1024-byte allocations owns
2048 bytes in two blocks; after a reset the requests 16, 1024, 16 (1056 bytes in all)
leave it with three blocks, because the second request does not fit behind the first
and the third does not fit behind the second. -/
theorem reset_then_alloc_grows :
    alloc_all 16 new_mem_pool [1024, 1024] = some ([(0, 0), (1, 0)], twoBlockPool) ∧
    twoBlockPool.blocks.length = 2 ∧
    rounded_total 16 [16, 1024, 16] ≤ total_capacity twoBlockPool ∧
    alloc_all 16 (reset_mem_pool twoBlockPool) [16, 1024, 16] =
      some ([(0, 0), (1, 0), (2, 0)],
        { blocks := [{ size := 16, capacity := 1024 }, { size := 1024, capacity := 1024 },
            { size := 16, capacity := 1024 }]
          cur := some 2 }) ∧
    ((alloc_all 16 (reset_mem_pool twoBlockPool) [16, 1024, 16]).map
      (fun r => r.2.blocks.length)) = some 3 :=
  ⟨by decide, by decide, by decide, by decide, by decide⟩

/-! ## Theorems: lang type table -/

theorem TableExtends.refl (t : TypeTable) : TableExtends t t :=
  ⟨⟨[], by simp⟩, ⟨[], by simp⟩, ⟨[], by simp⟩⟩

theorem TableExtends.trans {a b c : TypeTable} (h1 : TableExtends a b) (h2 : TableExtends b c) :
    TableExtends a c := by
  obtain ⟨⟨l1, e1⟩, ⟨l2, e2⟩, ⟨l3, e3⟩⟩ := h1
  obtain ⟨⟨m1, f1⟩, ⟨m2, f2⟩, ⟨m3, f3⟩⟩ := h2
  exact ⟨⟨l1 ++ m1, by rw [f1, e1, List.append_assoc]⟩,
    ⟨l2 ++ m2, by rw [f2, e2, List.append_assoc]⟩, ⟨l3 ++ m3, by rw [f3, e3, List.append_assoc]⟩⟩

theorem getElem?_append_some {α : Type} (l l2 : List α) (i : Nat) (x : α)
    (h : l[i]? = some x) : (l ++ l2)[i]? = some x := by
  have hi : i < l.length := (List.getElem?_eq_some_iff.mp h).1
  rw [List.getElem?_append_left hi]; exact h

theorem hash_arg_ids_grow (H : HashFns) (mem extra : List LType) :
    ∀ (ps : List Nat) (h r : Nat), hash_arg_ids H mem h ps = some r →
      hash_arg_ids H (mem ++ extra) h ps = some r := by
  intro ps
  induction ps with
  | nil => intro h r hr; simpa [hash_arg_ids] using hr
  | cons p ps ih =>
    intro h r hr
    unfold hash_arg_ids at hr ⊢
    cases hp : mem[p]? with
    | none => simp [hp] at hr
    | some t =>
      rw [getElem?_append_some mem extra p t hp]
      simp only [hp] at hr
      exact ih _ _ hr

theorem hash_type_grow (H : HashFns) (t1 t2 : TypeTable) (hext : TableExtends t1 t2)
    (h r : Nat) (type : LType) (hr : hash_type H t1 h type = some r) :
    hash_type H t2 h type = some r := by
  obtain ⟨_, ⟨l2, e2⟩, ⟨l3, e3⟩⟩ := hext
  unfold hash_type at hr ⊢
  cases htag : type.tag <;> simp only [htag] at hr ⊢ <;>
    first
    | exact hr
    | (rw [e3]; exact hash_arg_ids_grow H _ _ _ _ _ hr)
    | (rw [e2]
       cases hs : t1.str_pool[type.name]? with
       | none => simp [hs] at hr
       | some s =>
         rw [getElem?_append_some _ _ _ _ hs]
         simpa [hs] using hr)

theorem compare_arg_types_self : ∀ l : List Nat, compare_arg_types l l = some true := by
  intro l
  induction l with
  | nil => rfl
  | cons a l ih => simp [compare_arg_types, ih]

theorem compare_types_with_id (t : LType) (n : Nat) :
    compare_types { t with id := n } t = some true := by
  unfold compare_types
  cases htag : t.tag <;> simp [htag, compare_arg_types_self]

theorem compare_types_id_right (s t : LType) (n : Nat) :
    compare_types s { t with id := n } = compare_types s t := by
  unfold compare_types
  rfl

theorem find_in_hash_table_agree (cmp cmp2 : Nat → Option Bool) (hash : Nat)
    (hagree : ∀ e, cmp e ≠ none → cmp2 e = cmp e) :
    ∀ (tbl : List (Nat × Nat)) (r : Option Nat), find_in_hash_table cmp hash tbl = some r →
      find_in_hash_table cmp2 hash tbl = some r := by
  intro tbl
  induction tbl with
  | nil => intro r hr; simpa [find_in_hash_table] using hr
  | cons e tbl ih =>
    intro r hr
    obtain ⟨h, elem⟩ := e
    unfold find_in_hash_table at hr ⊢
    by_cases hh : h = hash
    · simp only [hh, if_true] at hr ⊢
      cases hc : cmp elem with
      | none => simp [hc] at hr
      | some b =>
        rw [hagree elem (by simp [hc]), hc]
        simp only [hc] at hr
        cases b with
        | true => exact hr
        | false => exact ih r hr
    · simp only [hh, if_false] at hr ⊢
      exact ih r hr

theorem find_in_hash_table_append (cmp : Nat → Option Bool) (hash : Nat) (l2 : List (Nat × Nat)) :
    ∀ tbl : List (Nat × Nat), find_in_hash_table cmp hash (tbl ++ l2) =
      match find_in_hash_table cmp hash tbl with
      | some none => find_in_hash_table cmp hash l2
      | r => r := by
  intro tbl
  induction tbl with
  | nil => simp [find_in_hash_table]
  | cons e tbl ih =>
    obtain ⟨h, elem⟩ := e
    simp only [List.cons_append, find_in_hash_table]
    by_cases hh : h = hash
    · simp only [hh, if_true]
      cases hc : cmp elem with
      | none => simp
      | some b =>
        cases b with
        | true => simp
        | false => simpa using ih
    · simp only [hh, if_false]
      exact ih

theorem compare_stored_grow (t1 t2 : TypeTable) (hext : TableExtends t1 t2) (probe : LType)
    (e : Nat) (h : compare_stored t1 probe e ≠ none) :
    compare_stored t2 probe e = compare_stored t1 probe e := by
  obtain ⟨_, _, ⟨l3, e3⟩⟩ := hext
  unfold compare_stored at h ⊢
  cases hm : t1.mem_pool[e]? with
  | none => simp [hm] at h
  | some t => rw [e3, getElem?_append_some _ _ _ _ hm]

/-- What a successful `get_or_insert_type` leaves behind: the table has only grown,
the string pool is untouched, and looking the same type up in any later state of the
table finds the returned pointer. -/
theorem get_or_insert_type_found (H : HashFns) (tt tt1 : TypeTable) (type : LType) (p : Nat)
    (h : get_or_insert_type H tt type = some (p, tt1)) :
    TableExtends tt tt1 ∧ tt1.str_pool = tt.str_pool ∧
    ∃ hash, hash_type H tt H.hash_init type = some hash ∧
      ∀ tt2, TableExtends tt1 tt2 →
        find_in_hash_table (compare_stored tt2 type) hash tt2.types = some (some p) := by
  unfold get_or_insert_type at h
  cases hh : hash_type H tt H.hash_init type with
  | none => simp [hh] at h
  | some hash =>
    simp only [hh] at h
    cases hf : find_in_hash_table (compare_stored tt type) hash tt.types with
    | none => simp [hf] at h
    | some found =>
      simp only [hf] at h
      cases found with
      | some q =>
        simp only [Option.some.injEq, Prod.mk.injEq] at h
        obtain ⟨rfl, rfl⟩ := h
        refine ⟨TableExtends.refl _, rfl, hash, rfl, ?_⟩
        intro tt2 hext
        obtain ⟨l1, e1⟩ := hext.1
        rw [e1, find_in_hash_table_append]
        rw [find_in_hash_table_agree (compare_stored tt type) (compare_stored tt2 type) hash
          (fun e he => compare_stored_grow tt tt2 hext type e he) tt.types _ hf]
      | none =>
        simp only [insert_in_hash_table] at h
        split at h
        · rename_i types heq
          split at heq
          · simp at heq
          · simp at heq
          · simp only [Option.some.injEq, Prod.mk.injEq, and_true] at heq
            simp only [Option.some.injEq, Prod.mk.injEq] at h
            obtain ⟨rfl, rfl⟩ := h
            subst heq
            refine ⟨⟨⟨[(hash, tt.mem_pool.length)], rfl⟩, ⟨[], by simp⟩,
              ⟨[{ type with id := tt.type_count }], rfl⟩⟩, rfl, hash, rfl, ?_⟩
            intro tt2 hext
            obtain ⟨⟨l1, e1⟩, ⟨l2, e2⟩, ⟨l3, e3⟩⟩ := hext
            simp only at e1 e2 e3
            have hext0 : TableExtends tt tt2 :=
              ⟨⟨[(hash, tt.mem_pool.length)] ++ l1, by rw [e1, List.append_assoc]⟩,
                ⟨l2, e2⟩,
                ⟨[{ type with id := tt.type_count }] ++ l3, by rw [e3, List.append_assoc]⟩⟩
            rw [e1, List.append_assoc, find_in_hash_table_append]
            rw [find_in_hash_table_agree (compare_stored tt type) (compare_stored tt2 type) hash
              (fun e he => compare_stored_grow tt tt2 hext0 type e he) tt.types _ hf]
            have hnew : tt2.mem_pool[tt.mem_pool.length]? = some { type with id := tt.type_count } := by
              rw [e3, List.append_assoc, List.getElem?_append_right (Nat.le_refl _)]
              simp
            simp [find_in_hash_table, compare_stored, hnew, compare_types_with_id]
        · simp at h

theorem get_or_insert_type_again (H : HashFns) (tt tt1 tt2 : TypeTable) (type : LType) (p : Nat)
    (h : get_or_insert_type H tt type = some (p, tt1)) (hext : TableExtends tt1 tt2) :
    get_or_insert_type H tt2 type = some (p, tt2) := by
  obtain ⟨hgrow, _, hash, hh, hfind⟩ := get_or_insert_type_found H tt tt1 type p h
  have hh2 := hash_type_grow H tt tt2 (hgrow.trans hext) _ _ type hh
  unfold get_or_insert_type
  simp only [hh2, hfind tt2 hext]

theorem make_str_again (pool extra : List String) (name : String) :
    make_str ((make_str pool name).2 ++ extra) name =
      ((make_str pool name).1, (make_str pool name).2 ++ extra) := by
  unfold make_str
  by_cases hm : name ∈ pool
  · simp [hm, List.indexOf_append_of_mem hm]
  · have h1 : name ∈ pool ++ [name] := by simp
    simp only [hm, if_false, List.mem_append, h1, true_or, if_true]
    rw [List.indexOf_append_of_mem h1, List.indexOf_append_of_not_mem hm,
      List.indexOf_of_not_mem hm]
    simp

theorem TypeCall.run_extends (H : HashFns) (tt tt1 : TypeTable) (c : TypeCall) (p : Nat)
    (h : c.run H tt = some (p, tt1)) : TableExtends tt tt1 := by
  cases c with
  | prim_type tag =>
    simp only [TypeCall.run, make_prim_type] at h
    split at h
    · exact (get_or_insert_type_found H _ _ _ _ h).1
    · simp at h
  | unknown_type => exact (get_or_insert_type_found H tt tt1 { tag := .UNKNOWN } p h).1
  | tuple_type a => exact (get_or_insert_type_found H tt tt1 _ p h).1
  | fun_type a b => exact (get_or_insert_type_found H tt tt1 _ p h).1
  | array_type a => exact (get_or_insert_type_found H tt tt1 _ p h).1
  | type_param name =>
    simp only [TypeCall.run, make_type_param] at h
    refine TableExtends.trans ?_ (get_or_insert_type_found H _ _ _ _ h).1
    refine ⟨⟨[], by simp⟩, ?_, ⟨[], by simp⟩⟩
    simp only [make_str]
    by_cases hm : name ∈ tt.str_pool
    · exact ⟨[], by simp [hm]⟩
    · exact ⟨[name], by simp [hm]⟩

/-- C2. Hash-consing: when a call of `make_prim_type`, `make_unknown_type`,
`make_type_param`, `make_tuple_type`, `make_fun_type` or `make_array_type` has
returned a type, the same call (same tag, same arguments) on the resulting table, or
on any later state of it, returns the identical pointer and leaves the whole table
(hence `type_count` and the hash table contents) unchanged. -/
theorem hash_consing_same_call (H : HashFns) (tt tt1 tt2 : TypeTable) (c : TypeCall) (p : Nat)
    (h : c.run H tt = some (p, tt1)) (hext : TableExtends tt1 tt2) :
    c.run H tt2 = some (p, tt2) := by
  cases c with
  | prim_type tag =>
    simp only [TypeCall.run, make_prim_type] at h ⊢
    split at h
    · rename_i hp
      simp only [hp, if_true]
      exact get_or_insert_type_again H _ _ _ _ _ h hext
    · simp at h
  | unknown_type => exact get_or_insert_type_again H tt tt1 tt2 { tag := .UNKNOWN } p h hext
  | tuple_type a => exact get_or_insert_type_again H tt tt1 tt2 _ p h hext
  | fun_type a b => exact get_or_insert_type_again H tt tt1 tt2 _ p h hext
  | array_type a => exact get_or_insert_type_again H tt tt1 tt2 _ p h hext
  | type_param name =>
    simp only [TypeCall.run, make_type_param] at h ⊢
    have hsp := (get_or_insert_type_found H _ _ _ _ h).2.1
    simp only at hsp
    obtain ⟨l2, e2⟩ := hext.2.1
    rw [hsp] at e2
    rw [e2, make_str_again]
    simp only
    have hsame : ({ tt2 with str_pool := (make_str tt.str_pool name).2 ++ l2 } : TypeTable) = tt2 := by
      rw [← e2]
    rw [hsame]
    exact get_or_insert_type_again H _ _ _ _ _ h hext

/-- Witness for C2: on the table holding `Bool` and `I32`, `make_tuple_type` of
`(I32, Bool)` creates pointer 2; after an intervening `make_array_type` the same call
returns pointer 2 again and changes nothing. -/
theorem hash_consing_same_call_witness :
    (TypeCall.tuple_type [1, 0]).run fnvHash boolI32Table = some (2, pairTable) ∧
    (TypeCall.array_type 2).run fnvHash pairTable = some (3, pairArrayTable) ∧
    TableExtends pairTable pairArrayTable ∧
    (TypeCall.tuple_type [1, 0]).run fnvHash pairArrayTable = some (2, pairArrayTable) :=
  ⟨by decide, by decide,
    TypeCall.run_extends fnvHash pairTable pairArrayTable (TypeCall.array_type 2) 3 (by decide),
    hash_consing_same_call fnvHash boolI32Table pairTable pairArrayTable (TypeCall.tuple_type [1, 0])
      2 (by decide)
      (TypeCall.run_extends fnvHash pairTable pairArrayTable (TypeCall.array_type 2) 3 (by decide))⟩

/-- C4. `make_struct_type` and `make_enum_type` never deduplicate: on every table,
two calls with the same name and member count return two different pointers whose
objects carry the ids `type_count` and `type_count + 1`, each call adds exactly one to
`type_count`, and the hash table is left as it was. -/
theorem nominal_types_are_fresh (tt : TypeTable) (name : String) (member_count : Nat) :
    (let r1 := make_struct_type tt name member_count
     let r2 := make_struct_type r1.2 name member_count
     r1.1 ≠ r2.1 ∧
     (r2.2.mem_pool[r1.1]?).map (fun t => (t.tag, t.id, t.member_count))
        = some (TypeTag.STRUCT, tt.type_count, member_count) ∧
     (r2.2.mem_pool[r2.1]?).map (fun t => (t.tag, t.id, t.member_count))
        = some (TypeTag.STRUCT, tt.type_count + 1, member_count) ∧
     r1.2.type_count = tt.type_count + 1 ∧ r2.2.type_count = r1.2.type_count + 1 ∧
     r1.2.types = tt.types ∧ r2.2.types = tt.types) ∧
    (let r1 := make_enum_type tt name member_count
     let r2 := make_enum_type r1.2 name member_count
     r1.1 ≠ r2.1 ∧
     (r2.2.mem_pool[r1.1]?).map (fun t => (t.tag, t.id, t.member_count))
        = some (TypeTag.ENUM, tt.type_count, member_count) ∧
     (r2.2.mem_pool[r2.1]?).map (fun t => (t.tag, t.id, t.member_count))
        = some (TypeTag.ENUM, tt.type_count + 1, member_count) ∧
     r1.2.type_count = tt.type_count + 1 ∧ r2.2.type_count = r1.2.type_count + 1 ∧
     r1.2.types = tt.types ∧ r2.2.types = tt.types) := by
  constructor <;>
  · simp only [make_struct_type, make_enum_type, make_struct_or_enum_type, List.length_append,
      List.length_singleton]
    refine ⟨by omega, ?_, ?_, by trivial, by trivial, by trivial, by trivial⟩
    · rw [List.append_assoc, List.getElem?_append_right (Nat.le_refl _)]
      simp
    · rw [List.getElem?_append_right (by simp)]
      simp

theorem hash_arg_ids_replicate (H : HashFns) (mem : List LType) (p : Nat) (t : LType)
    (hp : mem[p]? = some t) :
    ∀ (n h : Nat), hash_arg_ids H mem h (List.replicate n p)
      = some ((fun h => H.hash_uint64 h t.id)^[n] h) := by
  intro n
  induction n with
  | zero => intro h; rfl
  | succ n ih =>
    intro h
    simp only [List.replicate_succ, hash_arg_ids, hp, Function.iterate_succ, Function.comp_apply]
    exact ih _

theorem compare_arg_types_replicate (p : Nat) :
    ∀ n m : Nat, n ≤ m → compare_arg_types (List.replicate n p) (List.replicate m p) = some true := by
  intro n
  induction n with
  | zero => intro m _; rfl
  | succ n ih =>
    intro m hm
    cases m with
    | zero => omega
    | succ m =>
      simp only [List.replicate_succ, compare_arg_types, ne_eq, not_true_eq_false, if_false]
      exact ih m (by omega)

theorem repeated_tuple_hash_collides (H : HashFns) (hb : ∀ h x, H.hash_uint64 h x < 2 ^ 32) :
    ∃ n m : Nat, 0 < n ∧ n < m ∧ repeated_tuple_hash H 0 n = repeated_tuple_hash H 0 m := by
  have hmaps : ∀ a ∈ Finset.range (2 ^ 32 + 1),
      repeated_tuple_hash H 0 (a + 1) ∈ Finset.range (2 ^ 32) := by
    intro a _
    simp only [repeated_tuple_hash, Function.iterate_succ_apply', Finset.mem_range]
    exact hb _ _
  obtain ⟨a, _, b, _, hne, heq⟩ :=
    Finset.exists_ne_map_eq_of_card_lt_of_maps_to (by simp) hmaps
  rcases Nat.lt_or_gt_of_ne hne with h | h
  · exact ⟨a + 1, b + 1, by omega, by omega, heq⟩
  · exact ⟨b + 1, a + 1, by omega, by omega, heq.symm⟩

theorem get_or_insert_type_hit (H : HashFns) (tt : TypeTable) (type : LType) (hash p : Nat)
    (hh : hash_type H tt H.hash_init type = some hash)
    (hf : find_in_hash_table (compare_stored tt type) hash tt.types = some (some p)) :
    get_or_insert_type H tt type = some (p, tt) := by
  unfold get_or_insert_type
  simp only [hh, hf]

theorem get_or_insert_type_fresh (H : HashFns) (tt : TypeTable) (type : LType) (hash : Nat)
    (hh : hash_type H tt H.hash_init type = some hash)
    (hf : find_in_hash_table (compare_stored tt type) hash tt.types = some none) :
    get_or_insert_type H tt type = some (tt.mem_pool.length,
      { types := tt.types ++ [(hash, tt.mem_pool.length)]
        str_pool := tt.str_pool
        mem_pool := tt.mem_pool ++ [{ type with id := tt.type_count }]
        type_count := tt.type_count + 1 }) := by
  have hext : TableExtends tt { tt with
      mem_pool := tt.mem_pool ++ [{ type with id := tt.type_count }]
      type_count := tt.type_count + 1 } :=
    ⟨⟨[], by simp⟩, ⟨[], by simp⟩, ⟨_, rfl⟩⟩
  have hf2 := find_in_hash_table_agree (compare_stored tt type)
    (compare_stored { tt with
      mem_pool := tt.mem_pool ++ [{ type with id := tt.type_count }]
      type_count := tt.type_count + 1 } { type with id := tt.type_count }) hash
    (by
      intro e he
      rw [← compare_stored_grow tt _ hext type e he]
      unfold compare_stored
      cases (tt.mem_pool ++ [{ type with id := tt.type_count }])[e]? with
      | none => rfl
      | some t => exact compare_types_id_right t type tt.type_count)
    tt.types none hf
  unfold get_or_insert_type
  simp only [hh, hf, insert_in_hash_table, hf2]

theorem find_skips_bool (tt : TypeTable) (probe : LType) (hash h0 : Nat)
    (hmem : tt.mem_pool[0]? = some { tag := .BOOL, id := 0 }) (htag : probe.tag = .TUPLE)
    (rest : List (Nat × Nat)) :
    find_in_hash_table (compare_stored tt probe) hash ((h0, 0) :: rest)
      = find_in_hash_table (compare_stored tt probe) hash rest := by
  conv_lhs => rw [find_in_hash_table]
  by_cases hh : h0 = hash
  · simp [hh, compare_stored, hmem, compare_types, htag]
  · simp [hh]

/-- C3 (the defect). `compare_types` never compares the two `arg_count`s, so a stored
tuple whose arguments are an initial segment of the probe's compares equal to it.
Hence for every 32-bit hash there are two tuple constructions with argument
sequences of different lengths that return the same pointer: on the table holding
`Bool`, the tuples of `n` and of `m` copies of `Bool`, for some `0 < n < m` whose
hashes collide; the second call returns the `n`-tuple and creates nothing. -/
theorem tuple_types_merge_on_collision (H : HashFns) (hb : ∀ h x, H.hash_uint64 h x < 2 ^ 32) :
    ∃ (tt0 tt1 : TypeTable) (n m p : Nat),
      make_prim_type H new_type_table .BOOL = some (0, tt0) ∧
      0 < n ∧ n < m ∧ List.replicate n 0 ≠ List.replicate m 0 ∧
      make_tuple_type H tt0 (List.replicate n 0) = some (p, tt1) ∧
      make_tuple_type H tt1 (List.replicate m 0) = some (p, tt1) ∧
      (tt1.mem_pool[p]?).map (fun t => t.arg_count) = some n := by
  obtain ⟨n, m, hn, hnm, hcol⟩ := repeated_tuple_hash_collides H hb
  obtain ⟨h0, hh0⟩ : ∃ h0, h0 = H.hash_uint32 H.hash_init TypeTag.BOOL.code := ⟨_, rfl⟩
  obtain ⟨tt0, htt0⟩ : ∃ t : TypeTable, t =
    { types := [(h0, 0)], str_pool := [], mem_pool := [{ tag := .BOOL, id := 0 }],
      type_count := 1 } := ⟨_, rfl⟩
  obtain ⟨tt1, htt1⟩ : ∃ t : TypeTable, t =
    { types := [(h0, 0), (repeated_tuple_hash H 0 n, 1)], str_pool := [],
      mem_pool := [{ tag := .BOOL, id := 0 },
        { tag := .TUPLE, id := 1, arg_types := List.replicate n 0 }],
      type_count := 2 } := ⟨_, rfl⟩
  have hmem0 : tt0.mem_pool[0]? = some ({ tag := .BOOL, id := 0 } : LType) := by rw [htt0]; rfl
  have hmem1 : tt1.mem_pool[0]? = some ({ tag := .BOOL, id := 0 } : LType) := by rw [htt1]; rfl
  have hhash0 : ∀ k, hash_type H tt0 H.hash_init { tag := .TUPLE, arg_types := List.replicate k 0 }
      = some (repeated_tuple_hash H 0 k) := by
    intro k
    simp only [hash_type, repeated_tuple_hash]
    exact hash_arg_ids_replicate H tt0.mem_pool 0 _ hmem0 k _
  have hhash1 : ∀ k, hash_type H tt1 H.hash_init { tag := .TUPLE, arg_types := List.replicate k 0 }
      = some (repeated_tuple_hash H 0 k) := by
    intro k
    simp only [hash_type, repeated_tuple_hash]
    exact hash_arg_ids_replicate H tt1.mem_pool 0 _ hmem1 k _
  refine ⟨tt0, tt1, n, m, 1, ?_, hn, hnm, ?_, ?_, ?_, ?_⟩
  · rw [htt0, hh0]
    simp [make_prim_type, is_prim_type, get_or_insert_type, hash_type, find_in_hash_table,
      insert_in_hash_table, new_type_table]
  · intro h
    have := congrArg List.length h
    simp at this
    omega
  · have hf : find_in_hash_table
        (compare_stored tt0 { tag := .TUPLE, arg_types := List.replicate n 0 })
        (repeated_tuple_hash H 0 n) tt0.types = some none := by
      rw [show tt0.types = [(h0, 0)] by rw [htt0], find_skips_bool tt0 _ _ _ hmem0 rfl]
      rfl
    unfold make_tuple_type
    rw [get_or_insert_type_fresh H tt0 _ _ (hhash0 n) hf, htt0, htt1]
    rfl
  · have hf : find_in_hash_table
        (compare_stored tt1 { tag := .TUPLE, arg_types := List.replicate m 0 })
        (repeated_tuple_hash H 0 m) tt1.types = some (some 1) := by
      rw [show tt1.types = [(h0, 0), (repeated_tuple_hash H 0 n, 1)] by rw [htt1],
        find_skips_bool tt1 _ _ _ hmem1 rfl]
      have hcmp : compare_stored tt1 { tag := .TUPLE, arg_types := List.replicate m 0 } 1
          = some true := by
        rw [htt1]
        simp only [compare_stored, compare_types]
        simpa using compare_arg_types_replicate 0 n m (by omega)
      simp [find_in_hash_table, hcol, hcmp]
    unfold make_tuple_type
    exact get_or_insert_type_hit H tt1 _ _ 1 (hhash1 m) hf
  · rw [htt1]
    simp [LType.arg_count]

/-- Witness for the defect behind C3: the bound on the hash is met by `fnvHash`. -/
theorem tuple_types_merge_on_collision_witness :
    (∀ h x, fnvHash.hash_uint64 h x < 2 ^ 32) ∧
    ∃ (tt0 tt1 : TypeTable) (n m p : Nat),
      make_prim_type fnvHash new_type_table .BOOL = some (0, tt0) ∧
      0 < n ∧ n < m ∧ List.replicate n 0 ≠ List.replicate m 0 ∧
      make_tuple_type fnvHash tt0 (List.replicate n 0) = some (p, tt1) ∧
      make_tuple_type fnvHash tt1 (List.replicate m 0) = some (p, tt1) ∧
      (tt1.mem_pool[p]?).map (fun t => t.arg_count) = some n :=
  ⟨fun _ _ => Nat.mod_lt _ (by decide),
    tuple_types_merge_on_collision fnvHash (fun _ _ => Nat.mod_lt _ (by decide))⟩

/-! ## Theorems: well-formed tables -/

theorem new_type_table_ok : TableOk new_type_table := by
  intro e he
  simp [new_type_table] at he

/-- `get_or_insert_type` keeps every stored pointer inside the arena. -/
theorem get_or_insert_type_ok (H : HashFns) (tt tt1 : TypeTable) (type : LType) (p : Nat)
    (hok : TableOk tt) (h : get_or_insert_type H tt type = some (p, tt1)) : TableOk tt1 := by
  unfold get_or_insert_type at h
  cases hh : hash_type H tt H.hash_init type with
  | none => simp [hh] at h
  | some hash =>
    simp only [hh] at h
    cases hf : find_in_hash_table (compare_stored tt type) hash tt.types with
    | none => simp [hf] at h
    | some found =>
      simp only [hf] at h
      cases found with
      | some q =>
        simp only [Option.some.injEq, Prod.mk.injEq] at h
        rw [← h.2]; exact hok
      | none =>
        simp only [insert_in_hash_table] at h
        split at h
        · rename_i types heq
          split at heq
          · simp at heq
          · simp at heq
          · simp only [Option.some.injEq, Prod.mk.injEq, and_true] at heq
            simp only [Option.some.injEq, Prod.mk.injEq] at h
            obtain ⟨_, rfl⟩ := h
            subst heq
            intro e he
            simp only [List.mem_append, List.mem_singleton] at he
            simp only [List.length_append, List.length_singleton]
            rcases he with he | rfl
            · have := hok e he
              omega
            · simp
        · simp at h

/-- `make_struct_or_enum_type` keeps every stored pointer inside the arena. -/
theorem make_struct_or_enum_type_ok (tt : TypeTable) (tag : TypeTag) (name : String) (n : Nat)
    (hok : TableOk tt) : TableOk (make_struct_or_enum_type tt tag name n).2 := by
  intro e he
  simp only [make_struct_or_enum_type] at he ⊢
  have := hok e he
  simp only [List.length_append, List.length_singleton]
  omega

/-! ## Theorems: bidirectional checker -/

theorem find_in_hash_table_total (cmp : Nat → Option Bool) (hash : Nat) :
    ∀ tbl : List (Nat × Nat), (∀ e ∈ tbl, cmp e.2 ≠ none) →
      ∃ r, find_in_hash_table cmp hash tbl = some r := by
  intro tbl
  induction tbl with
  | nil => intro _; exact ⟨none, rfl⟩
  | cons e tbl ih =>
    intro h
    obtain ⟨hh, elem⟩ := e
    obtain ⟨r, hr⟩ := ih (fun e he => h e (List.mem_cons_of_mem _ he))
    unfold find_in_hash_table
    by_cases hq : hh = hash
    · simp only [hq, if_true]
      cases hc : cmp elem with
      | none => exact absurd hc (h (hh, elem) (List.mem_cons_self _ _))
      | some b =>
        cases b with
        | true => exact ⟨some elem, rfl⟩
        | false => exact ⟨r, hr⟩
    · simp only [hq, if_false]
      exact ⟨r, hr⟩

theorem find_in_hash_table_some (cmp : Nat → Option Bool) (hash p : Nat) :
    ∀ tbl : List (Nat × Nat), find_in_hash_table cmp hash tbl = some (some p) →
      cmp p = some true := by
  intro tbl
  induction tbl with
  | nil => intro h; simp [find_in_hash_table] at h
  | cons e tbl ih =>
    intro h
    obtain ⟨hh, elem⟩ := e
    unfold find_in_hash_table at h
    by_cases hq : hh = hash
    · simp only [hq, if_true] at h
      cases hc : cmp elem with
      | none => simp [hc] at h
      | some b =>
        simp only [hc] at h
        cases b with
        | true =>
          simp only [Option.some.injEq] at h
          subst h; exact hc
        | false => exact ih h
    · simp only [hq, if_false] at h
      exact ih h

theorem compare_types_total (t probe : LType) (h : probe.tag ≠ .TUPLE) :
    ∃ b, compare_types t probe = some b := by
  unfold compare_types
  by_cases ht : t.tag = probe.tag
  · simp only [ht, ne_eq, not_true_eq_false, if_false]
    cases hp : probe.tag <;> simp_all
  · simp [ht]

theorem compare_types_tag (t probe : LType) (h : compare_types t probe = some true) :
    t.tag = probe.tag := by
  unfold compare_types at h
  by_cases ht : t.tag = probe.tag
  · exact ht
  · simp [ht] at h

/-- The type returned by `get_or_insert_type` is an object of the arena with the tag
that was asked for. -/
theorem get_or_insert_type_tag (H : HashFns) (tt tt1 : TypeTable) (type : LType) (p : Nat)
    (h : get_or_insert_type H tt type = some (p, tt1)) :
    ∃ t, tt1.mem_pool[p]? = some t ∧ t.tag = type.tag := by
  obtain ⟨_, _, hash, _, hfind⟩ := get_or_insert_type_found H tt tt1 type p h
  have hc := find_in_hash_table_some _ _ _ _ (hfind tt1 (TableExtends.refl _))
  unfold compare_stored at hc
  cases hm : tt1.mem_pool[p]? with
  | none => simp [hm] at hc
  | some t =>
    simp only [hm] at hc
    exact ⟨t, rfl, compare_types_tag t type hc⟩

/-- On a table whose stored pointers are all valid, interning a type that is not a
tuple and whose hash is defined returns a result. -/
theorem get_or_insert_type_total (H : HashFns) (tt : TypeTable) (type : LType)
    (hok : TableOk tt) (htag : type.tag ≠ .TUPLE) (hash : Nat)
    (hh : hash_type H tt H.hash_init type = some hash) :
    ∃ p tt1, get_or_insert_type H tt type = some (p, tt1) := by
  have htotal : ∀ e ∈ tt.types, compare_stored tt type e.2 ≠ none := by
    intro e he
    have hlt := hok e he
    unfold compare_stored
    rw [List.getElem?_eq_getElem hlt]
    obtain ⟨b, hb⟩ := compare_types_total (tt.mem_pool[e.2]) type htag
    simp [hb]
  obtain ⟨r, hr⟩ := find_in_hash_table_total (compare_stored tt type) hash tt.types htotal
  cases r with
  | some p => exact ⟨p, tt, get_or_insert_type_hit H tt type hash p hh hr⟩
  | none => exact ⟨_, _, get_or_insert_type_fresh H tt type hash hh hr⟩

theorem make_error_type_total (H : HashFns) (tt : TypeTable) (hok : TableOk tt) :
    ∃ p tt1 t, make_error_type H tt = some (p, tt1) ∧ tt1.mem_pool[p]? = some t ∧
      t.tag = .ERROR := by
  obtain ⟨p, tt1, h⟩ := get_or_insert_type_total H tt { tag := .ERROR, contains_error := true }
    hok (by simp) _ rfl
  obtain ⟨t, ht, htag⟩ := get_or_insert_type_tag H tt tt1 _ p h
  exact ⟨p, tt1, t, h, ht, htag⟩

/-- C10. A tuple pattern or tuple expression with `m` elements checked against an
expected tuple type with `n ≠ m` components: `check_tuple`, and `check_pattern` and
`check_expr` through it, return the error type, and the state they leave differs
from the initial one only by the one logged message "expected tuple with n
argument(s), but got m" and by what `make_error_type` did to the type table: no
element was visited, no other error logged, no type slot assigned. -/
theorem tuple_arity_mismatch (H : HashFns) (is_subtype : TypeTable → Nat → Nat → Bool)
    (context : TypingContext) (addr : Nat) (args : List AstNode) (expected_type : Nat) (et : LType)
    (hok : TableOk context.type_table)
    (het : deref_type context expected_type = some et) (htag : et.tag = .TUPLE)
    (hne : et.arg_count ≠ get_ast_list_length args) :
    ∃ error_type type_table t,
      make_error_type H context.type_table = some (error_type, type_table) ∧
      type_table.mem_pool[error_type]? = some t ∧ t.tag = .ERROR ∧
      (∀ check_arg, check_tuple H is_subtype context addr args expected_type check_arg =
        some (error_type,
          { log := { error_count := context.log.error_count + 1
                     msgs := context.log.msgs ++
                       [.expected_tuple addr et.arg_count (get_ast_list_length args)] }
            type_table := type_table
            node_types := context.node_types })) ∧
      check_pattern H is_subtype context (.tuple_pattern addr args) expected_type =
        some (error_type,
          { log := { error_count := context.log.error_count + 1
                     msgs := context.log.msgs ++
                       [.expected_tuple addr et.arg_count (get_ast_list_length args)] }
            type_table := type_table
            node_types := context.node_types }) ∧
      check_expr H is_subtype context (.tuple_expr addr args) expected_type =
        some (error_type,
          { log := { error_count := context.log.error_count + 1
                     msgs := context.log.msgs ++
                       [.expected_tuple addr et.arg_count (get_ast_list_length args)] }
            type_table := type_table
            node_types := context.node_types }) := by
  obtain ⟨p, tt1, t, hmk, ht, htt⟩ := make_error_type_total H context.type_table hok
  have hct : ∀ check_arg, check_tuple H is_subtype context addr args expected_type check_arg =
      some (p,
        { log := { error_count := context.log.error_count + 1
                   msgs := context.log.msgs ++
                     [.expected_tuple addr et.arg_count (get_ast_list_length args)] }
          type_table := tt1
          node_types := context.node_types }) := by
    intro check_arg
    rw [check_tuple]
    simp [het, htag, hne, log_error, with_type_table, hmk]
  refine ⟨p, tt1, t, hmk, ht, htt, hct, ?_, ?_⟩
  · rw [check_pattern]
    simp [het, htag, hct]
  · rw [check_expr]
    simp [het, htag, hct]

/-- Witness for C10: the pattern `(x, y, z)` against the expected type `(I32, I32)`
logs the single error "expected tuple with 2 argument(s), but got 3", returns the
error type (pointer 2, created by the call) and assigns no type slot. -/
theorem tuple_arity_mismatch_witness :
    TableOk i32PairContext.type_table ∧
    deref_type i32PairContext 1 = some { tag := .TUPLE, id := 1, arg_types := [0, 0] } ∧
    (2 : Nat) ≠ get_ast_list_length patternXYZ ∧
    check_pattern fnvHash sampleSubtype i32PairContext (.tuple_pattern 10 patternXYZ) 1 =
      some (2,
        { log := { error_count := 1, msgs := [.expected_tuple 10 2 3] }
          type_table :=
            { types := [(101473970, 0), (124064152, 1), (151806827, 2)]
              str_pool := []
              mem_pool := [{ tag := .I32, id := 0 }, { tag := .TUPLE, id := 1, arg_types := [0, 0] },
                { tag := .ERROR, id := 2, contains_error := true }]
              type_count := 3 }
          node_types := [] }) := by
  have hok : TableOk i32PairContext.type_table := by
    intro e he
    simp [i32PairContext] at he
    rcases he with rfl | rfl <;> simp [i32PairContext]
  have het : deref_type i32PairContext 1 = some { tag := .TUPLE, id := 1, arg_types := [0, 0] } :=
    rfl
  have hne : ({ tag := .TUPLE, id := 1, arg_types := [0, 0] } : LType).arg_count
      ≠ get_ast_list_length patternXYZ := by decide
  obtain ⟨p, tt, t, hmk, _, _, _, hpat, _⟩ :=
    tuple_arity_mismatch fnvHash sampleSubtype i32PairContext 10 patternXYZ 1 _ hok het rfl hne
  have hmk2 : make_error_type fnvHash i32PairContext.type_table = some (2,
      { types := [(101473970, 0), (124064152, 1), (151806827, 2)]
        str_pool := []
        mem_pool := [{ tag := .I32, id := 0 }, { tag := .TUPLE, id := 1, arg_types := [0, 0] },
          { tag := .ERROR, id := 2, contains_error := true }]
        type_count := 3 }) := by decide
  rw [hmk2] at hmk
  simp only [Option.some.injEq, Prod.mk.injEq] at hmk
  obtain ⟨rfl, rfl⟩ := hmk
  exact ⟨hok, het, by decide, hpat⟩

theorem get_ast_list_length_eq : ∀ l : List AstNode, get_ast_list_length l = l.length := by
  intro l
  induction l with
  | nil => rfl
  | cons h t ih => simp [get_ast_list_length, ih]

theorem check_many_in_order (H : HashFns) (is_subtype : TypeTable → Nat → Nat → Bool)
    (check_one : CheckFn) :
    ∀ (elems : List AstNode) (expected_types : List Nat) (context : TypingContext),
      expected_types.length = get_ast_list_length elems →
      check_many H is_subtype context elems expected_types check_one =
        check_in_order (fun c (x : AstNode × Nat) => call_check H is_subtype check_one c x.1 x.2)
          context (elems.zip expected_types) := by
  intro elems
  induction elems with
  | nil =>
    intro expected_types context _
    rw [check_many]
    simp [check_in_order]
  | cons elem next ih =>
    intro expected_types context hlen
    cases expected_types with
    | nil => simp [get_ast_list_length] at hlen
    | cons expected rest =>
      simp only [get_ast_list_length, List.length_cons, Nat.add_right_cancel_iff] at hlen
      rw [check_many]
      simp only [List.zip_cons_cons, check_in_order, ih rest _ hlen]
      rfl

/-- C8. A tuple expression or pattern with `n` elements checked against an expected
tuple type with `n` components: `check_tuple` checks the elements in order, element
`i` against component `i` (the list of pairs has exactly `n` entries, the elements
on one side and the components on the other), then returns `make_tuple_type` of the
per-element results in that order and stores it in the node; the log it leaves is
the log left by the element checks. -/
theorem check_tuple_elementwise (H : HashFns) (is_subtype : TypeTable → Nat → Nat → Bool)
    (context : TypingContext) (addr : Nat) (args : List AstNode) (expected_type : Nat)
    (et : LType) (check_arg : CheckFn)
    (het : deref_type context expected_type = some et) (htag : et.tag = .TUPLE)
    (hlen : et.arg_count = get_ast_list_length args) :
    (args.zip et.arg_types).length = get_ast_list_length args ∧
    (args.zip et.arg_types).map (fun x => x.1) = args ∧
    (args.zip et.arg_types).map (fun x => x.2) = et.arg_types ∧
    check_tuple H is_subtype context addr args expected_type check_arg =
      match check_in_order (fun c (x : AstNode × Nat) => call_check H is_subtype check_arg c x.1 x.2)
          context (args.zip et.arg_types) with
      | none => none
      | some (arg_types, context1) =>
        match make_tuple_type H context1.type_table arg_types with
        | none => none
        | some (type, type_table) =>
          some (type,
            { log := context1.log
              type_table := type_table
              node_types := (addr, type) :: context1.node_types }) := by
  have hl : args.length = et.arg_types.length := by
    rw [← get_ast_list_length_eq]; exact hlen.symm
  refine ⟨by simp [List.length_zip, hl, get_ast_list_length_eq], ?_, ?_, ?_⟩
  · rw [← List.unzip_fst, List.unzip_zip hl]
  · rw [← List.unzip_snd, List.unzip_zip hl]
  · rw [check_tuple]
    simp only [het, htag, ne_eq, not_true_eq_false, if_false, hlen]
    rw [check_many_in_order H is_subtype check_arg args et.arg_types context hlen]
    rfl

/-- The example of C8: with `is_subtype(Bool, Bool)`, checking `(1, true)` against
`(Bool, Bool)` logs exactly one error, on the integer literal, and yields the tuple
type `(error, Bool)`. -/
theorem check_tuple_poisons_one_component (is_subtype : TypeTable → Nat → Nat → Bool)
    (hbool : ∀ tt, is_subtype tt 0 0 = true) :
    check_expr fnvHash is_subtype boolPairContext (.tuple_expr 20 argsOneTrue) 1 =
      some (3, boolPairChecked) := by
  simp [check_expr, check_tuple, check_many, call_check, infer_expr, expect_type, fail_expect,
    expect_int_or_float_literal, deref_type, boolPairContext, boolPairChecked, argsOneTrue,
    emptyLog, get_ast_list_length, LType.arg_count,
    is_int_or_float_type, log_error, with_type_table, make_error_type, get_or_insert_type,
    hash_type, fnvHash, TypeTag.code, find_in_hash_table, compare_stored, compare_types,
    insert_in_hash_table, make_prim_type, is_prim_type, set_type, make_tuple_type, hash_arg_ids,
    compare_arg_types, hbool]

/-- Witness for C8: `(1, true)` against `(Bool, Bool)`. -/
theorem check_tuple_elementwise_witness :
    deref_type boolPairContext 1 = some { tag := .TUPLE, id := 1, arg_types := [0, 0] } ∧
    (check_tuple fnvHash sampleSubtype boolPairContext 20 argsOneTrue 1 .check_expr =
      match check_in_order
          (fun c (x : AstNode × Nat) => call_check fnvHash sampleSubtype .check_expr c x.1 x.2)
          boolPairContext (argsOneTrue.zip [0, 0]) with
      | none => none
      | some (arg_types, context1) =>
        match make_tuple_type fnvHash context1.type_table arg_types with
        | none => none
        | some (type, type_table) =>
          some (type,
            { log := context1.log
              type_table := type_table
              node_types := (20, type) :: context1.node_types })) ∧
    check_expr fnvHash sampleSubtype boolPairContext (.tuple_expr 20 argsOneTrue) 1 =
      some (3, boolPairChecked) ∧
    boolPairChecked.log.error_count = 1 ∧
    (boolPairChecked.type_table.mem_pool[3]?).map (fun t => (t.tag, t.arg_types))
      = some (TypeTag.TUPLE, [2, 0]) ∧
    (boolPairChecked.type_table.mem_pool[2]?).map (fun t => t.tag) = some TypeTag.ERROR ∧
    (boolPairChecked.type_table.mem_pool[0]?).map (fun t => t.tag) = some TypeTag.BOOL ∧
    get_type boolPairChecked 20 = some 3 :=
  ⟨rfl,
    (check_tuple_elementwise fnvHash sampleSubtype boolPairContext 20 argsOneTrue 1
      { tag := .TUPLE, id := 1, arg_types := [0, 0] } .check_expr rfl rfl rfl).2.2.2,
    check_tuple_poisons_one_component sampleSubtype (fun _ => rfl),
    rfl, rfl, rfl, rfl, rfl⟩

theorem check_pattern_and_expr_args_in_order (H : HashFns)
    (is_subtype : TypeTable → Nat → Nat → Bool) (et : LType) (htag : et.tag = .UNKNOWN) :
    ∀ (pattern_args expr_args : List AstNode) (context : TypingContext) (i : Nat),
      get_ast_list_length pattern_args = get_ast_list_length expr_args →
      check_pattern_and_expr_args H is_subtype context et i pattern_args expr_args =
        check_in_order (fun c (x : AstNode × AstNode) =>
            match with_type_table c (make_unknown_type H c.type_table) with
            | none => none
            | some (unknown, c1) => check_pattern_and_expr H is_subtype c1 x.1 x.2 unknown)
          context (pattern_args.zip expr_args) := by
  intro pattern_args
  induction pattern_args with
  | nil =>
    intro expr_args context i _
    rw [check_pattern_and_expr_args]
    simp [check_in_order]
  | cons p ps ih =>
    intro expr_args context i hlen
    cases expr_args with
    | nil => simp [get_ast_list_length] at hlen
    | cons e es =>
      simp only [get_ast_list_length, Nat.add_right_cancel_iff] at hlen
      rw [check_pattern_and_expr_args]
      simp only [List.zip_cons_cons, check_in_order, expected_arg_type, htag]
      cases hu : with_type_table context (make_unknown_type H context.type_table) with
      | none => simp
      | some r =>
        obtain ⟨unknown, c1⟩ := r
        simp only [reduceCtorEq, if_false]
        cases hc : check_pattern_and_expr H is_subtype c1 p e unknown with
        | none => rfl
        | some r2 =>
          obtain ⟨type, c2⟩ := r2
          simp only [ih es c2 (i + 1) hlen]
          rfl

/-- C7. Co-checking a tuple pattern with a tuple expression of the same arity under
the unknown expectation: `check_pattern_and_expr` co-checks the sub-patterns with
the sub-expressions in order, the `i`-th with the `i`-th, each under a fresh
`make_unknown_type`, and returns `make_tuple_type` of the results in that order; the
log (and the type slots) it leaves are those left by the element checks. -/
theorem co_check_tuples_elementwise (H : HashFns) (is_subtype : TypeTable → Nat → Nat → Bool)
    (context : TypingContext) (a b : Nat) (pattern_args expr_args : List AstNode)
    (expected_type : Nat) (et : LType)
    (het : deref_type context expected_type = some et) (htag : et.tag = .UNKNOWN)
    (hlen : get_ast_list_length pattern_args = get_ast_list_length expr_args) :
    (pattern_args.zip expr_args).map (fun x => x.1) = pattern_args ∧
    (pattern_args.zip expr_args).map (fun x => x.2) = expr_args ∧
    check_pattern_and_expr H is_subtype context (.tuple_pattern a pattern_args)
        (.tuple_expr b expr_args) expected_type =
      match check_in_order (fun c (x : AstNode × AstNode) =>
            match with_type_table c (make_unknown_type H c.type_table) with
            | none => none
            | some (unknown, c1) => check_pattern_and_expr H is_subtype c1 x.1 x.2 unknown)
          context (pattern_args.zip expr_args) with
      | none => none
      | some (arg_types, context1) =>
        match make_tuple_type H context1.type_table arg_types with
        | none => none
        | some (type, type_table) =>
          some (type,
            { log := context1.log
              type_table := type_table
              node_types := context1.node_types }) := by
  have hl : pattern_args.length = expr_args.length := by
    rw [← get_ast_list_length_eq, ← get_ast_list_length_eq]; exact hlen
  refine ⟨?_, ?_, ?_⟩
  · rw [← List.unzip_fst, List.unzip_zip hl]
  · rw [← List.unzip_snd, List.unzip_zip hl]
  · rw [check_pattern_and_expr]
    simp only [het, htag, true_or, if_true, hlen, reduceCtorEq, ne_eq, not_false_eq_true,
      and_self]
    rw [check_pattern_and_expr_args_in_order H is_subtype et htag pattern_args expr_args
      context 0 hlen]
    cases check_in_order (fun c (x : AstNode × AstNode) =>
            match with_type_table c (make_unknown_type H c.type_table) with
            | none => none
            | some (unknown, c1) => check_pattern_and_expr H is_subtype c1 x.1 x.2 unknown)
          context (pattern_args.zip expr_args) with
    | none => rfl
    | some r =>
      obtain ⟨arg_types, context1⟩ := r
      simp only [with_type_table]
      cases make_tuple_type H context1.type_table arg_types with
      | none => rfl
      | some r2 => rfl

/-- The example of C7: with a reflexive `is_subtype`, co-checking `(x, y: Bool)`
with `(1, true)` under the unknown expectation assigns `I32` to `x` and `Bool` to
`y`, returns the tuple type `(I32, Bool)` and logs nothing. -/
theorem co_check_infers_both_sides (is_subtype : TypeTable → Nat → Nat → Bool)
    (hrefl : ∀ tt t, is_subtype tt t t = true) :
    check_pattern_and_expr fnvHash is_subtype unknownContext (.tuple_pattern 10 argsXYBool)
        (.tuple_expr 20 argsOneTrue) 0 = some (3, unknownChecked) := by
  simp [check_pattern_and_expr, check_pattern_and_expr_args, expected_arg_type, check_pattern,
    infer_pattern, infer_type, check_expr, infer_expr, expect_type, deref_type, unknownContext,
    unknownChecked, argsXYBool, argsOneTrue, emptyLog, get_ast_list_length, LType.arg_count,
    with_type_table, make_unknown_type, get_or_insert_type,
    hash_type, fnvHash, TypeTag.code, find_in_hash_table, compare_stored, compare_types,
    insert_in_hash_table, make_prim_type, is_prim_type, set_type, make_tuple_type, hash_arg_ids,
    compare_arg_types, AstNode.addr, hrefl]

/-- Witness for C7: `(x, y: Bool)` co-checked with `(1, true)`: `x` (node 11) gets
`I32`, `y` (node 13) gets `Bool`, the result is the tuple type `(I32, Bool)` and the
log stays empty. -/
theorem co_check_tuples_elementwise_witness :
    deref_type unknownContext 0 = some { tag := .UNKNOWN, id := 0 } ∧
    get_ast_list_length argsXYBool = get_ast_list_length argsOneTrue ∧
    (check_pattern_and_expr fnvHash sampleSubtype unknownContext (.tuple_pattern 10 argsXYBool)
        (.tuple_expr 20 argsOneTrue) 0 =
      match check_in_order (fun c (x : AstNode × AstNode) =>
            match with_type_table c (make_unknown_type fnvHash c.type_table) with
            | none => none
            | some (unknown, c1) =>
              check_pattern_and_expr fnvHash sampleSubtype c1 x.1 x.2 unknown)
          unknownContext (argsXYBool.zip argsOneTrue) with
      | none => none
      | some (arg_types, context1) =>
        match make_tuple_type fnvHash context1.type_table arg_types with
        | none => none
        | some (type, type_table) =>
          some (type,
            { log := context1.log
              type_table := type_table
              node_types := context1.node_types })) ∧
    check_pattern_and_expr fnvHash sampleSubtype unknownContext (.tuple_pattern 10 argsXYBool)
        (.tuple_expr 20 argsOneTrue) 0 = some (3, unknownChecked) ∧
    unknownChecked.log.error_count = 0 ∧
    get_type unknownChecked 11 = some 1 ∧ get_type unknownChecked 13 = some 2 ∧
    (unknownChecked.type_table.mem_pool[1]?).map (fun t => t.tag) = some TypeTag.I32 ∧
    (unknownChecked.type_table.mem_pool[2]?).map (fun t => t.tag) = some TypeTag.BOOL ∧
    (unknownChecked.type_table.mem_pool[3]?).map (fun t => (t.tag, t.arg_types))
      = some (TypeTag.TUPLE, [1, 2]) :=
  ⟨rfl, rfl,
    (co_check_tuples_elementwise fnvHash sampleSubtype unknownContext 10 20 argsXYBool
      argsOneTrue 0 { tag := .UNKNOWN, id := 0 } rfl rfl rfl).2.2,
    co_check_infers_both_sides sampleSubtype (fun _ _ => by simp [sampleSubtype]),
    rfl, rfl, rfl, rfl, rfl, rfl⟩

/-- C9 (what the code does). For an if-expression with an else branch whose branch
checks return `sub` for the then-branch and `super` for the else-branch, with
`is_subtype(sub, super)` and not `is_subtype(super, sub)`: `check_if_expr` returns
and stores `sub`, the subtype, not the supertype `super`, and logs nothing.  The
same holds with the branches exchanged: the else-branch is returned when it is the
subtype. -/
theorem check_if_expr_returns_subtype (H : HashFns) (is_subtype : TypeTable → Nat → Nat → Bool)
    (context context1 context2 context3 : TypingContext) (addr : Nat)
    (cond then_expr else_expr : AstNode) (expected_type cond_type sub super : Nat)
    (hcond : check_cond H is_subtype context cond = some (cond_type, context1))
    (hsub : is_subtype context3.type_table sub super = true)
    (hnot : is_subtype context3.type_table super sub = false) :
    sub ≠ super ∧
    (check_expr H is_subtype context1 then_expr expected_type = some (sub, context2) →
      check_expr H is_subtype context2 else_expr expected_type = some (super, context3) →
      check_if_expr H is_subtype context addr cond then_expr (some else_expr) expected_type
        = some (sub, { log := context3.log, type_table := context3.type_table,
                       node_types := (addr, sub) :: context3.node_types })) ∧
    (check_expr H is_subtype context1 then_expr expected_type = some (super, context2) →
      check_expr H is_subtype context2 else_expr expected_type = some (sub, context3) →
      check_if_expr H is_subtype context addr cond then_expr (some else_expr) expected_type
        = some (sub, { log := context3.log, type_table := context3.type_table,
                       node_types := (addr, sub) :: context3.node_types })) := by
  refine ⟨?_, ?_, ?_⟩
  · intro h
    rw [h] at hsub
    rw [h, hsub] at hnot
    exact Bool.noConfusion hnot
  · intro hthen helse
    rw [check_if_expr]
    simp [hcond, hthen, helse, hnot, hsub, check_if_expr_branches, expect_type, set_type]
  · intro hthen helse
    rw [check_if_expr]
    simp [hcond, hthen, helse, hsub, check_if_expr_branches, set_type]

/-- Witness for C9: `if true { 1 } else { 1.5 }` with `I32` a subtype of `F32`: the
then-branch has type `I32` (pointer 2), the else-branch `F32` (pointer 3), and the
if-expression (node 30) gets `I32`. -/
theorem check_if_expr_returns_subtype_witness :
    check_cond fnvHash sampleSubtype unknownContext ifCond = some (1, ifCondChecked) ∧
    check_expr fnvHash sampleSubtype ifCondChecked ifThen 0 = some (2, ifThenChecked) ∧
    check_expr fnvHash sampleSubtype ifThenChecked ifElse 0 = some (3, ifElseChecked) ∧
    sampleSubtype ifElseChecked.type_table 2 3 = true ∧
    sampleSubtype ifElseChecked.type_table 3 2 = false ∧
    (ifElseChecked.type_table.mem_pool[2]?).map (fun t => t.tag) = some TypeTag.I32 ∧
    (ifElseChecked.type_table.mem_pool[3]?).map (fun t => t.tag) = some TypeTag.F32 ∧
    check_if_expr fnvHash sampleSubtype unknownContext 30 ifCond ifThen (some ifElse) 0
      = some (2, { log := emptyLog, type_table := ifElseChecked.type_table,
                   node_types := (30, 2) :: ifElseChecked.node_types }) := by
  have hcond : check_cond fnvHash sampleSubtype unknownContext ifCond = some (1, ifCondChecked) := by
    simp [check_cond, check_expr, infer_expr, expect_type, deref_type, unknownContext,
      ifCondChecked, ifCond, emptyLog, get_or_insert_type, hash_type, fnvHash, TypeTag.code,
      find_in_hash_table, compare_stored, compare_types, insert_in_hash_table, make_prim_type,
      is_prim_type, set_type, AstNode.addr, sampleSubtype]
  have hthen : check_expr fnvHash sampleSubtype ifCondChecked ifThen 0
      = some (2, ifThenChecked) := by
    simp [check_expr, infer_expr, deref_type, ifCondChecked, ifThenChecked, ifThen, emptyLog,
      get_or_insert_type, hash_type, fnvHash, TypeTag.code, find_in_hash_table, compare_stored,
      compare_types, insert_in_hash_table, make_prim_type, is_prim_type, set_type]
  have helse : check_expr fnvHash sampleSubtype ifThenChecked ifElse 0
      = some (3, ifElseChecked) := by
    simp [check_expr, infer_expr, deref_type, ifThenChecked, ifElseChecked, ifElse, emptyLog,
      get_or_insert_type, hash_type, fnvHash, TypeTag.code, find_in_hash_table, compare_stored,
      compare_types, insert_in_hash_table, make_prim_type, is_prim_type, set_type]
  have hsub : sampleSubtype ifElseChecked.type_table 2 3 = true := by decide
  have hnot : sampleSubtype ifElseChecked.type_table 3 2 = false := by decide
  exact ⟨hcond, hthen, helse, hsub, hnot, rfl, rfl,
    (check_if_expr_returns_subtype fnvHash sampleSubtype unknownContext ifCondChecked
      ifThenChecked ifElseChecked 30 ifCond ifThen ifElse 0 1 2 3 hcond hsub hnot).2.1
      hthen helse⟩

/-! ## Theorems: arena invariants -/

theorem alloc_search_spec (size : Nat) :
    ∀ l : List MemBlock, l ≠ [] → (∀ y ∈ l, y.size ≤ y.capacity) →
      (∀ y ∈ l.tail, y.size = 0) →
      alloc_search size l =
        some (if l.findIdx (has_room size) < l.length then l
              else l ++ [alloc_mem_block size], l.findIdx (has_room size)) := by
  intro l
  induction l with
  | nil => intro h; exact absurd rfl h
  | cons b rest ih =>
    intro _ hcap hzero
    have hb : b.size ≤ b.capacity := hcap b (List.mem_cons_self _ _)
    by_cases hr : b.capacity - b.size < size
    · have hroom : has_room size b = false := by simp [has_room]; omega
      cases rest with
      | nil =>
        simp [alloc_search, remaining_mem, hb, hr, List.findIdx_cons, hroom]
      | cons n rest2 =>
        have hn : n.size = 0 := hzero n (by simp)
        have ih2 := ih (by simp) (fun y hy => hcap y (List.mem_cons_of_mem _ hy))
          (fun y hy => hzero y (by
            simp only [List.tail_cons] at hy ⊢
            exact List.mem_cons_of_mem _ hy))
        rw [alloc_search]
        simp only [remaining_mem, ge_iff_le, hb, if_true, hr, hn, ne_eq, not_true_eq_false,
          if_false, ih2, Option.map_some']
        rw [List.findIdx_cons (p := has_room size) (b := b), hroom]
        simp only [cond_false, List.length_cons, Nat.add_lt_add_iff_right]
        split <;> simp
    · have hroom : has_room size b = true := by simp [has_room]; omega
      cases rest with
      | nil => simp [alloc_search, remaining_mem, hb, hr, List.findIdx_cons, hroom]
      | cons n rest2 => simp [alloc_search, remaining_mem, hb, hr, List.findIdx_cons, hroom]

theorem alloc_mem_block_room (size : Nat) :
    (alloc_mem_block size).size = 0 ∧ size ≤ (alloc_mem_block size).capacity ∧
    (alloc_mem_block size).capacity = max size MIN_MEM_BLOCK_CAPACITY := by
  unfold alloc_mem_block MIN_MEM_BLOCK_CAPACITY
  simp only
  split
  · refine ⟨trivial, by omega, ?_⟩
    rw [Nat.max_def]; split <;> omega
  · refine ⟨trivial, by omega, ?_⟩
    rw [Nat.max_def]; split <;> omega

/-- What `alloc_from_mem_pool` does on a non-empty pool that satisfies the invariant,
in terms of the position `j` of the first block, counted from `cur`, with room for
the rounded size. -/
theorem alloc_from_mem_pool_spec (A : Nat) (p : MemPool) (c size : Nat)
    (hok : PoolOk p) (hc : p.cur = some c) :
    (∀ blk, p.blocks[c + (p.blocks.drop c).findIdx (has_room (align_to size A))]? = some blk →
      alloc_from_mem_pool A p size =
        some ((c + (p.blocks.drop c).findIdx (has_room (align_to size A)), blk.size),
          { blocks := p.blocks.set (c + (p.blocks.drop c).findIdx (has_room (align_to size A)))
              { blk with size := blk.size + align_to size A }
            cur := some (c + (p.blocks.drop c).findIdx (has_room (align_to size A))) })) ∧
    (p.blocks[c + (p.blocks.drop c).findIdx (has_room (align_to size A))]? = none →
      alloc_from_mem_pool A p size =
        some ((p.blocks.length, 0),
          { blocks := p.blocks ++ [{ size := align_to size A,
                                     capacity := max (align_to size A) MIN_MEM_BLOCK_CAPACITY }]
            cur := some p.blocks.length })) := by
  simp only [PoolOk, hc] at hok
  obtain ⟨hlt, hcap, hzero⟩ := hok
  have hne : p.blocks.drop c ≠ [] := by
    intro h
    have := congrArg List.length h
    simp at this
    omega
  have hs := alloc_search_spec (align_to size A) (p.blocks.drop c) hne
    (fun z hz => hcap z (List.mem_of_mem_drop hz))
    (by
      intro z hz
      rw [List.tail_drop] at hz
      obtain ⟨i, hi⟩ := List.mem_iff_getElem?.mp hz
      rw [List.getElem?_drop] at hi
      exact hzero (c + 1 + i) z (by omega) hi)
  have hlen : (p.blocks.drop c).length = p.blocks.length - c := by simp
  constructor
  · intro blk hblk
    have hj : c + (p.blocks.drop c).findIdx (has_room (align_to size A)) < p.blocks.length :=
      (List.getElem?_eq_some_iff.mp hblk).1
    have hj2 : (p.blocks.drop c).findIdx (has_room (align_to size A)) < (p.blocks.drop c).length := by
      omega
    have hroom : has_room (align_to size A) blk = true := by
      have h1 : (p.blocks.drop c)[(p.blocks.drop c).findIdx (has_room (align_to size A))]?
          = some blk := by
        rw [List.getElem?_drop]; exact hblk
      exact List.findIdx_of_getElem?_eq_some h1
    have hblkcap : blk.size ≤ blk.capacity := hcap blk (List.getElem?_mem hblk)
    simp only [has_room, decide_eq_true_eq] at hroom
    unfold alloc_from_mem_pool
    simp only [hc, hlt, if_true, hs, hj2, Option.map_some', List.take_append_drop, hblk,
      remaining_mem]
    have h1 : blk.capacity ≥ blk.size := hblkcap
    have h2 : blk.capacity - blk.size ≥ align_to size A := hroom
    simp only [h1, h2, if_true]
  · intro hnone
    have hj : p.blocks.length ≤ c + (p.blocks.drop c).findIdx (has_room (align_to size A)) := by
      rcases Nat.lt_or_ge (c + (p.blocks.drop c).findIdx (has_room (align_to size A)))
        p.blocks.length with h | h
      · rw [List.getElem?_eq_getElem h] at hnone
        simp at hnone
      · exact h
    have hle := @List.findIdx_le_length _ (has_room (align_to size A)) (p.blocks.drop c)
    have hj2 : (p.blocks.drop c).findIdx (has_room (align_to size A)) = p.blocks.length - c := by
      omega
    have hj3 : ¬ (p.blocks.drop c).findIdx (has_room (align_to size A))
        < (p.blocks.drop c).length := by omega
    obtain ⟨hz, hroom, hcapn⟩ := alloc_mem_block_room (align_to size A)
    unfold alloc_from_mem_pool
    simp only [hc, hlt, if_true, hs, hj3, if_false, Option.map_some']
    rw [← List.append_assoc, List.take_append_drop, hj2]
    have hidx : c + (p.blocks.length - c) = p.blocks.length := by omega
    rw [hidx, List.getElem?_append_right (Nat.le_refl _)]
    simp only [Nat.sub_self, List.getElem?_cons_zero, remaining_mem, hz, ge_iff_le, Nat.zero_le,
      if_true, Nat.sub_zero, hroom, Nat.zero_add]
    rw [List.set_append_right _ _ (Nat.le_refl _)]
    simp [hcapn, hz]

/-- One allocation on a pool that satisfies the invariant: it returns, the invariant
still holds, and either one existing block `k` was bumped by the rounded size (the
offset being its old `size`) or one new block was appended and is used from 0. -/
theorem alloc_step (A : Nat) (p : MemPool) (size : Nat) (hok : PoolOk p) :
    ∃ k off q, alloc_from_mem_pool A p size = some ((k, off), q) ∧ PoolOk q ∧
      q.cur = some k ∧
      ((∃ blk, p.blocks[k]? = some blk ∧ off = blk.size ∧
          q.blocks = p.blocks.set k { blk with size := blk.size + align_to size A }) ∨
       (off = 0 ∧ k = p.blocks.length ∧
          q.blocks = p.blocks ++
            [⟨align_to size A, max (align_to size A) MIN_MEM_BLOCK_CAPACITY⟩])) := by
  cases hc : p.cur with
  | none =>
    have hnil : p.blocks = [] := by simpa [PoolOk, hc] using hok
    obtain ⟨hz, hroom, hcapn⟩ := alloc_mem_block_room (align_to size A)
    refine ⟨0, 0, ⟨[⟨align_to size A, max (align_to size A) MIN_MEM_BLOCK_CAPACITY⟩], some 0⟩,
      ?_, ?_, rfl, Or.inr ⟨rfl, by simp [hnil], by simp [hnil]⟩⟩
    · unfold alloc_from_mem_pool
      simp [hc, remaining_mem, hz, hroom, hcapn]
    · simp only [PoolOk]
      refine ⟨by simp, ?_, ?_⟩
      · intro x hx
        simp only [List.mem_singleton] at hx
        subst hx
        exact Nat.le_max_left _ _
      · intro i x hi hx
        rw [List.getElem?_eq_none (by simp; omega)] at hx
        simp at hx
  | some c =>
    obtain ⟨h1, h2⟩ := alloc_from_mem_pool_spec A p c size hok hc
    have hok2 := hok
    simp only [PoolOk, hc] at hok2
    obtain ⟨hlt, hcap, hzero⟩ := hok2
    cases hb : p.blocks[c + (p.blocks.drop c).findIdx (has_room (align_to size A))]? with
    | some blk =>
      have hk : c + (p.blocks.drop c).findIdx (has_room (align_to size A)) < p.blocks.length :=
        (List.getElem?_eq_some_iff.mp hb).1
      have hroom : has_room (align_to size A) blk = true := by
        have h3 : (p.blocks.drop c)[(p.blocks.drop c).findIdx (has_room (align_to size A))]?
            = some blk := by
          rw [List.getElem?_drop]; exact hb
        exact List.findIdx_of_getElem?_eq_some h3
      have hblkcap : blk.size ≤ blk.capacity := hcap blk (List.getElem?_mem hb)
      simp only [has_room, decide_eq_true_eq] at hroom
      refine ⟨_, _, _, h1 blk hb, ?_, rfl, Or.inl ⟨blk, hb, rfl, rfl⟩⟩
      simp only [PoolOk]
      refine ⟨by simpa using hk, ?_, ?_⟩
      · intro z hz
        rcases List.mem_or_eq_of_mem_set hz with h | h
        · exact hcap z h
        · subst h; simp only; omega
      · intro i z hi hz
        rw [List.getElem?_set_ne (by omega)] at hz
        exact hzero i z (by omega) hz
    | none =>
      refine ⟨_, _, _, h2 hb, ?_, rfl, Or.inr ⟨rfl, rfl, rfl⟩⟩
      simp only [PoolOk]
      refine ⟨by simp, ?_, ?_⟩
      · intro x hx
        simp only [List.mem_append, List.mem_singleton] at hx
        rcases hx with hx | hx
        · exact hcap x hx
        · subst hx; exact Nat.le_max_left _ _
      · intro i x hi hx
        rw [List.getElem?_eq_none (by simp; omega)] at hx
        simp at hx

theorem reset_mem_pool_ok (p : MemPool) : PoolOk (reset_mem_pool p) := by
  cases hp : p.blocks with
  | nil => simp [PoolOk, reset_mem_pool, hp]
  | cons b l =>
    simp only [PoolOk, reset_mem_pool, hp, List.isEmpty_cons, Bool.false_eq_true, if_false]
    refine ⟨by simp, ?_, ?_⟩
    · intro x hx
      simp only [List.mem_map] at hx
      obtain ⟨y, _, rfl⟩ := hx
      simp
    · intro i x _ hx
      simp only [List.getElem?_map, Option.map_eq_some'] at hx
      obtain ⟨y, _, rfl⟩ := hx
      rfl

theorem new_mem_pool_ok : PoolOk new_mem_pool := by
  simp [PoolOk, new_mem_pool]

theorem run_pool_ops_ok (A : Nat) :
    ∀ (ops : List PoolOp) (p : MemPool), PoolOk p →
      ∃ ptrs q, run_pool_ops A p ops = some (ptrs, q) ∧ PoolOk q := by
  intro ops
  induction ops with
  | nil => intro p hp; exact ⟨[], p, rfl, hp⟩
  | cons op ops ih =>
    intro p hp
    cases op with
    | alloc size =>
      obtain ⟨k, off, q, hq, hqok, _, _⟩ := alloc_step A p size hp
      obtain ⟨ptrs, r, hr, hrok⟩ := ih q hqok
      exact ⟨(k, off) :: ptrs, r, by simp [run_pool_ops, hq, hr], hrok⟩
    | reset =>
      obtain ⟨ptrs, r, hr, hrok⟩ := ih (reset_mem_pool p) (reset_mem_pool_ok p)
      exact ⟨ptrs, r, by simp [run_pool_ops, hr], hrok⟩

theorem PoolOk.size_le_capacity {p : MemPool} (hok : PoolOk p) :
    ∀ b ∈ p.blocks, b.size ≤ b.capacity := by
  cases hc : p.cur with
  | none =>
    have hnil : p.blocks = [] := by simpa [PoolOk, hc] using hok
    intro b hb
    rw [hnil] at hb
    simp at hb
  | some c =>
    simp only [PoolOk, hc] at hok
    exact hok.2.1

/-- C11. Starting from `new_mem_pool`, every finite sequence of `alloc_from_mem_pool`
and `reset_mem_pool` calls runs to its end without a failed assertion, and in the
pool it leaves every block satisfies `size <= capacity` (and the arena invariant
`PoolOk` holds). -/
theorem arena_size_le_capacity (A : Nat) (ops : List PoolOp) :
    ∃ ptrs p, run_pool_ops A new_mem_pool ops = some (ptrs, p) ∧ PoolOk p ∧
      ∀ b ∈ p.blocks, b.size ≤ b.capacity := by
  obtain ⟨ptrs, p, hrun, hok⟩ := run_pool_ops_ok A ops new_mem_pool new_mem_pool_ok
  exact ⟨ptrs, p, hrun, hok, hok.size_le_capacity⟩

/-- C13. `reset_mem_pool` keeps the blocks and only marks them reusable: afterwards
every block has `size == 0`, the list has the same number of blocks with the same
capacities in the same order, and `cur` is `first` (the head of the list, or null
when the pool owns no block). -/
theorem reset_mem_pool_keeps_blocks (p : MemPool) :
    (∀ b ∈ (reset_mem_pool p).blocks, b.size = 0) ∧
    (reset_mem_pool p).blocks.length = p.blocks.length ∧
    (reset_mem_pool p).blocks.map (fun b => b.capacity) = p.blocks.map (fun b => b.capacity) ∧
    (∀ i : Nat, (reset_mem_pool p).blocks[i]? =
      (p.blocks[i]?).map (fun b => ({ size := 0, capacity := b.capacity } : MemBlock))) ∧
    (p.blocks = [] → (reset_mem_pool p).cur = none) ∧
    (p.blocks ≠ [] → (reset_mem_pool p).cur = some 0) := by
  refine ⟨?_, by simp [reset_mem_pool], ?_, ?_, ?_, ?_⟩
  · intro b hb
    simp only [reset_mem_pool, List.mem_map] at hb
    obtain ⟨y, _, rfl⟩ := hb
    rfl
  · simp [reset_mem_pool, List.map_map, Function.comp_def]
  · intro i
    simp [reset_mem_pool, List.getElem?_map]
  · intro h; simp [reset_mem_pool, h]
  · intro h
    cases hp : p.blocks with
    | nil => exact absurd hp h
    | cons b l => simp [reset_mem_pool, hp]

theorem findIdx_drop_first (f : MemBlock → Bool) (l : List MemBlock) (c k : Nat) (blk : MemBlock)
    (hck : c ≤ k) (hk : l[k]? = some blk) (hf : f blk = true)
    (hfirst : ∀ i x, c ≤ i → i < k → l[i]? = some x → f x = false) :
    c + (l.drop c).findIdx f = k := by
  have hkl : k < l.length := (List.getElem?_eq_some_iff.mp hk).1
  have hlen : k - c < (l.drop c).length := by simp; omega
  have hidx : (l.drop c).findIdx f = k - c := by
    rw [List.findIdx_eq hlen]
    constructor
    · have : (l.drop c)[k - c]? = some blk := by
        rw [List.getElem?_drop]
        rw [show c + (k - c) = k by omega]; exact hk
      rw [List.getElem?_eq_getElem hlen] at this
      rw [Option.some.inj this]; exact hf
    · intro j hj
      have hj2 : j < (l.drop c).length := by omega
      have : (l.drop c)[j]? = some (l.drop c)[j] := List.getElem?_eq_getElem hj2
      rw [List.getElem?_drop] at this
      exact hfirst (c + j) _ (by omega) (by omega) this
  omega

theorem findIdx_drop_none (f : MemBlock → Bool) (l : List MemBlock) (c : Nat)
    (hnone : ∀ i x, c ≤ i → l[i]? = some x → f x = false) :
    l[c + (l.drop c).findIdx f]? = none := by
  have h : (l.drop c).findIdx f = (l.drop c).length := by
    apply List.findIdx_eq_length_of_false
    intro x hx
    obtain ⟨i, hi⟩ := List.mem_iff_getElem?.mp hx
    rw [List.getElem?_drop] at hi
    exact hnone (c + i) x (by omega) hi
  rw [h]
  apply List.getElem?_eq_none
  simp
  omega

/-- C14. `alloc_from_mem_pool` on a non-empty pool (one that satisfies the arena
invariant) reuses owned blocks before growing: when `k` is the first block, at or
after `cur`, with room for the rounded size, the allocation is placed there, at that
block's old `size`, and the block count is unchanged; when no block at or after `cur`
has room, one block of capacity `max(rounded size, 1024)` is appended and used from
offset 0; and the block count grows only in that second case. -/
theorem alloc_reuses_before_growing (A : Nat) (p : MemPool) (c size : Nat)
    (hok : PoolOk p) (hc : p.cur = some c) :
    (∀ k blk, c ≤ k → p.blocks[k]? = some blk → has_room (align_to size A) blk = true →
      (∀ i x, c ≤ i → i < k → p.blocks[i]? = some x → has_room (align_to size A) x = false) →
      alloc_from_mem_pool A p size =
        some ((k, blk.size),
          { blocks := p.blocks.set k { blk with size := blk.size + align_to size A }
            cur := some k }) ∧
      (p.blocks.set k { blk with size := blk.size + align_to size A }).length
        = p.blocks.length) ∧
    ((∀ i x, c ≤ i → p.blocks[i]? = some x → has_room (align_to size A) x = false) →
      alloc_from_mem_pool A p size =
        some ((p.blocks.length, 0),
          { blocks := p.blocks ++
              [⟨align_to size A, max (align_to size A) MIN_MEM_BLOCK_CAPACITY⟩]
            cur := some p.blocks.length })) ∧
    (∃ ptr q, alloc_from_mem_pool A p size = some (ptr, q) ∧
      (q.blocks.length = p.blocks.length ∨
        (q.blocks.length = p.blocks.length + 1 ∧
          ∀ i x, c ≤ i → p.blocks[i]? = some x → has_room (align_to size A) x = false))) := by
  obtain ⟨h1, h2⟩ := alloc_from_mem_pool_spec A p c size hok hc
  refine ⟨?_, ?_, ?_⟩
  · intro k blk hck hk hroom hfirst
    have hidx := findIdx_drop_first (has_room (align_to size A)) p.blocks c k blk hck hk hroom
      hfirst
    rw [hidx] at h1
    exact ⟨h1 blk hk, by simp⟩
  · intro hnone
    exact h2 (findIdx_drop_none (has_room (align_to size A)) p.blocks c hnone)
  · cases hb : p.blocks[c + (p.blocks.drop c).findIdx (has_room (align_to size A))]? with
    | some blk => exact ⟨_, _, h1 blk hb, Or.inl (by simp)⟩
    | none =>
      refine ⟨_, _, h2 hb, Or.inr ⟨by simp, ?_⟩⟩
      intro i x hi hx
      have hil : i < p.blocks.length := (List.getElem?_eq_some_iff.mp hx).1
      have hge : p.blocks.length ≤ c + (p.blocks.drop c).findIdx (has_room (align_to size A)) := by
        rcases Nat.lt_or_ge (c + (p.blocks.drop c).findIdx (has_room (align_to size A)))
          p.blocks.length with h | h
        · rw [List.getElem?_eq_getElem h] at hb
          simp at hb
        · exact h
      have hlt : i - c < (p.blocks.drop c).findIdx (has_room (align_to size A)) := by omega
      have := List.not_of_lt_findIdx hlt
      have hx2 : (p.blocks.drop c)[i - c]? = some x := by
        rw [List.getElem?_drop, show c + (i - c) = i by omega]; exact hx
      have hlen : i - c < (p.blocks.drop c).length := (List.getElem?_eq_some_iff.mp hx2).1
      rw [List.getElem?_eq_getElem hlen] at hx2
      rw [← Option.some.inj hx2]
      exact this

/-- Witness for C14: in a pool of two blocks whose current block is full, a request of
16 bytes goes to the second block; a request of 2000 bytes fits nowhere and grows a
block of capacity 2000. -/
theorem alloc_reuses_before_growing_witness :
    PoolOk ⟨[⟨1024, 1024⟩, ⟨0, 1024⟩], some 0⟩ ∧
    alloc_from_mem_pool 16 ⟨[⟨1024, 1024⟩, ⟨0, 1024⟩], some 0⟩ 10 =
      some ((1, 0), ⟨[⟨1024, 1024⟩, ⟨16, 1024⟩], some 1⟩) ∧
    alloc_from_mem_pool 16 ⟨[⟨1024, 1024⟩, ⟨0, 1024⟩], some 0⟩ 2000 =
      some ((2, 0), ⟨[⟨1024, 1024⟩, ⟨0, 1024⟩, ⟨2000, 2000⟩], some 2⟩) := by
  have hok : PoolOk ⟨[⟨1024, 1024⟩, ⟨0, 1024⟩], some 0⟩ := by
    refine ⟨by decide, ?_, ?_⟩
    · intro x hx
      simp at hx
      rcases hx with rfl | rfl <;> simp
    · intro i x hi hx
      match i, hi with
      | 1, _ => simp at hx; subst hx; rfl
      | (n + 2), _ => simp at hx
  have hfirst : ∀ i x, 0 ≤ i → i < 1 →
      ([⟨1024, 1024⟩, ⟨0, 1024⟩] : List MemBlock)[i]? = some x →
      has_room (align_to 10 16) x = false := by
    intro i x _ hi hx
    have hi0 : i = 0 := by omega
    subst hi0
    simp at hx; subst hx; decide
  have hnone : ∀ i x, 0 ≤ i → ([⟨1024, 1024⟩, ⟨0, 1024⟩] : List MemBlock)[i]? = some x →
      has_room (align_to 2000 16) x = false := by
    intro i x _ hx
    match i with
    | 0 => simp at hx; subst hx; decide
    | 1 => simp at hx; subst hx; decide
    | (n + 2) => simp at hx
  exact ⟨hok,
    ((alloc_reuses_before_growing 16 ⟨[⟨1024, 1024⟩, ⟨0, 1024⟩], some 0⟩ 0 10 hok rfl).1
      1 ⟨0, 1024⟩ (by decide) rfl (by decide) hfirst).1,
    (alloc_reuses_before_growing 16 ⟨[⟨1024, 1024⟩, ⟨0, 1024⟩], some 0⟩ 0 2000 hok rfl).2.1
      hnone⟩

theorem least_multiple_eq (size align : Nat) (ha : 0 < align) :
    least_multiple size align =
      if size % align = 0 then size else size + align - size % align := by
  unfold least_multiple
  have hdm := Nat.div_add_mod size align
  have hr : size % align < align := Nat.mod_lt _ ha
  by_cases h0 : size % align = 0
  · simp only [h0, if_true]
    have h1 : (size + align - 1) / align = size / align := by
      have : size + align - 1 = (align - 1) + align * (size / align) := by omega
      rw [this, Nat.add_mul_div_left _ _ ha, Nat.div_eq_of_lt (by omega)]
      omega
    rw [h1]
    have := Nat.div_mul_cancel (Nat.dvd_of_mod_eq_zero h0)
    exact this
  · simp only [h0, if_false]
    have h1 : (size + align - 1) / align = size / align + 1 := by
      have : size + align - 1 = (size % align - 1) + align * (size / align + 1) := by
        rw [Nat.mul_add]; omega
      rw [this, Nat.add_mul_div_left _ _ ha, Nat.div_eq_of_lt (by omega)]
      omega
    rw [h1, Nat.add_mul, Nat.mul_comm (size / align) align]
    omega

theorem align_to_dvd (size A : Nat) (hdiv : A ∣ 2 ^ 64) : A ∣ align_to size A := by
  have hA : 0 < A := by
    rcases Nat.eq_zero_or_pos A with h | h
    · subst h
      simp at hdiv
    · exact h
  unfold align_to
  simp only
  by_cases h0 : size % A = 0
  · simp only [h0, ne_eq, not_true_eq_false, if_false]
    exact Nat.dvd_of_mod_eq_zero h0
  · simp only [h0, ne_eq, not_false_eq_true, if_true]
    rw [Nat.dvd_mod_iff hdiv]
    have hr : size % A < A := Nat.mod_lt _ hA
    have hdm := Nat.div_add_mod size A
    have : size + A - size % A = A * (size / A + 1) := by
      rw [Nat.mul_add]; omega
    rw [this]
    exact Nat.dvd_mul_right _ _

theorem run_pool_ops_aligned (A : Nat) (hdiv : A ∣ 2 ^ 64) :
    ∀ (ops : List PoolOp) (p : MemPool), PoolOk p → (∀ b ∈ p.blocks, A ∣ b.size) →
      ∀ ptrs q, run_pool_ops A p ops = some (ptrs, q) →
        (∀ b ∈ q.blocks, A ∣ b.size) ∧ ∀ ptr ∈ ptrs, A ∣ ptr.2 := by
  intro ops
  induction ops with
  | nil =>
    intro p _ hal ptrs q hrun
    simp only [run_pool_ops, Option.some.injEq, Prod.mk.injEq] at hrun
    obtain ⟨rfl, rfl⟩ := hrun
    exact ⟨hal, by simp⟩
  | cons op ops ih =>
    intro p hp hal ptrs q hrun
    cases op with
    | alloc size =>
      obtain ⟨k, off, r, hr, hrok, _, hshape⟩ := alloc_step A p size hp
      simp only [run_pool_ops, hr] at hrun
      cases hrest : run_pool_ops A r ops with
      | none => simp [hrest] at hrun
      | some res =>
        obtain ⟨ptrs2, q2⟩ := res
        simp only [hrest, Option.map_some', Option.some.injEq, Prod.mk.injEq] at hrun
        obtain ⟨rfl, rfl⟩ := hrun
        have hs := align_to_dvd size A hdiv
        have hral : ∀ b ∈ r.blocks, A ∣ b.size := by
          intro b hb
          rcases hshape with ⟨blk, hblk, _, hset⟩ | ⟨_, _, happ⟩
          · rw [hset] at hb
            rcases List.mem_or_eq_of_mem_set hb with h | h
            · exact hal b h
            · subst h
              exact Nat.dvd_add (hal blk (List.getElem?_mem hblk)) hs
          · rw [happ] at hb
            simp only [List.mem_append, List.mem_singleton] at hb
            rcases hb with h | h
            · exact hal b h
            · subst h; exact hs
        have hoff : A ∣ off := by
          rcases hshape with ⟨blk, hblk, hoff, _⟩ | ⟨hoff, _, _⟩
          · rw [hoff]; exact hal blk (List.getElem?_mem hblk)
          · rw [hoff]; exact Nat.dvd_zero _
        obtain ⟨h1, h2⟩ := ih r hrok hral ptrs2 _ hrest
        refine ⟨h1, ?_⟩
        intro ptr hptr
        simp only [List.mem_cons] at hptr
        rcases hptr with rfl | hptr
        · exact hoff
        · exact h2 ptr hptr
    | reset =>
      simp only [run_pool_ops] at hrun
      refine ih (reset_mem_pool p) (reset_mem_pool_ok p) ?_ ptrs q hrun
      intro b hb
      simp only [reset_mem_pool, List.mem_map] at hb
      obtain ⟨y, _, rfl⟩ := hb
      exact Nat.dvd_zero _

/-- C12 (as amended). For every `align > 0` and every `size` whose rounded-up value
is below `2 ^ 64` (so that the rounding does not wrap in `size_t`), `align_to(size,
align)` is the least multiple of `align` that is not smaller than `size`.  And for a
maximum alignment `A` that is a power of two (it divides `2 ^ 64`), after every
sequence of allocations and resets on a pool created by `new_mem_pool` every block's
used counter and every offset returned by `alloc_from_mem_pool` is a multiple of
`A`. -/
theorem aligned_allocations (A : Nat) (hdiv : A ∣ 2 ^ 64) :
    (∀ size align, 0 < align → least_multiple size align < 2 ^ 64 →
      align_to size align = least_multiple size align ∧
      align ∣ align_to size align ∧ size ≤ align_to size align ∧
      ∀ m, align ∣ m → size ≤ m → align_to size align ≤ m) ∧
    (∀ ops ptrs p, run_pool_ops A new_mem_pool ops = some (ptrs, p) →
      (∀ b ∈ p.blocks, A ∣ b.size) ∧ ∀ ptr ∈ ptrs, A ∣ ptr.2) := by
  constructor
  · intro size align ha hlt
    have hlm := least_multiple_eq size align ha
    have hr : size % align < align := Nat.mod_lt _ ha
    have hdm := Nat.div_add_mod size align
    have heq : align_to size align = least_multiple size align := by
      rw [hlm] at hlt ⊢
      unfold align_to
      simp only
      by_cases h0 : size % align = 0
      · simp [h0]
      · simp only [h0, ne_eq, not_false_eq_true, if_true, if_false] at hlt ⊢
        exact Nat.mod_eq_of_lt hlt
    rw [heq, hlm]
    by_cases h0 : size % align = 0
    · simp only [h0, if_true]
      refine ⟨trivial, Nat.dvd_of_mod_eq_zero h0, Nat.le_refl _, fun m _ hm => hm⟩
    · simp only [h0, if_false]
      have hmul : size + align - size % align = align * (size / align + 1) := by
        rw [Nat.mul_add]; omega
      refine ⟨trivial, ?_, by omega, ?_⟩
      · rw [hmul]; exact Nat.dvd_mul_right _ _
      · intro m hm hsm
        obtain ⟨k, rfl⟩ := hm
        rw [hmul]
        apply Nat.mul_le_mul_left
        have hlt2 : align * (size / align) < align * k := by omega
        have := Nat.lt_of_mul_lt_mul_left hlt2
        omega
  · intro ops ptrs p hrun
    exact run_pool_ops_aligned A hdiv ops new_mem_pool new_mem_pool_ok
      (by intro b hb; simp [new_mem_pool] at hb) ptrs p hrun

/-- Witness for C12 (as amended): with a maximum alignment of 16, `align_to(10, 16)`
is 16, and the allocations 10, 20, reset, 5 return offsets 0, 16 and 0. -/
theorem aligned_allocations_witness :
    (16 ∣ 2 ^ 64) ∧ align_to 10 16 = 16 ∧
    run_pool_ops 16 new_mem_pool [.alloc 10, .alloc 20, .reset, .alloc 5] =
      some ([(0, 0), (0, 16), (0, 0)], ⟨[⟨16, 1024⟩], some 0⟩) ∧
    ((∀ b ∈ (⟨[⟨16, 1024⟩], some 0⟩ : MemPool).blocks, 16 ∣ b.size) ∧
      ∀ ptr ∈ [((0 : Nat), (0 : Nat)), (0, 16), (0, 0)], 16 ∣ ptr.2) :=
  ⟨by decide, by decide, by decide,
    (aligned_allocations 16 (by decide)).2 [.alloc 10, .alloc 20, .reset, .alloc 5]
      [(0, 0), (0, 16), (0, 0)] ⟨[⟨16, 1024⟩], some 0⟩ (by decide)⟩

/-- Counterexample to C12 as stated: the request `2 ^ 64 - 1`, a valid `size_t`,
is rounded with alignment 16 to 0, which is smaller than the request (the sum
`size + align - offset` wraps), so `align_to` does not return a multiple of 16 that
is not smaller than `size`. -/
theorem align_to_wraps :
    align_to (2 ^ 64 - 1) 16 = 0 ∧ ¬ (2 ^ 64 - 1 ≤ align_to (2 ^ 64 - 1) 16) ∧
    (2 ^ 64 - 1 < 2 ^ 64) :=
  ⟨by decide, by decide, by decide⟩

/-! ## Theorems: variable sets and node tags -/

theorem contains_var_sorted (s : ir_var_set) (v fuel : Nat)
    (hsorted : s.vars.Pairwise (fun a b => a ≥ b)) (hlen : s.var_count < 2 ^ 63)
    (hfuel : s.var_count < fuel) :
    contains_var fuel s v = some (decide (v ∈ s.vars)) := by
  unfold contains_var
  apply contains_var_loop_spec s.vars v hsorted hlen fuel 0 _ (Nat.zero_le _) (Nat.le_refl _)
  · exact hfuel
  · intro k x hk; omega
  · intro k x hk hx
    have hkl := (List.getElem?_eq_some_iff.mp hx).1
    change s.vars.length ≤ k at hk
    omega

/-- C15. For a variable set `a` sorted in descending order (whose array fits the
address space) and any variable set `b`, `contains_any_var_of(a, b)` returns, every
binary search ending within `var_count + 1` loop tests, and it returns true exactly
when some identifier occurs in both sets. -/
theorem contains_any_var_of_iff (a b : ir_var_set) (fuel : Nat)
    (hsorted : a.vars.Pairwise (fun x y => x ≥ y)) (hlen : a.var_count < 2 ^ 63)
    (hfuel : a.var_count < fuel) :
    contains_any_var_of fuel a b = some (decide (∃ v ∈ b.vars, v ∈ a.vars)) := by
  unfold contains_any_var_of
  generalize b.vars = l
  induction l with
  | nil => simp [contains_any_var_loop]
  | cons v rest ih =>
    have hv := contains_var_sorted a v fuel hsorted hlen hfuel
    unfold contains_any_var_loop
    rw [hv]
    by_cases hm : v ∈ a.vars
    · simp [hm]
    · simp only [hm, decide_False, ih]
      congr 1
      simp [hm]

/-- Witness for C15: `{9,5,2}` shares 5 with `{7,5}` and nothing with `{7,1,10}`. -/
theorem contains_any_var_of_iff_witness :
    contains_any_var_of 4 ⟨[9, 5, 2]⟩ ⟨[7, 5]⟩ = some true ∧
    contains_any_var_of 4 ⟨[9, 5, 2]⟩ ⟨[7, 1, 10]⟩ = some false ∧
    contains_any_var_of 4 ⟨[9, 5, 2]⟩ ⟨[7, 5]⟩
      = some (decide (∃ v ∈ [7, 5], v ∈ [9, 5, 2])) :=
  ⟨by decide, by decide,
    contains_any_var_of_iff ⟨[9, 5, 2]⟩ ⟨[7, 5]⟩ 4 (by decide) (by decide) (by decide)⟩

/-! ## Theorems: operand counts and operand indices of vector variants -/

theorem lookup_of_mem_nodup {α β : Type} [DecidableEq α] (l : List (α × β)) (k : α) (v : β)
    (hnd : (l.map (fun c => c.1)).Nodup) (hmem : (k, v) ∈ l) : l.lookup k = some v := by
  induction l with
  | nil => simp at hmem
  | cons c rest ih =>
    obtain ⟨k0, v0⟩ := c
    simp only [List.map_cons, List.nodup_cons, List.mem_map, not_exists, not_and] at hnd
    rcases List.mem_cons.1 hmem with h | h
    · obtain ⟨rfl, rfl⟩ := Prod.mk.inj h
      simp [List.lookup]
    · have hne : k ≠ k0 := by
        intro he
        subst he
        exact hnd.1 (k, v) h rfl
      have hb : (k == k0) = false := by simpa using hne
      simp only [List.lookup, hb]
      exact ih hnd.2 h

theorem mem_of_lookup_some {α β : Type} [DecidableEq α] (l : List (α × β)) (k : α) (v : β)
    (h : l.lookup k = some v) : (k, v) ∈ l := by
  induction l with
  | nil => simp [List.lookup] at h
  | cons c rest ih =>
    obtain ⟨k0, v0⟩ := c
    by_cases hk : k = k0
    · subst hk
      simp [List.lookup] at h
      subst h
      exact List.mem_cons_self _ _
    · have hb : (k == k0) = false := by simpa using hk
      simp only [List.lookup, hb] at h
      exact List.mem_cons_of_mem _ (ih h)

theorem mem_vec_op_cases (vs : List (ir_node_tag × ir_node_tag × Nat))
    (e : ir_node_tag × ir_node_tag × Nat) (he : e ∈ vs) :
    (e.2.1, if e.2.2 = SIZE_MAX then e.2.2 else (e.2.2 + 1) % 2 ^ 64) ∈ vec_op_cases vs ∧
      (e.1, e.2.2) ∈ vec_op_cases vs := by
  induction vs with
  | nil => simp at he
  | cons c rest ih =>
    obtain ⟨s, v, n⟩ := c
    rcases List.mem_cons.1 he with h | h
    · subst h
      simp [vec_op_cases]
    · obtain ⟨h1, h2⟩ := ih h
      simp only [vec_op_cases, List.mem_cons]
      exact ⟨Or.inr (Or.inr h1), Or.inr (Or.inr h2)⟩

theorem mem_op_count_cases (L : NodeLists) (e : ir_node_tag × ir_node_tag × Nat)
    (he : e ∈ L.vec_op_list) :
    (e.2.1, if e.2.2 = SIZE_MAX then e.2.2 else (e.2.2 + 1) % 2 ^ 64) ∈ op_count_cases L ∧
      (e.1, e.2.2) ∈ op_count_cases L := by
  obtain ⟨h1, h2⟩ := mem_vec_op_cases L.vec_op_list e he
  unfold op_count_cases
  exact ⟨List.mem_append_right _ h1, List.mem_append_right _ h2⟩

theorem vec_op_cases_labels_nodup (L : NodeLists) (hwf : L.WellFormed) :
    ((vec_op_cases L.vec_op_list).map (fun c => c.1)).Nodup := by
  have h := hwf.1
  unfold op_count_cases at h
  rw [List.map_append] at h
  exact (List.nodup_append.1 h).2.1

theorem to_vec_tag_lookup (vs : List (ir_node_tag × ir_node_tag × Nat))
    (hnd : ((vec_op_cases vs).map (fun c => c.1)).Nodup)
    (e : ir_node_tag × ir_node_tag × Nat) (he : e ∈ vs) :
    (vs.map (fun e => (e.1, e.2.1))).lookup e.1 = some e.2.1 ∧
      (vs.map (fun e => (e.2.1, e.1))).lookup e.2.1 = some e.1 ∧
      vs.any (fun x => x.2.1 == e.2.1) = true ∧
      vs.any (fun x => x.2.1 == e.1) = false ∧ e.2.1 ≠ e.1 := by
  induction vs with
  | nil => simp at he
  | cons c rest ih =>
    obtain ⟨s, v, n⟩ := c
    simp only [vec_op_cases, List.map_cons, List.nodup_cons, List.mem_cons, not_or] at hnd
    obtain ⟨⟨hvs, hv⟩, hs, hrest⟩ := hnd
    rcases List.mem_cons.1 he with h | h
    · subst h
      have hnone : rest.any (fun x => x.2.1 == s) = false := by
        rw [Bool.eq_false_iff]
        intro hany
        obtain ⟨x, hx, hxe⟩ := List.any_eq_true.1 hany
        have hxe2 : x.2.1 = s := by simpa using hxe
        apply hs
        rw [← hxe2]
        exact List.mem_map.2 ⟨_, (mem_vec_op_cases rest x hx).1, rfl⟩
      refine ⟨by simp [List.lookup], by simp [List.lookup], by simp, ?_, hvs⟩
      have hb : (v == s) = false := by simpa using hvs
      simp [List.any_cons, hb, hnone]
    · obtain ⟨h1, h2, h3, h4, h5⟩ := ih hrest h
      obtain ⟨m1, m2⟩ := mem_vec_op_cases rest e h
      have l1 : e.2.1 ∈ (vec_op_cases rest).map (fun c => c.1) := List.mem_map.2 ⟨_, m1, rfl⟩
      have l2 : e.1 ∈ (vec_op_cases rest).map (fun c => c.1) := List.mem_map.2 ⟨_, m2, rfl⟩
      have n1 : e.1 ≠ s := fun h => hs (h ▸ l2)
      have n2 : e.2.1 ≠ v := fun h => hv (h ▸ l1)
      have n3 : v ≠ e.1 := fun h => hv (h ▸ l2)
      have b1 : (e.1 == s) = false := by simpa using n1
      have b2 : (e.2.1 == v) = false := by simpa using n2
      have b3 : (v == e.1) = false := by simpa using n3
      refine ⟨?_, ?_, ?_, ?_, h5⟩
      · simp only [List.map_cons, List.lookup, b1]
        exact h1
      · simp only [List.map_cons, List.lookup, b2]
        exact h2
      · simp [List.any_cons, h3]
      · simp only [List.any_cons, b3, Bool.false_or]
        exact h4

theorem vec_entry_tags (L : NodeLists) (hwf : L.WellFormed)
    (e : ir_node_tag × ir_node_tag × Nat) (he : e ∈ L.vec_op_list) :
    to_vec_tag L e.1 = e.2.1 ∧ to_scalar_tag L e.2.1 = e.1 ∧ is_vec_op L e.2.1 = true ∧
      is_vec_op L e.1 = false ∧ e.2.1 ≠ e.1 := by
  obtain ⟨h1, h2, h3, h4, h5⟩ :=
    to_vec_tag_lookup L.vec_op_list (vec_op_cases_labels_nodup L hwf) e he
  refine ⟨?_, ?_, h3, h4, h5⟩
  · simp only [to_vec_tag, h1]
  · simp only [to_scalar_tag, h2]

theorem vec_entry_counts (L : NodeLists) (hwf : L.WellFormed)
    (e : ir_node_tag × ir_node_tag × Nat) (he : e ∈ L.vec_op_list) :
    get_expected_op_count L e.1 = e.2.2 ∧
      get_expected_op_count L e.2.1 = if e.2.2 = SIZE_MAX then SIZE_MAX else e.2.2 + 1 := by
  obtain ⟨m1, m2⟩ := mem_op_count_cases L e he
  have l1 := lookup_of_mem_nodup _ _ _ hwf.1 m1
  have l2 := lookup_of_mem_nodup _ _ _ hwf.1 m2
  have hle := hwf.2 e he
  refine ⟨by simp only [get_expected_op_count, l2], ?_⟩
  simp only [get_expected_op_count, l1]
  by_cases hn : e.2.2 = SIZE_MAX
  · simp [hn]
  · simp only [hn, if_false]
    apply Nat.mod_eq_of_lt
    unfold SIZE_MAX at hle hn
    omega

theorem vec_entry_of_to_vec_tag (L : NodeLists) (t : ir_node_tag) (hv : to_vec_tag L t ≠ t) :
    ∃ e ∈ L.vec_op_list, e.1 = t := by
  unfold to_vec_tag at hv
  cases hl : (L.vec_op_list.map (fun e => (e.1, e.2.1))).lookup t with
  | none => simp [hl] at hv
  | some v =>
    obtain ⟨e, he, hev⟩ := List.mem_map.1 (mem_of_lookup_some _ _ _ hl)
    exact ⟨e, he, (Prod.mk.inj hev).1⟩

theorem sampleNodeLists_wf : sampleNodeLists.WellFormed :=
  ⟨by decide, by decide⟩

/-- C16: for well-formed lists, every entry of `IR_VEC_OP_LIST` gives a scalar tag whose
vector variant `to_vec_tag` is a different tag and whose expected operand count is the
count `n` of the entry; and for every tag `t` with a vector variant
(`to_vec_tag t ≠ t`), `get_expected_op_count (to_vec_tag t)` is `SIZE_MAX` when the
count of `t` is `SIZE_MAX`, and the count of `t` plus one otherwise. -/
theorem vec_variant_op_count (L : NodeLists) (hwf : L.WellFormed) :
    (∀ e ∈ L.vec_op_list, to_vec_tag L e.1 = e.2.1 ∧ to_vec_tag L e.1 ≠ e.1 ∧
        get_expected_op_count L e.1 = e.2.2) ∧
    (∀ t, to_vec_tag L t ≠ t →
        get_expected_op_count L (to_vec_tag L t) =
          if get_expected_op_count L t = SIZE_MAX then SIZE_MAX
          else get_expected_op_count L t + 1) := by
  constructor
  · intro e he
    obtain ⟨h1, -, -, -, h5⟩ := vec_entry_tags L hwf e he
    exact ⟨h1, by rw [h1]; exact h5, (vec_entry_counts L hwf e he).1⟩
  · intro t hv
    obtain ⟨e, he, rfl⟩ := vec_entry_of_to_vec_tag L t hv
    obtain ⟨h1, -⟩ := vec_entry_tags L hwf e he
    obtain ⟨c1, c2⟩ := vec_entry_counts L hwf e he
    rw [h1, c1, c2]

/-- Witness for C16 on the sample lists: the vectorised unsigned division has four
expected operands where the scalar one has three, and the variable count stays
variable. -/
theorem vec_variant_op_count_witness :
    sampleNodeLists.WellFormed ∧
      to_vec_tag sampleNodeLists .IR_VAL_UDIV = .IR_VAL_VUDIV ∧
      get_expected_op_count sampleNodeLists .IR_VAL_UDIV = 3 ∧
      get_expected_op_count sampleNodeLists (to_vec_tag sampleNodeLists .IR_VAL_UDIV) =
        (if get_expected_op_count sampleNodeLists .IR_VAL_UDIV = SIZE_MAX then SIZE_MAX
          else get_expected_op_count sampleNodeLists .IR_VAL_UDIV + 1) ∧
      get_expected_op_count sampleNodeLists (to_vec_tag sampleNodeLists (.IR_OTHER 2)) =
        (if get_expected_op_count sampleNodeLists (.IR_OTHER 2) = SIZE_MAX then SIZE_MAX
          else get_expected_op_count sampleNodeLists (.IR_OTHER 2) + 1) :=
  ⟨sampleNodeLists_wf, by decide, by decide,
    (vec_variant_op_count sampleNodeLists sampleNodeLists_wf).2 .IR_VAL_UDIV (by decide),
    (vec_variant_op_count sampleNodeLists sampleNodeLists_wf).2 (.IR_OTHER 2) (by decide)⟩

theorem sampleNodeLists_named : sampleNodeLists.DeclaresNamedPairs := by
  unfold NodeLists.DeclaresNamedPairs
  decide

theorem vec_entry_named (L : NodeLists) (hwf : L.WellFormed) (hnamed : L.DeclaresNamedPairs)
    (e : ir_node_tag × ir_node_tag × Nat) (he : e ∈ L.vec_op_list)
    (p : ir_node_tag × ir_node_tag) (hp : p ∈ named_vec_pairs) :
    (e.1 = p.1 ↔ e.2.1 = p.2) ∧ e.1 ≠ p.2 ∧ e.2.1 ≠ p.1 := by
  obtain ⟨x, hx, hxp⟩ := List.mem_map.1 (hnamed p hp)
  obtain ⟨a1, a2, a3, a4, -⟩ := vec_entry_tags L hwf e he
  obtain ⟨b1, b2, b3, b4, -⟩ := vec_entry_tags L hwf x hx
  obtain ⟨hx1, hx2⟩ := Prod.mk.inj hxp
  rw [hx1, hx2] at b1 b2
  rw [hx2] at b3
  rw [hx1] at b4
  refine ⟨⟨fun h => ?_, fun h => ?_⟩, fun h => ?_, fun h => ?_⟩
  · rw [← a1, h, b1]
  · rw [← a2, h, b2]
  · rw [h, b3] at a4
    exact Bool.noConfusion a4
  · rw [h, b4] at a3
    exact Bool.noConfusion a3

theorem has_err_eq (t : ir_node_tag) :
    has_err t = (t == .IR_VAL_UDIV || t == .IR_VAL_SDIV || t == .IR_VAL_UREM ||
      t == .IR_VAL_SREM || t == .IR_VAL_FDIV || t == .IR_VAL_FREM || t == .IR_VAL_VUDIV ||
      t == .IR_VAL_VSDIV || t == .IR_VAL_VUREM || t == .IR_VAL_VSREM || t == .IR_VAL_VFDIV ||
      t == .IR_VAL_VFREM) := by
  cases t <;> simp [has_err]

theorem vec_entry_accept (L : NodeLists) (hwf : L.WellFormed) (hnamed : L.DeclaresNamedPairs)
    (e : ir_node_tag × ir_node_tag × Nat) (he : e ∈ L.vec_op_list) :
    has_err e.2.1 = has_err e.1 ∧ is_extract e.2.1 = is_extract e.1 ∧
      is_insert e.2.1 = is_insert e.1 := by
  have key := vec_entry_named L hwf hnamed e he
  simp only [named_vec_pairs, List.mem_cons, List.mem_singleton, forall_eq_or_imp, forall_eq,
    List.not_mem_nil, false_imp_iff, implies_true, and_true] at key
  obtain ⟨⟨k1, k1a, k1b⟩, ⟨k2, k2a, k2b⟩, ⟨k3, k3a, k3b⟩, ⟨k4, k4a, k4b⟩, ⟨k5, k5a, k5b⟩,
    ⟨k6, k6a, k6b⟩, ⟨k7, k7a, k7b⟩, ⟨k8, k8a, k8b⟩, -, -⟩ := key
  refine ⟨?_, ?_, ?_⟩
  · rw [has_err_eq, has_err_eq, Bool.eq_iff_iff]
    simp only [Bool.or_eq_true, beq_iff_eq]
    simp only [k1, k2, k3, k4, k5, k6, k1a, k1b, k2a, k2b, k3a, k3b, k4a, k4b, k5a, k5b, k6a,
      k6b, false_or, or_false]
  · unfold is_extract
    rw [Bool.eq_iff_iff]
    simp only [Bool.or_eq_true, beq_iff_eq]
    simp only [k7, k7a, k7b, false_or, or_false]
  · unfold is_insert
    rw [Bool.eq_iff_iff]
    simp only [Bool.or_eq_true, beq_iff_eq]
    simp only [k8, k8a, k8b, false_or, or_false]

theorem bind_to_val_eq_some (o : Option ir_node) (x : ir_node) :
    o.bind to_val = some x ↔ o = some x ∧ is_val x = true := by
  cases o with
  | none => simp
  | some y =>
    simp only [Option.some_bind, to_val, Option.some.injEq]
    by_cases hv : is_val y = true
    · simp only [hv, if_true, Option.some.injEq]
      constructor
      · intro h
        subst h
        exact ⟨rfl, hv⟩
      · exact fun h => h.1
    · simp only [hv, Bool.false_eq_true, if_false]
      constructor
      · intro h
        exact absurd h (by simp)
      · rintro ⟨h, hx⟩
        subst h
        exact absurd hx hv

/-- What each accessor reads, for every node: it returns `x` exactly when the tag is
accepted, the operand at the stated index is `x`, and `x` is a value. -/
theorem accessor_reads (L : NodeLists) (val x : ir_node) :
    (get_vec_op_mask L val = some x ↔
      is_vec_op L val.tag = true ∧ val.ops[0]? = some x ∧ is_val x = true) ∧
    (get_extract_or_insert_val L val = some x ↔
      is_extract_or_insert val.tag = true ∧
      val.ops[if is_vec_op L val.tag then 1 else 0]? = some x ∧ is_val x = true) ∧
    (get_extract_or_insert_index L val = some x ↔
      is_extract_or_insert val.tag = true ∧
      val.ops[if is_vec_op L val.tag then 2 else 1]? = some x ∧ is_val x = true) ∧
    (get_insert_elem L val = some x ↔
      is_insert val.tag = true ∧
      val.ops[if is_vec_op L val.tag then 3 else 2]? = some x ∧ is_val x = true) ∧
    (get_err L val = some x ↔
      has_err val.tag = true ∧
      val.ops[if is_vec_op L val.tag then 1 else 0]? = some x ∧ is_val x = true) ∧
    (get_mem L val = some x ↔
      has_mem val.tag = true ∧
      val.ops[if is_vec_op L val.tag then 1 else 0]? = some x ∧ is_val x = true) ∧
    (get_left_operand L val = some x ↔
      (is_arith_op L val.tag || is_cmp_op L val.tag || is_bit_op L val.tag) = true ∧
      val.ops[(if has_err val.tag then 1 else 0) +
        (if is_vec_op L val.tag then 1 else 0)]? = some x ∧ is_val x = true) ∧
    (get_right_operand L val = some x ↔
      (is_arith_op L val.tag || is_cmp_op L val.tag || is_bit_op L val.tag) = true ∧
      val.ops[(if has_err val.tag then 1 else 0) +
        (if is_vec_op L val.tag then 1 else 0) + 1]? = some x ∧ is_val x = true) := by
  refine ⟨?_, ?_, ?_, ?_, ?_, ?_, ?_, ?_⟩
  · unfold get_vec_op_mask vec_op_mask_slot
    by_cases h : is_vec_op L val.tag = true
    · simp only [h, if_true, true_and]
      exact bind_to_val_eq_some _ _
    · simp [h]
  · unfold get_extract_or_insert_val extract_or_insert_val_slot
    by_cases h : is_extract_or_insert val.tag = true
    · simp only [h, if_true, true_and]
      exact bind_to_val_eq_some _ _
    · simp [h]
  · unfold get_extract_or_insert_index extract_or_insert_index_slot
    by_cases h : is_extract_or_insert val.tag = true
    · simp only [h, if_true, true_and]
      exact bind_to_val_eq_some _ _
    · simp [h]
  · unfold get_insert_elem insert_elem_slot
    by_cases h : is_insert val.tag = true
    · simp only [h, if_true, true_and]
      exact bind_to_val_eq_some _ _
    · simp [h]
  · unfold get_err err_slot
    by_cases h : has_err val.tag = true
    · simp only [h, if_true, true_and]
      exact bind_to_val_eq_some _ _
    · simp [h]
  · unfold get_mem mem_slot
    by_cases h : has_mem val.tag = true
    · simp only [h, if_true, true_and]
      exact bind_to_val_eq_some _ _
    · simp [h]
  · unfold get_left_operand left_operand_slot
    by_cases h : (is_arith_op L val.tag || is_cmp_op L val.tag || is_bit_op L val.tag) = true
    · simp only [h, if_true, true_and]
      exact bind_to_val_eq_some _ _
    · simp only [h, Bool.false_eq_true, if_false, false_and]
      simp
  · unfold get_right_operand right_operand_slot
    by_cases h : (is_arith_op L val.tag || is_cmp_op L val.tag || is_bit_op L val.tag) = true
    · simp only [h, if_true, true_and]
      have hidx : (if has_err val.tag = true then 1 else 0) +
          (if is_vec_op L val.tag = true then 2 else 1) =
          (if has_err val.tag = true then 1 else 0) +
            (if is_vec_op L val.tag = true then 1 else 0) + 1 := by
        split <;> split <;> rfl
      rw [hidx]
      exact bind_to_val_eq_some _ _
    · simp only [h, Bool.false_eq_true, if_false, false_and]
      simp

/-- C17: operand indices of the tag-gated accessors.  For every node, each accessor
returns `x` exactly when the tag is accepted, `x` is a value, and `x` is the operand at
this index: 0 for `get_vec_op_mask`; `[is_vec_op]` for `get_extract_or_insert_val`,
`get_err` and `get_mem`; `1 + [is_vec_op]` for `get_extract_or_insert_index`;
`2 + [is_vec_op]` for `get_insert_elem`; `[has_err] + [is_vec_op]` for
`get_left_operand` and that index plus one for `get_right_operand`.  For well-formed
lists that declare the pairs named in `node.c`, and every entry (scalar tag, vector
tag) of `IR_VEC_OP_LIST`: the vector tag is a vector operation and the scalar tag is
not, `has_err`, `is_extract_or_insert` and `is_insert` accept both or neither, each of
the seven accessors reads on the vector tag the index one greater than on the scalar
tag, and on a vector node whose operands are a mask followed by the operands of a
scalar node `get_vec_op_mask` returns the mask and every accessor returns what it
returns on the scalar node (for `get_mem`, `get_left_operand` and `get_right_operand`:
when the accessor accepts both tags or neither).  On a tag with `has_err`, replacing
operand 0 or the operand read by `get_err` changes neither the result of
`get_left_operand` nor that of `get_right_operand`: they never read those slots. -/
theorem accessor_operand_indices (L : NodeLists) (hwf : L.WellFormed)
    (hnamed : L.DeclaresNamedPairs) :
    (∀ val x : ir_node,
      (get_vec_op_mask L val = some x ↔
        is_vec_op L val.tag = true ∧ val.ops[0]? = some x ∧ is_val x = true) ∧
      (get_extract_or_insert_val L val = some x ↔
        is_extract_or_insert val.tag = true ∧
        val.ops[if is_vec_op L val.tag then 1 else 0]? = some x ∧ is_val x = true) ∧
      (get_extract_or_insert_index L val = some x ↔
        is_extract_or_insert val.tag = true ∧
        val.ops[if is_vec_op L val.tag then 2 else 1]? = some x ∧ is_val x = true) ∧
      (get_insert_elem L val = some x ↔
        is_insert val.tag = true ∧
        val.ops[if is_vec_op L val.tag then 3 else 2]? = some x ∧ is_val x = true) ∧
      (get_err L val = some x ↔
        has_err val.tag = true ∧
        val.ops[if is_vec_op L val.tag then 1 else 0]? = some x ∧ is_val x = true) ∧
      (get_mem L val = some x ↔
        has_mem val.tag = true ∧
        val.ops[if is_vec_op L val.tag then 1 else 0]? = some x ∧ is_val x = true) ∧
      (get_left_operand L val = some x ↔
        (is_arith_op L val.tag || is_cmp_op L val.tag || is_bit_op L val.tag) = true ∧
        val.ops[(if has_err val.tag then 1 else 0) +
          (if is_vec_op L val.tag then 1 else 0)]? = some x ∧ is_val x = true) ∧
      (get_right_operand L val = some x ↔
        (is_arith_op L val.tag || is_cmp_op L val.tag || is_bit_op L val.tag) = true ∧
        val.ops[(if has_err val.tag then 1 else 0) +
          (if is_vec_op L val.tag then 1 else 0) + 1]? = some x ∧ is_val x = true)) ∧
    (∀ e ∈ L.vec_op_list,
      is_vec_op L e.2.1 = true ∧ is_vec_op L e.1 = false ∧
      has_err e.2.1 = has_err e.1 ∧
      is_extract_or_insert e.2.1 = is_extract_or_insert e.1 ∧
      is_insert e.2.1 = is_insert e.1 ∧
      (∀ (type : Option ir_node) (ops : List ir_node) (x : ir_node),
        (get_extract_or_insert_val L (.mk e.2.1 type ops) = some x ↔
          is_extract_or_insert e.1 = true ∧ ops[1]? = some x ∧ is_val x = true) ∧
        (get_extract_or_insert_val L (.mk e.1 type ops) = some x ↔
          is_extract_or_insert e.1 = true ∧ ops[0]? = some x ∧ is_val x = true) ∧
        (get_extract_or_insert_index L (.mk e.2.1 type ops) = some x ↔
          is_extract_or_insert e.1 = true ∧ ops[2]? = some x ∧ is_val x = true) ∧
        (get_extract_or_insert_index L (.mk e.1 type ops) = some x ↔
          is_extract_or_insert e.1 = true ∧ ops[1]? = some x ∧ is_val x = true) ∧
        (get_insert_elem L (.mk e.2.1 type ops) = some x ↔
          is_insert e.1 = true ∧ ops[3]? = some x ∧ is_val x = true) ∧
        (get_insert_elem L (.mk e.1 type ops) = some x ↔
          is_insert e.1 = true ∧ ops[2]? = some x ∧ is_val x = true) ∧
        (get_err L (.mk e.2.1 type ops) = some x ↔
          has_err e.1 = true ∧ ops[1]? = some x ∧ is_val x = true) ∧
        (get_err L (.mk e.1 type ops) = some x ↔
          has_err e.1 = true ∧ ops[0]? = some x ∧ is_val x = true) ∧
        (get_mem L (.mk e.2.1 type ops) = some x ↔
          has_mem e.2.1 = true ∧ ops[1]? = some x ∧ is_val x = true) ∧
        (get_mem L (.mk e.1 type ops) = some x ↔
          has_mem e.1 = true ∧ ops[0]? = some x ∧ is_val x = true) ∧
        (get_left_operand L (.mk e.2.1 type ops) = some x ↔
          (is_arith_op L e.2.1 || is_cmp_op L e.2.1 || is_bit_op L e.2.1) = true ∧
          ops[(if has_err e.1 then 1 else 0) + 1]? = some x ∧ is_val x = true) ∧
        (get_left_operand L (.mk e.1 type ops) = some x ↔
          (is_arith_op L e.1 || is_cmp_op L e.1 || is_bit_op L e.1) = true ∧
          ops[if has_err e.1 then 1 else 0]? = some x ∧ is_val x = true) ∧
        (get_right_operand L (.mk e.2.1 type ops) = some x ↔
          (is_arith_op L e.2.1 || is_cmp_op L e.2.1 || is_bit_op L e.2.1) = true ∧
          ops[(if has_err e.1 then 1 else 0) + 1 + 1]? = some x ∧ is_val x = true) ∧
        (get_right_operand L (.mk e.1 type ops) = some x ↔
          (is_arith_op L e.1 || is_cmp_op L e.1 || is_bit_op L e.1) = true ∧
          ops[(if has_err e.1 then 1 else 0) + 1]? = some x ∧ is_val x = true)) ∧
      (∀ (type : Option ir_node) (mask : ir_node) (ops : List ir_node),
        get_vec_op_mask L (.mk e.2.1 type (mask :: ops)) = to_val mask ∧
        get_extract_or_insert_val L (.mk e.2.1 type (mask :: ops)) =
          get_extract_or_insert_val L (.mk e.1 type ops) ∧
        get_extract_or_insert_index L (.mk e.2.1 type (mask :: ops)) =
          get_extract_or_insert_index L (.mk e.1 type ops) ∧
        get_insert_elem L (.mk e.2.1 type (mask :: ops)) =
          get_insert_elem L (.mk e.1 type ops) ∧
        get_err L (.mk e.2.1 type (mask :: ops)) = get_err L (.mk e.1 type ops) ∧
        (has_mem e.2.1 = has_mem e.1 →
          get_mem L (.mk e.2.1 type (mask :: ops)) = get_mem L (.mk e.1 type ops)) ∧
        ((is_arith_op L e.2.1 || is_cmp_op L e.2.1 || is_bit_op L e.2.1) =
            (is_arith_op L e.1 || is_cmp_op L e.1 || is_bit_op L e.1) →
          get_left_operand L (.mk e.2.1 type (mask :: ops)) =
            get_left_operand L (.mk e.1 type ops) ∧
          get_right_operand L (.mk e.2.1 type (mask :: ops)) =
            get_right_operand L (.mk e.1 type ops)))) ∧
    (∀ t : ir_node_tag, has_err t = true →
      ∀ (type : Option ir_node) (ops : List ir_node) (y : ir_node),
        get_left_operand L (.mk t type (ops.set 0 y)) = get_left_operand L (.mk t type ops) ∧
        get_left_operand L (.mk t type (ops.set (if is_vec_op L t then 1 else 0) y)) =
          get_left_operand L (.mk t type ops) ∧
        get_right_operand L (.mk t type (ops.set 0 y)) =
          get_right_operand L (.mk t type ops) ∧
        get_right_operand L (.mk t type (ops.set (if is_vec_op L t then 1 else 0) y)) =
          get_right_operand L (.mk t type ops)) := by
  refine ⟨fun val x => accessor_reads L val x, ?_, ?_⟩
  · intro e he
    obtain ⟨-, -, hv, hs, -⟩ := vec_entry_tags L hwf e he
    obtain ⟨herr, hex, hins⟩ := vec_entry_accept L hwf hnamed e he
    have hexi : is_extract_or_insert e.2.1 = is_extract_or_insert e.1 := by
      simp only [is_extract_or_insert, hex, hins]
    refine ⟨hv, hs, herr, hexi, hins, ?_, ?_⟩
    · intro type ops x
      have rv := accessor_reads L (.mk e.2.1 type ops) x
      have rs := accessor_reads L (.mk e.1 type ops) x
      simp only [ir_node.tag, ir_node.ops, hv, hs, herr, hexi, hins, if_true,
        Bool.false_eq_true, if_false, Nat.add_zero] at rv rs
      obtain ⟨-, v1, v2, v3, v4, v5, v6, v7⟩ := rv
      obtain ⟨-, s1, s2, s3, s4, s5, s6, s7⟩ := rs
      exact ⟨v1, s1, v2, s2, v3, s3, v4, s4, v5, s5, v6, s6, v7, s7⟩
    · intro type mask ops
      refine ⟨?_, ?_, ?_, ?_, ?_, ?_, ?_⟩
      · simp [get_vec_op_mask, ir_node.tag, ir_node.ops, hv, vec_op_mask_slot]
      · simp [get_extract_or_insert_val, extract_or_insert_val_slot, ir_node.tag, ir_node.ops,
          hexi, hv, hs]
      · simp [get_extract_or_insert_index, extract_or_insert_index_slot, ir_node.tag,
          ir_node.ops, hexi, hv, hs]
      · simp [get_insert_elem, insert_elem_slot, ir_node.tag, ir_node.ops, hins, hv, hs]
      · simp [get_err, err_slot, ir_node.tag, ir_node.ops, herr, hv, hs]
      · intro hmem
        simp [get_mem, mem_slot, ir_node.tag, ir_node.ops, hmem, hv, hs]
      · intro hacc
        constructor
        · simp only [get_left_operand, left_operand_slot, ir_node.tag, ir_node.ops, hacc, hv,
            hs, herr, if_true, Bool.false_eq_true, if_false, Nat.add_zero,
            List.getElem?_cons_succ]
        · simp only [get_right_operand, right_operand_slot, ir_node.tag, ir_node.ops, hacc, hv,
            hs, herr, if_true, Bool.false_eq_true, if_false]
          rw [show (if has_err e.1 = true then 1 else 0) + 2 =
            ((if has_err e.1 = true then 1 else 0) + 1) + 1 from rfl, List.getElem?_cons_succ]
  · intro t herr type ops y
    by_cases hv : is_vec_op L t = true
    · simp [get_left_operand, get_right_operand, left_operand_slot, right_operand_slot,
        ir_node.tag, ir_node.ops, herr, hv, List.getElem?_set_ne]
    · simp [get_left_operand, get_right_operand, left_operand_slot, right_operand_slot,
        ir_node.tag, ir_node.ops, herr, hv, List.getElem?_set_ne]

/-- Witness for C17 on the sample lists: on the vector node `vudiv(mask, err, a, b)` the
accessors return the mask, `err`, `a` and `b`, and on the scalar node
`udiv(err, a, b)` they return `err`, `a` and `b`. -/
theorem accessor_operand_indices_witness :
    sampleNodeLists.WellFormed ∧ sampleNodeLists.DeclaresNamedPairs ∧
    get_vec_op_mask sampleNodeLists sampleVudiv = some sampleMask ∧
    get_err sampleNodeLists sampleVudiv = some sampleErr ∧
    get_left_operand sampleNodeLists sampleVudiv = some sampleLeft ∧
    get_right_operand sampleNodeLists sampleVudiv = some sampleRight ∧
    get_err sampleNodeLists sampleUdiv = some sampleErr ∧
    get_left_operand sampleNodeLists sampleUdiv = some sampleLeft ∧
    get_right_operand sampleNodeLists sampleUdiv = some sampleRight :=
  ⟨sampleNodeLists_wf, sampleNodeLists_named,
    ((accessor_operand_indices sampleNodeLists sampleNodeLists_wf sampleNodeLists_named).1
      sampleVudiv sampleMask).1.2 ⟨by decide, rfl, by decide⟩,
    ((accessor_operand_indices sampleNodeLists sampleNodeLists_wf sampleNodeLists_named).1
      sampleVudiv sampleErr).2.2.2.2.1.2 ⟨by decide, rfl, by decide⟩,
    ((accessor_operand_indices sampleNodeLists sampleNodeLists_wf sampleNodeLists_named).1
      sampleVudiv sampleLeft).2.2.2.2.2.2.1.2 ⟨by decide, rfl, by decide⟩,
    ((accessor_operand_indices sampleNodeLists sampleNodeLists_wf sampleNodeLists_named).1
      sampleVudiv sampleRight).2.2.2.2.2.2.2.2 ⟨by decide, rfl, by decide⟩,
    ((accessor_operand_indices sampleNodeLists sampleNodeLists_wf sampleNodeLists_named).1
      sampleUdiv sampleErr).2.2.2.2.1.2 ⟨by decide, rfl, by decide⟩,
    ((accessor_operand_indices sampleNodeLists sampleNodeLists_wf sampleNodeLists_named).1
      sampleUdiv sampleLeft).2.2.2.2.2.2.1.2 ⟨by decide, rfl, by decide⟩,
    ((accessor_operand_indices sampleNodeLists sampleNodeLists_wf sampleNodeLists_named).1
      sampleUdiv sampleRight).2.2.2.2.2.2.2.2 ⟨by decide, rfl, by decide⟩⟩

/-! ## Theorems: type identifiers and derived flags -/

theorem get_or_insert_type_step (H : HashFns) (tt tt1 : TypeTable) (type : LType) (p : Nat)
    (h : get_or_insert_type H tt type = some (p, tt1)) :
    (tt1 = tt ∧ p < tt.mem_pool.length) ∨
    (p = tt.mem_pool.length ∧ tt1.str_pool = tt.str_pool ∧
      tt1.mem_pool = tt.mem_pool ++ [{ type with id := tt.type_count }] ∧
      tt1.type_count = tt.type_count + 1) := by
  unfold get_or_insert_type at h
  cases hh : hash_type H tt H.hash_init type with
  | none => simp [hh] at h
  | some hash =>
    simp only [hh] at h
    cases hf : find_in_hash_table (compare_stored tt type) hash tt.types with
    | none => simp [hf] at h
    | some found =>
      simp only [hf] at h
      cases found with
      | some q =>
        simp only [Option.some.injEq, Prod.mk.injEq] at h
        obtain ⟨rfl, rfl⟩ := h
        left
        refine ⟨rfl, ?_⟩
        have hc := find_in_hash_table_some _ _ _ _ hf
        unfold compare_stored at hc
        by_contra hlt
        rw [List.getElem?_eq_none (by omega)] at hc
        simp at hc
      | none =>
        simp only [insert_in_hash_table] at h
        split at h
        · rename_i types heq
          split at heq
          · simp at heq
          · simp at heq
          · simp only [Option.some.injEq, Prod.mk.injEq, and_true] at heq
            simp only [Option.some.injEq, Prod.mk.injEq] at h
            obtain ⟨rfl, rfl⟩ := h
            right
            exact ⟨rfl, rfl, rfl, rfl⟩
        · simp at h

theorem type_call_step (H : HashFns) (tt tt1 : TypeTable) (c : TypeCall) (p : Nat)
    (h : c.run H tt = some (p, tt1)) :
    (tt1.mem_pool = tt.mem_pool ∧ tt1.type_count = tt.type_count ∧ p < tt.mem_pool.length) ∨
    (p = tt.mem_pool.length ∧ tt1.type_count = tt.type_count + 1 ∧
      ∃ t, tt1.mem_pool = tt.mem_pool ++ [t] ∧ t.id = tt.type_count ∧
        t.contains_unknown = false ∧ t.contains_error = false) := by
  have key : ∀ (tt0 : TypeTable) (type : LType), tt0.mem_pool = tt.mem_pool →
      tt0.type_count = tt.type_count → type.contains_unknown = false →
      type.contains_error = false → get_or_insert_type H tt0 type = some (p, tt1) →
      (tt1.mem_pool = tt.mem_pool ∧ tt1.type_count = tt.type_count ∧ p < tt.mem_pool.length) ∨
      (p = tt.mem_pool.length ∧ tt1.type_count = tt.type_count + 1 ∧
        ∃ t, tt1.mem_pool = tt.mem_pool ++ [t] ∧ t.id = tt.type_count ∧
          t.contains_unknown = false ∧ t.contains_error = false) := by
    intro tt0 type hm hc hu he hg
    rcases get_or_insert_type_step H tt0 tt1 type p hg with ⟨rfl, hlt⟩ | ⟨hp, -, hmem, hcount⟩
    · left
      rw [hm] at hlt
      exact ⟨hm, hc, hlt⟩
    · right
      rw [hm] at hp hmem
      rw [hc] at hcount hmem
      exact ⟨hp, hcount, _, hmem, rfl, hu, he⟩
  cases c with
  | prim_type tag =>
    simp only [TypeCall.run, make_prim_type] at h
    split at h
    · exact key tt _ rfl rfl rfl rfl h
    · simp at h
  | unknown_type =>
    simp only [TypeCall.run, make_unknown_type] at h
    exact key tt _ rfl rfl rfl rfl h
  | type_param name =>
    simp only [TypeCall.run, make_type_param] at h
    refine key _ _ ?_ ?_ ?_ ?_ h <;> rfl
  | tuple_type arg_types =>
    simp only [TypeCall.run, make_tuple_type] at h
    exact key tt _ rfl rfl rfl rfl h
  | fun_type dom_type codom_type =>
    simp only [TypeCall.run, make_fun_type] at h
    exact key tt _ rfl rfl rfl rfl h
  | array_type elem_type =>
    simp only [TypeCall.run, make_array_type] at h
    exact key tt _ rfl rfl rfl rfl h

theorem table_op_step (H : HashFns) (tt tt1 : TypeTable) (op : TableOp) (p : Nat)
    (h : op.run H tt = some (p, tt1)) :
    (tt1.mem_pool = tt.mem_pool ∧ tt1.type_count = tt.type_count ∧ p < tt.mem_pool.length) ∨
    (p = tt.mem_pool.length ∧ tt1.type_count = tt.type_count + 1 ∧
      ∃ t, tt1.mem_pool = tt.mem_pool ++ [t] ∧ t.id = tt.type_count) := by
  cases op with
  | call c =>
    rcases type_call_step H tt tt1 c p h with h1 | ⟨h1, h2, t, h3, h4, -, -⟩
    · exact Or.inl h1
    · exact Or.inr ⟨h1, h2, t, h3, h4⟩
  | struct_type name n =>
    simp only [TableOp.run, make_struct_type, make_struct_or_enum_type, Option.some.injEq,
      Prod.mk.injEq] at h
    obtain ⟨rfl, rfl⟩ := h
    exact Or.inr ⟨rfl, rfl, _, rfl, rfl⟩
  | enum_type name n =>
    simp only [TableOp.run, make_enum_type, make_struct_or_enum_type, Option.some.injEq,
      Prod.mk.injEq] at h
    obtain ⟨rfl, rfl⟩ := h
    exact Or.inr ⟨rfl, rfl, _, rfl, rfl⟩

theorem IdsOk.step (tt tt1 : TypeTable) (p : Nat) (hok : IdsOk tt)
    (h : (tt1.mem_pool = tt.mem_pool ∧ tt1.type_count = tt.type_count ∧
        p < tt.mem_pool.length) ∨
      (p = tt.mem_pool.length ∧ tt1.type_count = tt.type_count + 1 ∧
        ∃ t, tt1.mem_pool = tt.mem_pool ++ [t] ∧ t.id = tt.type_count)) : IdsOk tt1 := by
  obtain ⟨hlen, hid⟩ := hok
  rcases h with ⟨h1, h2, -⟩ | ⟨-, h2, t, h3, h4⟩
  · exact ⟨by rw [h1, h2, hlen], by rw [h1]; exact hid⟩
  · refine ⟨by rw [h3, h2, List.length_append, hlen]; rfl, ?_⟩
    intro i x hx
    rw [h3] at hx
    by_cases hi : i < tt.mem_pool.length
    · rw [List.getElem?_append_left hi] at hx
      exact hid i x hx
    · have hge : tt.mem_pool.length ≤ i := by omega
      rw [List.getElem?_append_right hge] at hx
      cases hk : i - tt.mem_pool.length with
      | zero =>
        rw [hk] at hx
        simp only [List.getElem?_cons_zero, Option.some.injEq] at hx
        subst hx
        rw [h4]
        omega
      | succ k =>
        rw [hk] at hx
        simp at hx

theorem new_type_table_ids : IdsOk new_type_table := by
  refine ⟨rfl, ?_⟩
  intro i t h
  simp [new_type_table] at h

theorem run_table_ops_ids (H : HashFns) (ops : List TableOp) :
    ∀ (tt tt1 : TypeTable) (ptrs : List Nat), IdsOk tt →
      run_table_ops H tt ops = some (ptrs, tt1) → IdsOk tt1 := by
  induction ops with
  | nil =>
    intro tt tt1 ptrs hok h
    simp only [run_table_ops, Option.some.injEq, Prod.mk.injEq] at h
    exact h.2 ▸ hok
  | cons op ops ih =>
    intro tt tt1 ptrs hok h
    simp only [run_table_ops] at h
    cases hr : op.run H tt with
    | none => simp [hr] at h
    | some r =>
      obtain ⟨p, tt2⟩ := r
      simp only [hr] at h
      cases hrest : run_table_ops H tt2 ops with
      | none => simp [hrest] at h
      | some r2 =>
        obtain ⟨ps, tt3⟩ := r2
        simp only [hrest, Option.some.injEq, Prod.mk.injEq] at h
        obtain ⟨-, rfl⟩ := h
        exact ih tt2 tt3 ps (IdsOk.step tt tt2 p hok (table_op_step H tt tt2 op p hr)) hrest

/-- C18: after every sequence of constructor calls on a new table that runs to
completion, the arena holds one object per id handed out, the object created `i`-th
(counting from zero) has id `i`, so ids are smaller than `type_count` and strictly
increasing in creation order; and one more call either returns an object that already
exists and leaves `type_count` and the arena unchanged, or appends one object whose id is
the old `type_count` (the number of types created before it) and increments
`type_count`. -/
theorem type_ids_count_creations (H : HashFns) (ops : List TableOp) (ptrs : List Nat)
    (tt : TypeTable) (hrun : run_table_ops H new_type_table ops = some (ptrs, tt)) :
    tt.mem_pool.length = tt.type_count ∧
    (∀ (i : Nat) (t : LType), tt.mem_pool[i]? = some t → t.id = i ∧ t.id < tt.type_count) ∧
    (∀ (i j : Nat) (ti tj : LType), i < j → tt.mem_pool[i]? = some ti →
        tt.mem_pool[j]? = some tj → ti.id < tj.id) ∧
    (∀ (op : TableOp) (p : Nat) (tt1 : TypeTable), op.run H tt = some (p, tt1) →
        (p < tt.mem_pool.length ∧ tt1.mem_pool = tt.mem_pool ∧
          tt1.type_count = tt.type_count) ∨
        (p = tt.mem_pool.length ∧ tt1.type_count = tt.type_count + 1 ∧
          ∃ t, tt1.mem_pool = tt.mem_pool ++ [t] ∧ tt1.mem_pool[p]? = some t ∧
            t.id = tt.type_count)) := by
  obtain ⟨hlen, hid⟩ := run_table_ops_ids H ops new_type_table tt ptrs new_type_table_ids hrun
  refine ⟨hlen, ?_, ?_, ?_⟩
  · intro i t ht
    have hlt : i < tt.mem_pool.length := by
      by_contra hge
      rw [List.getElem?_eq_none (by omega)] at ht
      simp at ht
    rw [hid i t ht]
    exact ⟨rfl, hlen ▸ hlt⟩
  · intro i j ti tj hij hi hj
    rw [hid i ti hi, hid j tj hj]
    exact hij
  · intro op p tt1 hop
    rcases table_op_step H tt tt1 op p hop with ⟨h1, h2, h3⟩ | ⟨h1, h2, t, h3, h4⟩
    · exact Or.inl ⟨h3, h1, h2⟩
    · refine Or.inr ⟨h1, h2, t, h3, ?_, h4⟩
      rw [h3, h1]
      simp

/-- Witness for C18: the sample sequence creates five types with ids 0 to 4; the two
repeated calls return the existing pointers 0 and 3. -/
theorem type_ids_count_creations_witness :
    run_table_ops fnvHash new_type_table sampleTableOps =
        some ([0, 1, 0, 2, 3, 3, 4], sampleTableResult) ∧
      sampleTableResult.mem_pool.map (fun t => t.id) = [0, 1, 2, 3, 4] ∧
      sampleTableResult.mem_pool.length = sampleTableResult.type_count ∧
      (∀ (i : Nat) (t : LType), sampleTableResult.mem_pool[i]? = some t →
        t.id = i ∧ t.id < sampleTableResult.type_count) :=
  ⟨by decide, by decide,
    (type_ids_count_creations fnvHash sampleTableOps [0, 1, 0, 2, 3, 3, 4] sampleTableResult
      (by decide)).1,
    (type_ids_count_creations fnvHash sampleTableOps [0, 1, 0, 2, 3, 3, 4] sampleTableResult
      (by decide)).2.1⟩

theorem run_table_ops_invariant (H : HashFns) (P : TypeTable → Prop) (ops : List TableOp)
    (hstep : ∀ op ∈ ops, ∀ (tt tt1 : TypeTable) (p : Nat), P tt →
      op.run H tt = some (p, tt1) → P tt1) :
    ∀ (tt tt1 : TypeTable) (ptrs : List Nat), P tt →
      run_table_ops H tt ops = some (ptrs, tt1) → P tt1 := by
  induction ops with
  | nil =>
    intro tt tt1 ptrs hP h
    simp only [run_table_ops, Option.some.injEq, Prod.mk.injEq] at h
    exact h.2 ▸ hP
  | cons op ops ih =>
    intro tt tt1 ptrs hP h
    simp only [run_table_ops] at h
    cases hr : op.run H tt with
    | none => simp [hr] at h
    | some r =>
      obtain ⟨p, tt2⟩ := r
      simp only [hr] at h
      cases hrest : run_table_ops H tt2 ops with
      | none => simp [hrest] at h
      | some r2 =>
        obtain ⟨ps, tt3⟩ := r2
        simp only [hrest, Option.some.injEq, Prod.mk.injEq] at h
        obtain ⟨-, rfl⟩ := h
        exact ih (fun o ho => hstep o (List.mem_cons_of_mem _ ho)) tt2 tt3 ps
          (hstep op (List.mem_cons_self _ _) tt tt2 p hP hr) hrest

theorem TypeCall.run_ok (H : HashFns) (tt tt1 : TypeTable) (c : TypeCall) (p : Nat)
    (hok : TableOk tt) (h : c.run H tt = some (p, tt1)) : TableOk tt1 := by
  cases c with
  | prim_type tag =>
    simp only [TypeCall.run, make_prim_type] at h
    split at h
    · exact get_or_insert_type_ok H _ _ _ _ hok h
    · simp at h
  | unknown_type =>
    simp only [TypeCall.run, make_unknown_type] at h
    exact get_or_insert_type_ok H tt tt1 _ p hok h
  | type_param name =>
    simp only [TypeCall.run, make_type_param] at h
    exact get_or_insert_type_ok H _ _ _ _ (by exact hok) h
  | tuple_type arg_types =>
    simp only [TypeCall.run, make_tuple_type] at h
    exact get_or_insert_type_ok H tt tt1 _ p hok h
  | fun_type dom_type codom_type =>
    simp only [TypeCall.run, make_fun_type] at h
    exact get_or_insert_type_ok H tt tt1 _ p hok h
  | array_type elem_type =>
    simp only [TypeCall.run, make_array_type] at h
    exact get_or_insert_type_ok H tt tt1 _ p hok h

theorem TypeCall.run_flags (H : HashFns) (tt tt1 : TypeTable) (c : TypeCall) (p : Nat)
    (hclear : FlagsClear tt) (h : c.run H tt = some (p, tt1)) :
    FlagsClear tt1 ∧
      ∀ t, tt1.mem_pool[p]? = some t → t.contains_unknown = false ∧ t.contains_error = false := by
  have hall : FlagsClear tt1 := by
    rcases type_call_step H tt tt1 c p h with ⟨h1, -, -⟩ | ⟨-, -, t, h3, -, h5, h6⟩
    · intro t ht
      rw [h1] at ht
      exact hclear t ht
    · intro x hx
      rw [h3] at hx
      rcases List.mem_append.1 hx with hx | hx
      · exact hclear x hx
      · rw [List.mem_singleton.1 hx]
        exact ⟨h5, h6⟩
  exact ⟨hall, fun t ht => hall t (List.getElem?_mem ht)⟩

/-- C19: in every table built from a new one by hash-consing constructor calls, no type
object has `contains_unknown` or `contains_error` set.  In particular
`make_unknown_type` returns, and the type it returns has the tag `UNKNOWN` and
`contains_unknown` false; and whatever hash-consing constructor is called next, the
type it returns has both flags false, whatever its children are. -/
theorem derived_flags_never_set (H : HashFns) (calls : List TypeCall) (ptrs : List Nat)
    (tt : TypeTable)
    (hrun : run_table_ops H new_type_table (calls.map TableOp.call) = some (ptrs, tt)) :
    (∀ t ∈ tt.mem_pool, t.contains_unknown = false ∧ t.contains_error = false) ∧
    (∃ p tt1 t, make_unknown_type H tt = some (p, tt1) ∧ tt1.mem_pool[p]? = some t ∧
      t.tag = .UNKNOWN ∧ t.contains_unknown = false) ∧
    (∀ (c : TypeCall) (p : Nat) (tt1 : TypeTable) (t : LType), c.run H tt = some (p, tt1) →
      tt1.mem_pool[p]? = some t → t.contains_unknown = false ∧ t.contains_error = false) := by
  have hclear : FlagsClear tt := by
    refine run_table_ops_invariant H FlagsClear _ ?_ new_type_table tt ptrs ?_ hrun
    · intro op hop t0 t1 p hP hr
      obtain ⟨c, -, rfl⟩ := List.mem_map.1 hop
      exact (TypeCall.run_flags H t0 t1 c p hP hr).1
    · intro t ht
      simp [new_type_table] at ht
  have hok : TableOk tt := by
    refine run_table_ops_invariant H TableOk _ ?_ new_type_table tt ptrs new_type_table_ok hrun
    intro op hop t0 t1 p hP hr
    obtain ⟨c, -, rfl⟩ := List.mem_map.1 hop
    exact TypeCall.run_ok H t0 t1 c p hP hr
  refine ⟨hclear, ?_, ?_⟩
  · obtain ⟨p, tt1, h⟩ := get_or_insert_type_total H tt { tag := .UNKNOWN } hok (by simp) _ rfl
    obtain ⟨t, ht, htag⟩ := get_or_insert_type_tag H tt tt1 _ p h
    exact ⟨p, tt1, t, h, ht, htag,
      ((TypeCall.run_flags H tt tt1 .unknown_type p hclear h).2 t ht).1⟩
  · intro c p tt1 t hc ht
    exact (TypeCall.run_flags H tt tt1 c p hclear hc).2 t ht

/-- Witness for C19: on a new table, `make_unknown_type` and then the tuple, function
and array types built from the unknown type all have `contains_unknown` false. -/
theorem derived_flags_never_set_witness :
    run_table_ops fnvHash new_type_table (sampleUnknownCalls.map TableOp.call) =
        some ([0, 1, 2, 3], sampleUnknownResult) ∧
      make_unknown_type fnvHash new_type_table =
        some (0, { types := [(235694922, 0)], str_pool := [],
                   mem_pool := [{ tag := .UNKNOWN, id := 0, contains_unknown := false }],
                   type_count := 1 }) ∧
      sampleUnknownResult.mem_pool.map (fun t => (t.tag, t.contains_unknown)) =
        [(.UNKNOWN, false), (.TUPLE, false), (.FUN, false), (.ARRAY, false)] ∧
      (∀ t ∈ sampleUnknownResult.mem_pool,
        t.contains_unknown = false ∧ t.contains_error = false) :=
  ⟨by decide, by decide, by decide,
    (derived_flags_never_set fnvHash sampleUnknownCalls [0, 1, 2, 3] sampleUnknownResult
      (by decide)).1⟩

/-! ## Theorems: literals against an expected type -/

/-- Integer literals are checked as the spec says: for an integer literal and an expected type `T`
whose tag is not `UNKNOWN`, if `T` is a primitive numeric type then `check_expr`
returns `T` and changes nothing but the type slot of the literal, which it sets to `T`;
otherwise it returns the error type that `make_error_type` gives, stores it in the slot
of the literal, and logs the one message "expected type T, but got integer or
floating-point literal", or no message when `T` contains an error. -/
theorem check_int_literal (H : HashFns) (is_subtype : TypeTable → Nat → Nat → Bool)
    (context : TypingContext) (addr T : Nat) (t : LType)
    (hok : TableOk context.type_table) (ht : deref_type context T = some t)
    (hunk : t.tag ≠ .UNKNOWN) :
    (is_int_or_float_type t.tag = true →
      check_expr H is_subtype context (.int_literal addr) T =
        some (T, set_type context addr T)) ∧
    (is_int_or_float_type t.tag = false →
      ∃ error_type type_table e,
        make_error_type H context.type_table = some (error_type, type_table) ∧
        type_table.mem_pool[error_type]? = some e ∧ e.tag = .ERROR ∧
        check_expr H is_subtype context (.int_literal addr) T =
          some (error_type,
            set_type
              ⟨if t.contains_error then context.log
                else ⟨context.log.error_count + 1, context.log.msgs ++
                  [.expected_but_got addr T "integer or floating-point literal"]⟩,
                type_table, context.node_types⟩
              addr error_type)) := by
  constructor
  · intro hnum
    rw [check_expr]
    simp [ht, hunk, expect_int_or_float_literal, hnum]
  · intro hnum
    obtain ⟨p, tt1, e, hmk, he, hetag⟩ := make_error_type_total H context.type_table hok
    refine ⟨p, tt1, e, hmk, he, hetag, ?_⟩
    rw [check_expr]
    by_cases herr : t.contains_error = true
    · simp [ht, hunk, expect_int_or_float_literal, hnum, fail_expect, herr, with_type_table, hmk,
        set_type]
    · simp [ht, hunk, expect_int_or_float_literal, hnum, fail_expect, herr, with_type_table, hmk,
        set_type, log_error]

/-- An instance of `check_int_literal`: in the context holding `F64` and `Bool`, the
integer literal at address 41 checked against `F64` (pointer 0) is given the type `F64`
and nothing is logged. -/
theorem check_int_literal_witness :
    TableOk f64BoolContext.type_table ∧
    deref_type f64BoolContext 0 = some { tag := .F64, id := 0 } ∧
    check_expr fnvHash sampleSubtype f64BoolContext (.int_literal 41) 0 =
      some (0, set_type f64BoolContext 41 0) := by
  have hok : TableOk f64BoolContext.type_table := by
    intro e he
    simp [f64BoolContext] at he
    rcases he with rfl | rfl <;> simp [f64BoolContext]
  exact ⟨hok, rfl,
    (check_int_literal fnvHash sampleSubtype f64BoolContext 41 0 { tag := .F64, id := 0 } hok
      rfl (by decide)).1 (by decide)⟩

/-- A float literal checked against the primitive numeric type `F64` in the sample
context is typed `F32`, not `F64`.  When `F32` is not a subtype of `F64` an error is
logged and the error type returned; when it is, the call returns `F32`. -/
theorem float_literal_checked_by_inference :
    (deref_type f64BoolContext 0).map (fun t => (t.tag, is_int_or_float_type t.tag)) =
      some (TypeTag.F64, true) ∧
    check_expr fnvHash sampleSubtype f64BoolContext (.float_literal 40) 0 =
      some (3, floatRejected) ∧
    check_expr fnvHash floatWidening f64BoolContext (.float_literal 40) 0 =
      some (2, floatWidened) ∧
    (floatWidened.type_table.mem_pool[2]?).map (fun t => t.tag) = some TypeTag.F32 ∧
    get_type floatWidened 40 = some 2 := by
  refine ⟨rfl, ?_, ?_, rfl, rfl⟩
  · simp [check_expr, infer_expr, expect_type, deref_type, f64BoolContext, floatRejected,
      emptyLog, get_or_insert_type, hash_type, fnvHash, TypeTag.code, find_in_hash_table,
      compare_stored, compare_types, insert_in_hash_table, make_prim_type, is_prim_type,
      set_type, AstNode.addr, sampleSubtype, log_error, with_type_table, make_error_type]
  · simp [check_expr, infer_expr, expect_type, deref_type, f64BoolContext, floatWidened,
      emptyLog, get_or_insert_type, hash_type, fnvHash, TypeTag.code, find_in_hash_table,
      compare_stored, compare_types, insert_in_hash_table, make_prim_type, is_prim_type,
      set_type, AstNode.addr, floatWidening]

/-- C20: `check_expr` has no case for float literals, so a float literal is not checked
like an integer literal.  For every expected type `T` that is a primitive numeric type
other than `F32`, `check_expr` on a float literal returns, but what it does is
`infer_expr` followed by `expect_type`: the literal is typed `F32`, its slot holds
`F32` and not `T`, the returned type is never `T`, and when `F32` is not a subtype of
`T` (and no error flag is set) the "expected at most" error is logged. -/
theorem float_literal_not_checked_as_literal (H : HashFns)
    (is_subtype : TypeTable → Nat → Nat → Bool) (context : TypingContext) (addr T : Nat)
    (t : LType) (hok : TableOk context.type_table) (ht : deref_type context T = some t)
    (hnum : is_int_or_float_type t.tag = true) (hf32 : t.tag ≠ .F32) :
    ∃ f32 type_table tf result context1,
      make_prim_type H context.type_table .F32 = some (f32, type_table) ∧
      type_table.mem_pool[f32]? = some tf ∧ tf.tag = .F32 ∧
      check_expr H is_subtype context (.float_literal addr) T =
        expect_type H is_subtype
          (set_type ⟨context.log, type_table, context.node_types⟩ addr f32) f32 T true addr ∧
      check_expr H is_subtype context (.float_literal addr) T = some (result, context1) ∧
      result ≠ T ∧ f32 ≠ T ∧ get_type context1 addr = some f32 ∧
      (is_subtype type_table f32 T = false → t.contains_error = false →
        tf.contains_error = false →
        context1.log = ⟨context.log.error_count + 1,
          context.log.msgs ++ [.expected_bound addr true T f32]⟩ ∧
        ∃ e, context1.type_table.mem_pool[result]? = some e ∧ e.tag = .ERROR) := by
  have hunk : t.tag ≠ .UNKNOWN := by
    intro h
    rw [h] at hnum
    exact Bool.noConfusion hnum
  have herrtag : t.tag ≠ .ERROR := by
    intro h
    rw [h] at hnum
    exact Bool.noConfusion hnum
  obtain ⟨f32, tt1, hg⟩ := get_or_insert_type_total H context.type_table { tag := .F32 } hok
    (by simp) _ rfl
  have hmk : make_prim_type H context.type_table .F32 = some (f32, tt1) := by
    simp [make_prim_type, is_prim_type, hg]
  obtain ⟨tf, htf, htftag⟩ := get_or_insert_type_tag H context.type_table tt1 _ f32 hg
  have hext := (get_or_insert_type_found H context.type_table tt1 _ f32 hg).1
  have hok1 : TableOk tt1 := get_or_insert_type_ok H context.type_table tt1 _ f32 hok hg
  have htT : tt1.mem_pool[T]? = some t := by
    obtain ⟨-, -, l, hl⟩ := hext
    rw [hl]
    exact getElem?_append_some _ _ _ _ ht
  have hneq : f32 ≠ T := by
    intro h
    rw [h, htT] at htf
    have := Option.some.inj htf
    rw [this] at hf32
    exact hf32 htftag
  have hcheck : check_expr H is_subtype context (.float_literal addr) T =
      expect_type H is_subtype
        (set_type ⟨context.log, tt1, context.node_types⟩ addr f32) f32 T true addr := by
    rw [check_expr]
    simp [ht, hunk, infer_expr, hmk, AstNode.addr]
  have hslot : get_type (set_type ⟨context.log, tt1, context.node_types⟩ addr f32) addr =
      some f32 := by
    simp [get_type, set_type, List.lookup]
  by_cases hsub : is_subtype tt1 f32 T = true
  · refine ⟨f32, tt1, tf, f32, _, hmk, htf, htftag, hcheck, ?_, hneq, hneq, hslot, ?_⟩
    · rw [hcheck]
      simp [expect_type, set_type, hsub]
    · intro h
      rw [h] at hsub
      exact absurd hsub (by simp)
  · have hsubf : is_subtype tt1 f32 T = false := by simpa using hsub
    by_cases hte : t.contains_error = true
    · refine ⟨f32, tt1, tf, f32, _, hmk, htf, htftag, hcheck, ?_, hneq, hneq, hslot, ?_⟩
      · rw [hcheck]
        simp [expect_type, set_type, hsubf, deref_type, htT, hte]
      · intro _ h
        rw [h] at hte
        exact absurd hte (by simp)
    · by_cases htfe : tf.contains_error = true
      · refine ⟨f32, tt1, tf, f32, _, hmk, htf, htftag, hcheck, ?_, hneq, hneq, hslot, ?_⟩
        · rw [hcheck]
          simp [expect_type, set_type, hsubf, deref_type, htT, hte, htf, htfe]
        · intro _ _ h
          rw [h] at htfe
          exact absurd htfe (by simp)
      · obtain ⟨p, tt2, e, hme, he, hetag⟩ := make_error_type_total H tt1 hok1
        have hext2 := (get_or_insert_type_found H tt1 tt2 _ p hme).1
        have htT2 : tt2.mem_pool[T]? = some t := by
          obtain ⟨-, -, l, hl⟩ := hext2
          rw [hl]
          exact getElem?_append_some _ _ _ _ htT
        have hpT : p ≠ T := by
          intro h
          rw [h, htT2] at he
          have := Option.some.inj he
          rw [this] at herrtag
          exact herrtag hetag
        refine ⟨f32, tt1, tf, p,
          ⟨⟨context.log.error_count + 1,
              context.log.msgs ++ [.expected_bound addr true T f32]⟩, tt2,
            (addr, f32) :: context.node_types⟩,
          hmk, htf, htftag, hcheck, ?_, hpT, hneq, ?_, ?_⟩
        · rw [hcheck]
          simp [expect_type, set_type, hsubf, deref_type, htT, hte, htf, htfe, log_error,
            with_type_table, hme]
        · simp [get_type, List.lookup]
        · intro _ _ _
          exact ⟨rfl, e, he, hetag⟩

/-- Witness for C20: in the context holding `F64` (pointer 0) and `Bool`, the float
literal at address 40 checked against `F64` is typed `F32` (pointer 2), one "expected
at most" error is logged and the error type (pointer 3) is returned, not `F64`. -/
theorem float_literal_not_checked_as_literal_witness :
    TableOk f64BoolContext.type_table ∧
    deref_type f64BoolContext 0 = some { tag := .F64, id := 0 } ∧
    check_expr fnvHash sampleSubtype f64BoolContext (.float_literal 40) 0 =
      some (3, floatRejected) ∧
    floatRejected.log = ⟨1, [.expected_bound 40 true 0 2]⟩ ∧
    get_type floatRejected 40 = some 2 ∧
    (∃ f32 type_table tf result context1,
      make_prim_type fnvHash f64BoolContext.type_table .F32 = some (f32, type_table) ∧
      type_table.mem_pool[f32]? = some tf ∧ tf.tag = .F32 ∧
      check_expr fnvHash sampleSubtype f64BoolContext (.float_literal 40) 0 =
        expect_type fnvHash sampleSubtype
          (set_type ⟨f64BoolContext.log, type_table, f64BoolContext.node_types⟩ 40 f32)
          f32 0 true 40 ∧
      check_expr fnvHash sampleSubtype f64BoolContext (.float_literal 40) 0 =
        some (result, context1) ∧
      result ≠ 0 ∧ f32 ≠ 0 ∧ get_type context1 40 = some f32 ∧
      (sampleSubtype type_table f32 0 = false →
        ({ tag := .F64, id := 0 } : LType).contains_error = false →
        tf.contains_error = false →
        context1.log = ⟨f64BoolContext.log.error_count + 1,
          f64BoolContext.log.msgs ++ [.expected_bound 40 true 0 f32]⟩ ∧
        ∃ e, context1.type_table.mem_pool[result]? = some e ∧ e.tag = .ERROR)) := by
  have hok : TableOk f64BoolContext.type_table := by
    intro e he
    simp [f64BoolContext] at he
    rcases he with rfl | rfl <;> simp [f64BoolContext]
  exact ⟨hok, rfl, float_literal_checked_by_inference.2.1, rfl, rfl,
    float_literal_not_checked_as_literal fnvHash sampleSubtype f64BoolContext 40 0
      { tag := .F64, id := 0 } hok rfl (by decide) (by decide)⟩

/-! ## Theorems: the mismatch-reporting helper -/

/-- C21: `expect_type` requires `is_subtype(type, expected_type)` for an upper bound and
`is_subtype(expected_type, type)` otherwise.  When the required relation holds it
returns `type` and leaves the state unchanged; when it fails and neither type contains
an error it logs the one message "expected at most/at least type ..., but got type
..." (the wording chosen by `is_upper_bound`) and returns the error type that
`make_error_type` gives. -/
theorem expect_type_directionality (H : HashFns) (is_subtype : TypeTable → Nat → Nat → Bool)
    (context : TypingContext) (type expected_type file_loc : Nat) (t et : LType)
    (hok : TableOk context.type_table) (ht : deref_type context type = some t)
    (het : deref_type context expected_type = some et) :
    (is_subtype context.type_table type expected_type = true →
      expect_type H is_subtype context type expected_type true file_loc =
        some (type, context)) ∧
    (is_subtype context.type_table expected_type type = true →
      expect_type H is_subtype context type expected_type false file_loc =
        some (type, context)) ∧
    (et.contains_error = false → t.contains_error = false →
      ∃ error_type type_table e,
        make_error_type H context.type_table = some (error_type, type_table) ∧
        type_table.mem_pool[error_type]? = some e ∧ e.tag = .ERROR ∧
        (is_subtype context.type_table type expected_type = false →
          expect_type H is_subtype context type expected_type true file_loc =
            some (error_type,
              ⟨⟨context.log.error_count + 1, context.log.msgs ++
                  [.expected_bound file_loc true expected_type type]⟩,
                type_table, context.node_types⟩)) ∧
        (is_subtype context.type_table expected_type type = false →
          expect_type H is_subtype context type expected_type false file_loc =
            some (error_type,
              ⟨⟨context.log.error_count + 1, context.log.msgs ++
                  [.expected_bound file_loc false expected_type type]⟩,
                type_table, context.node_types⟩))) := by
  refine ⟨?_, ?_, ?_⟩
  · intro h
    simp [expect_type, h]
  · intro h
    simp [expect_type, h]
  · intro hee hte
    obtain ⟨p, tt1, e, hmk, he, hetag⟩ := make_error_type_total H context.type_table hok
    refine ⟨p, tt1, e, hmk, he, hetag, ?_, ?_⟩
    · intro h
      simp [expect_type, h, ht, het, hee, hte, log_error, with_type_table, hmk]
    · intro h
      simp [expect_type, h, ht, het, hee, hte, log_error, with_type_table, hmk]

/-- Witness for C21: in the context holding `F64` and `Bool`, `Bool` against the upper
bound `F64` logs one "at most" error and returns the error type (pointer 2), and
`F64` against itself is accepted. -/
theorem expect_type_directionality_witness :
    TableOk f64BoolContext.type_table ∧
    expect_type fnvHash sampleSubtype f64BoolContext 0 0 true 7 = some (0, f64BoolContext) ∧
    sampleSubtype f64BoolContext.type_table 1 0 = false ∧
    (∃ error_type type_table e,
      make_error_type fnvHash f64BoolContext.type_table = some (error_type, type_table) ∧
      type_table.mem_pool[error_type]? = some e ∧ e.tag = .ERROR ∧
      expect_type fnvHash sampleSubtype f64BoolContext 1 0 true 7 =
        some (error_type,
          ⟨⟨1, [.expected_bound 7 true 0 1]⟩, type_table, []⟩)) := by
  have hok : TableOk f64BoolContext.type_table := by
    intro e he
    simp [f64BoolContext] at he
    rcases he with rfl | rfl <;> simp [f64BoolContext]
  have hnot : sampleSubtype f64BoolContext.type_table 1 0 = false := by decide
  obtain ⟨p, tt1, e, hmk, he, hetag, hup, -⟩ :=
    (expect_type_directionality fnvHash sampleSubtype f64BoolContext 1 0 7
      { tag := .BOOL, id := 1 } { tag := .F64, id := 0 } hok rfl rfl).2.2 rfl rfl
  exact ⟨hok,
    (expect_type_directionality fnvHash sampleSubtype f64BoolContext 0 0 7
      { tag := .F64, id := 0 } { tag := .F64, id := 0 } hok rfl rfl).1 (by decide),
    hnot, p, tt1, e, hmk, he, hetag, hup hnot⟩

/-- C22, amended: when `expect_type` detects a mismatch and the expected type or the
synthesized type contains an error, nothing is logged, the state is unchanged, and the
call returns the synthesized type `type` itself, not the error type. -/
theorem expect_type_suppressed (H : HashFns) (is_subtype : TypeTable → Nat → Nat → Bool)
    (context : TypingContext) (type expected_type file_loc : Nat) (is_upper_bound : Bool)
    (t et : LType) (ht : deref_type context type = some t)
    (het : deref_type context expected_type = some et)
    (hmis : (if is_upper_bound then is_subtype context.type_table type expected_type
      else is_subtype context.type_table expected_type type) = false)
    (hpoison : et.contains_error = true ∨ t.contains_error = true) :
    expect_type H is_subtype context type expected_type is_upper_bound file_loc =
      some (type, context) := by
  unfold expect_type
  simp only [hmis, Bool.false_eq_true, if_false, het, ht]
  by_cases hee : et.contains_error = true
  · simp [hee]
  · rcases hpoison with h | h
    · exact absurd h hee
    · simp [hee, h]

/-- Witness for C22 as amended: the error type against the expected type `I32` is a
suppressed mismatch that returns its first argument, here the error type. -/
theorem expect_type_suppressed_witness :
    sampleSubtype i32ErrorContext.type_table 1 0 = false ∧
    expect_type fnvHash sampleSubtype i32ErrorContext 1 0 true 7 = some (1, i32ErrorContext) :=
  ⟨by decide,
    expect_type_suppressed fnvHash sampleSubtype i32ErrorContext 1 0 7 true
      { tag := .ERROR, id := 1, contains_error := true } { tag := .I32, id := 0 } rfl rfl
      (by decide) (Or.inr rfl)⟩

/-- Counterexample to C22 as stated: the synthesized type `I32` (pointer 0) does not
match the expected error type (pointer 1), which is poisoned; nothing is logged, and
the call returns pointer 0, the type `I32`, which contains no error. -/
theorem suppressed_mismatch_returns_clean_type :
    sampleSubtype i32ErrorContext.type_table 0 1 = false ∧
    (deref_type i32ErrorContext 1).map (fun t => t.contains_error) = some true ∧
    expect_type fnvHash sampleSubtype i32ErrorContext 0 1 true 7 = some (0, i32ErrorContext) ∧
    (deref_type i32ErrorContext 0).map (fun t => (t.tag, t.contains_error)) =
      some (TypeTag.I32, false) := by
  refine ⟨by decide, rfl, ?_, rfl⟩
  simp [expect_type, sampleSubtype, i32ErrorContext, deref_type]

/-! ## Theorems: type slots and assertions of the checker -/

/-- C23: a tuple pattern or tuple expression whose arity differs from that of the
expected tuple type is checked to the error type, and the type slot of the node is left
as it was: the node does not gain the type that was returned. -/
theorem arity_mismatch_leaves_slot (H : HashFns) (is_subtype : TypeTable → Nat → Nat → Bool)
    (context : TypingContext) (addr : Nat) (args : List AstNode) (expected_type : Nat) (et : LType)
    (hok : TableOk context.type_table)
    (het : deref_type context expected_type = some et) (htag : et.tag = .TUPLE)
    (hne : et.arg_count ≠ get_ast_list_length args) :
    ∃ error_type context1 e,
      check_pattern H is_subtype context (.tuple_pattern addr args) expected_type =
        some (error_type, context1) ∧
      check_expr H is_subtype context (.tuple_expr addr args) expected_type =
        some (error_type, context1) ∧
      context1.type_table.mem_pool[error_type]? = some e ∧ e.tag = .ERROR ∧
      context1.node_types = context.node_types ∧
      get_type context1 addr = get_type context addr := by
  obtain ⟨p, tt1, t, hmk, ht, htt⟩ := make_error_type_total H context.type_table hok
  have hct : ∀ check_arg, check_tuple H is_subtype context addr args expected_type check_arg =
      some (p,
        { log := { error_count := context.log.error_count + 1
                   msgs := context.log.msgs ++
                     [.expected_tuple addr et.arg_count (get_ast_list_length args)] }
          type_table := tt1
          node_types := context.node_types }) := by
    intro check_arg
    rw [check_tuple]
    simp [het, htag, hne, log_error, with_type_table, hmk]
  refine ⟨p,
    { log := { error_count := context.log.error_count + 1
               msgs := context.log.msgs ++
                 [.expected_tuple addr et.arg_count (get_ast_list_length args)] }
      type_table := tt1
      node_types := context.node_types }, t, ?_, ?_, ht, htt, rfl, rfl⟩
  · rw [check_pattern]
    simp [het, htag, hct]
  · rw [check_expr]
    simp [het, htag, hct]

/-- Witness for C23: the pattern `(x, y, z)` (node 10) checked against `(I32, I32)`
returns the error type (pointer 2) and the slot of node 10 is still empty. -/
theorem arity_mismatch_leaves_slot_witness :
    TableOk i32PairContext.type_table ∧
    get_type i32PairContext 10 = none ∧
    (∃ error_type context1 e,
      check_pattern fnvHash sampleSubtype i32PairContext (.tuple_pattern 10 patternXYZ) 1 =
        some (error_type, context1) ∧
      check_expr fnvHash sampleSubtype i32PairContext (.tuple_expr 10 patternXYZ) 1 =
        some (error_type, context1) ∧
      context1.type_table.mem_pool[error_type]? = some e ∧ e.tag = .ERROR ∧
      context1.node_types = i32PairContext.node_types ∧
      get_type context1 10 = get_type i32PairContext 10) := by
  have hok : TableOk i32PairContext.type_table := by
    intro e he
    simp [i32PairContext] at he
    rcases he with rfl | rfl <;> simp [i32PairContext]
  exact ⟨hok, rfl,
    arity_mismatch_leaves_slot fnvHash sampleSubtype i32PairContext 10 patternXYZ 1
      { tag := .TUPLE, id := 1, arg_types := [0, 0] } hok rfl rfl (by decide)⟩

theorem infer_expr_tuple_asserts (H : HashFns) (is_subtype : TypeTable → Nat → Nat → Bool)
    (context : TypingContext) (addr : Nat) (args : List AstNode) :
    infer_expr H is_subtype context (.tuple_expr addr args) = none := by
  simp [infer_expr]

theorem check_expr_tuple_unknown_asserts (H : HashFns)
    (is_subtype : TypeTable → Nat → Nat → Bool) (context : TypingContext) (addr : Nat)
    (args : List AstNode) (unknown : Nat) (et : LType)
    (het : deref_type context unknown = some et) (hunk : et.tag = .UNKNOWN) :
    check_expr H is_subtype context (.tuple_expr addr args) unknown = none := by
  rw [check_expr]
  simp [het, hunk, infer_expr_tuple_asserts]

/-- C24: a variable or constant declaration whose initializer is a tuple expression,
checked with the unknown expectation, reaches the assertion "invalid expression" of
`infer_expr` (the model returns `none`) whenever its pattern is a name, bound or not,
or a tuple pattern whose length differs from that of the initializer. -/
theorem tuple_initializer_hits_assert (H : HashFns) (is_subtype : TypeTable → Nat → Nat → Bool)
    (context : TypingContext) (addr init_addr : Nat) (args : List AstNode) (unknown : Nat)
    (et : LType) (het : deref_type context unknown = some et) (hunk : et.tag = .UNKNOWN) :
    (∀ (pattern_addr : Nat) (decl_site : Option Nat),
      check_decl H is_subtype context
          (.var_decl addr (.path pattern_addr decl_site) (.tuple_expr init_addr args)) unknown
        = none ∧
      check_decl H is_subtype context
          (.const_decl addr (.path pattern_addr decl_site) (.tuple_expr init_addr args)) unknown
        = none) ∧
    (∀ (pattern_addr : Nat) (pattern_args : List AstNode),
      get_ast_list_length pattern_args ≠ get_ast_list_length args →
      check_decl H is_subtype context
          (.var_decl addr (.tuple_pattern pattern_addr pattern_args)
            (.tuple_expr init_addr args)) unknown = none ∧
      check_decl H is_subtype context
          (.const_decl addr (.tuple_pattern pattern_addr pattern_args)
            (.tuple_expr init_addr args)) unknown = none) := by
  have hx := check_expr_tuple_unknown_asserts H is_subtype context init_addr args unknown et
    het hunk
  have hpath : ∀ (pattern_addr : Nat) (decl_site : Option Nat),
      check_pattern_and_expr H is_subtype context (.path pattern_addr decl_site)
        (.tuple_expr init_addr args) unknown = none := by
    intro pattern_addr decl_site
    rw [check_pattern_and_expr]
    simp [het, hx]
  have htuple : ∀ (pattern_addr : Nat) (pattern_args : List AstNode),
      get_ast_list_length pattern_args ≠ get_ast_list_length args →
      check_pattern_and_expr H is_subtype context (.tuple_pattern pattern_addr pattern_args)
        (.tuple_expr init_addr args) unknown = none := by
    intro pattern_addr pattern_args hne
    rw [check_pattern_and_expr]
    simp [het, hx, hne]
  constructor
  · intro pattern_addr decl_site
    exact ⟨by simp [check_decl, check_const_or_var_decl, hpath],
      by simp [check_decl, check_const_or_var_decl, hpath]⟩
  · intro pattern_addr pattern_args hne
    exact ⟨by simp [check_decl, check_const_or_var_decl, htuple _ _ hne],
      by simp [check_decl, check_const_or_var_decl, htuple _ _ hne]⟩

/-- Witness for C24: `var x = (1, 2)` and `const (x, y) = (1, 2, 3)`, checked with the
unknown expectation, both reach the assertion. -/
theorem tuple_initializer_hits_assert_witness :
    deref_type unknownContext 0 = some { tag := .UNKNOWN, id := 0 } ∧
    check_decl fnvHash sampleSubtype unknownContext declXPair 0 = none ∧
    check_decl fnvHash sampleSubtype unknownContext declPairTriple 0 = none :=
  ⟨rfl,
    ((tuple_initializer_hits_assert fnvHash sampleSubtype unknownContext 1 3
      [.int_literal 4, .int_literal 5] 0 { tag := .UNKNOWN, id := 0 } rfl rfl).1 2 none).1,
    ((tuple_initializer_hits_assert fnvHash sampleSubtype unknownContext 1 3
      [.int_literal 4, .int_literal 5, .int_literal 8] 0 { tag := .UNKNOWN, id := 0 } rfl
      rfl).2 2 [.path 6 none, .path 7 none] (by decide)).2⟩

/-- C25, amended: whenever `check_pattern_and_expr` takes neither the elementwise branch
nor the typed-pattern branch, it checks the expression against the expected type and
then checks the pattern against the resulting type; when the expected type is the
unknown type, and only then in general, this is inferring the expression and checking
the pattern against the inferred type. -/
theorem co_check_fallback (H : HashFns) (is_subtype : TypeTable → Nat → Nat → Bool)
    (context : TypingContext) (pattern expr : AstNode) (expected_type : Nat) (et : LType)
    (het : deref_type context expected_type = some et)
    (hfall : takes_fallback pattern expr et = true) :
    check_pattern_and_expr H is_subtype context pattern expr expected_type =
      (match check_expr H is_subtype context expr expected_type with
        | none => none
        | some (type, context1) => check_pattern H is_subtype context1 pattern type) ∧
    (et.tag = .UNKNOWN →
      check_pattern_and_expr H is_subtype context pattern expr expected_type =
        infer_then_check_pattern H is_subtype context pattern expr) := by
  have h1 : check_pattern_and_expr H is_subtype context pattern expr expected_type =
      (match check_expr H is_subtype context expr expected_type with
        | none => none
        | some (type, context1) => check_pattern H is_subtype context1 pattern type) := by
    rw [check_pattern_and_expr]
    cases pattern with
    | typed_pattern a l t => simp [takes_fallback] at hfall
    | tuple_pattern a pargs =>
      cases expr with
      | tuple_expr b eargs =>
        simp only [takes_fallback, Bool.not_eq_true', Bool.and_eq_false_imp, Bool.and_eq_true,
          decide_eq_true_eq, decide_eq_false_iff_not] at hfall
        simp only [het]
        by_cases hu : et.tag = .UNKNOWN ∨ et.tag = .TUPLE
        · by_cases hlen : get_ast_list_length pargs = get_ast_list_length eargs
          · have h3 := hfall ⟨hu, hlen⟩
            simp [hu, hlen]
            intro h4
            exfalso
            apply h3
            rw [hlen]
            exact h4
          · simp [hu, hlen]
        · simp [hu]
      | _ => simp [het]
    | _ => simp [het]
  refine ⟨h1, ?_⟩
  intro hunk
  rw [h1, check_expr]
  simp [het, hunk, infer_then_check_pattern]

/-- Witness for C25 as amended: the unbound name `x` (node 50) with the initializer `1`
(node 41) against the expected type `F64` takes the fallback. -/
theorem co_check_fallback_witness :
    takes_fallback (.path 50 none) (.int_literal 41) { tag := .F64, id := 0 } = true ∧
    check_pattern_and_expr fnvHash sampleSubtype f64BoolContext (.path 50 none)
        (.int_literal 41) 0 =
      (match check_expr fnvHash sampleSubtype f64BoolContext (.int_literal 41) 0 with
        | none => none
        | some (type, context1) =>
          check_pattern fnvHash sampleSubtype context1 (.path 50 none) type) :=
  ⟨rfl,
    (co_check_fallback fnvHash sampleSubtype f64BoolContext (.path 50 none) (.int_literal 41) 0
      { tag := .F64, id := 0 } rfl rfl).1⟩

/-- Counterexample to C25 as stated: for the unbound name `x` with the initializer `1`
and the expected type `F64` (pointer 0), `check_pattern_and_expr` gives `x` and the
literal the type `F64`, whereas inferring the literal and checking the pattern against
the result gives both the type `I32` (pointer 2). -/
theorem fallback_uses_expected_type :
    takes_fallback (.path 50 none) (.int_literal 41) { tag := .F64, id := 0 } = true ∧
    (check_pattern_and_expr fnvHash sampleSubtype f64BoolContext (.path 50 none)
        (.int_literal 41) 0).map (fun r => (r.1, r.2.node_types)) =
      some (0, [(50, 0), (41, 0)]) ∧
    (infer_then_check_pattern fnvHash sampleSubtype f64BoolContext (.path 50 none)
        (.int_literal 41)).map (fun r => (r.1, r.2.node_types)) =
      some (2, [(50, 2), (41, 2)]) := by
  refine ⟨rfl, ?_, ?_⟩
  · simp [check_pattern_and_expr, check_expr, check_pattern, expect_int_or_float_literal,
      deref_type, f64BoolContext, is_int_or_float_type, set_type]
  · simp [infer_then_check_pattern, infer_expr, check_pattern, deref_type, f64BoolContext,
      emptyLog, get_or_insert_type, hash_type, fnvHash, TypeTag.code, find_in_hash_table,
      compare_stored, compare_types, insert_in_hash_table, make_prim_type, is_prim_type,
      set_type]

/-! ## Theorems: the comparator of the type table -/

theorem compare_arg_types_prefix (ext : List Nat) :
    ∀ l : List Nat, compare_arg_types l (l ++ ext) = some true ∧
      (ext ≠ [] → compare_arg_types (l ++ ext) l = none) := by
  intro l
  induction l with
  | nil =>
    refine ⟨rfl, ?_⟩
    intro hne
    cases ext with
    | nil => exact absurd rfl hne
    | cons a ext => rfl
  | cons a l ih =>
    refine ⟨by simp [compare_arg_types, ih.1], ?_⟩
    intro hne
    simp [compare_arg_types, ih.2 hne]

/-- C26: `compare_types` never compares the argument counts of two tuple types.  When
the argument array of `l` is a proper prefix of that of `r`, the two types have
different argument counts, yet `compare_types l r` returns true; and `compare_types r
l`, whose loop runs to the argument count of `r`, reads the array of `l` past its end
(the model returns `none`).  So it does not decide structural equality and it is not
symmetric. -/
theorem compare_types_ignores_arg_count (l r : LType) (ext : List Nat)
    (hl : l.tag = .TUPLE) (hr : r.tag = .TUPLE) (hext : r.arg_types = l.arg_types ++ ext)
    (hne : ext ≠ []) :
    l.arg_count ≠ r.arg_count ∧ compare_types l r = some true ∧ compare_types r l = none := by
  obtain ⟨h1, h2⟩ := compare_arg_types_prefix ext l.arg_types
  refine ⟨?_, ?_, ?_⟩
  · unfold LType.arg_count
    rw [hext, List.length_append]
    have : 0 < ext.length := List.length_pos.2 hne
    omega
  · unfold compare_types
    simp [hl, hr, hext, h1]
  · unfold compare_types
    simp [hl, hr, hext, h2 hne]

/-- Witness for C26: the 1-tuple `(T0)` and the 2-tuple `(T0, T0)` compare equal in
one order, and the other order reads past the end of the shorter array. -/
theorem compare_types_ignores_arg_count_witness :
    compare_types { tag := .TUPLE, arg_types := [0] } { tag := .TUPLE, arg_types := [0, 0] } =
      some true ∧
    compare_types { tag := .TUPLE, arg_types := [0, 0] } { tag := .TUPLE, arg_types := [0] } =
      none :=
  (compare_types_ignores_arg_count { tag := .TUPLE, arg_types := [0] }
    { tag := .TUPLE, arg_types := [0, 0] } [0] rfl rfl rfl (by decide)).2

/-! ## Theorems: sequences of allocations -/

theorem pool_grows_refl (p : MemPool) : PoolGrows p p :=
  ⟨Nat.le_refl _, fun _ b h => ⟨b, h, rfl, Nat.le_refl _⟩⟩

theorem pool_grows_trans {p q r : MemPool} (h1 : PoolGrows p q) (h2 : PoolGrows q r) :
    PoolGrows p r := by
  refine ⟨Nat.le_trans h1.1 h2.1, ?_⟩
  intro k b hb
  obtain ⟨b1, hb1, hc1, hs1⟩ := h1.2 k b hb
  obtain ⟨b2, hb2, hc2, hs2⟩ := h2.2 k b1 hb1
  exact ⟨b2, hb2, by rw [hc2, hc1], Nat.le_trans hs1 hs2⟩

/-- One allocation on a pool that satisfies the invariant, with what it leaves: the
block it used holds the returned region at its end. -/
theorem alloc_grows (A : Nat) (p : MemPool) (size : Nat) (hok : PoolOk p) :
    ∃ k off q, alloc_from_mem_pool A p size = some ((k, off), q) ∧ PoolOk q ∧
      PoolGrows p q ∧ k ≤ p.blocks.length ∧
      (∀ b, p.blocks[k]? = some b → b.size ≤ off) ∧
      ∃ b1, q.blocks[k]? = some b1 ∧ b1.size = off + align_to size A := by
  obtain ⟨k, off, q, hq, hqok, -, hcase⟩ := alloc_step A p size hok
  refine ⟨k, off, q, hq, hqok, ?_⟩
  rcases hcase with ⟨blk, hblk, hoff, hset⟩ | ⟨hoff, hk, happ⟩
  · have hkl : k < p.blocks.length := (List.getElem?_eq_some_iff.mp hblk).1
    refine ⟨⟨by rw [hset, List.length_set], ?_⟩, Nat.le_of_lt hkl, ?_, ?_⟩
    · intro j b hb
      rw [hset]
      by_cases hj : k = j
      · subst hj
        rw [hblk] at hb
        have hbe : blk = b := Option.some.inj hb
        subst hbe
        refine ⟨⟨blk.size + align_to size A, blk.capacity⟩,
          by rw [List.getElem?_set_self hkl], rfl, ?_⟩
        simp
      · exact ⟨b, by rw [List.getElem?_set_ne hj]; exact hb, rfl, Nat.le_refl _⟩
    · intro b hb
      rw [hblk] at hb
      rw [hoff, Option.some.inj hb]
    · rw [hset]
      exact ⟨⟨blk.size + align_to size A, blk.capacity⟩,
        by rw [List.getElem?_set_self hkl], by rw [hoff]⟩
  · refine ⟨⟨by rw [happ, List.length_append]; omega, ?_⟩, by omega, ?_, ?_⟩
    · intro j b hb
      have hjl : j < p.blocks.length := (List.getElem?_eq_some_iff.mp hb).1
      exact ⟨b, by rw [happ, List.getElem?_append_left hjl]; exact hb, rfl, Nat.le_refl _⟩
    · intro b hb
      have hkl : k < p.blocks.length := (List.getElem?_eq_some_iff.mp hb).1
      omega
    · rw [happ, hk]
      refine ⟨⟨align_to size A, max (align_to size A) MIN_MEM_BLOCK_CAPACITY⟩,
        by rw [List.getElem?_append_right (Nat.le_refl _)]; simp, ?_⟩
      rw [hoff]
      simp

/-- A run of allocations on a pool that satisfies the invariant: it returns, and every
region it hands out starts at or after the end of what its block held before and ends
within what the block holds afterwards; regions handed out earlier in the same block
end before the later ones start. -/
theorem alloc_all_placed (A : Nat) :
    ∀ (sizes : List Nat) (p : MemPool), PoolOk p →
      ∃ ptrs q, alloc_all A p sizes = some (ptrs, q) ∧ PoolOk q ∧ PoolGrows p q ∧
        ptrs.length = sizes.length ∧
        (∀ (i : Nat) (ptr : Nat × Nat) (size : Nat), ptrs[i]? = some ptr →
          sizes[i]? = some size →
          (∀ b, p.blocks[ptr.1]? = some b → b.size ≤ ptr.2) ∧
          ∃ b1, q.blocks[ptr.1]? = some b1 ∧ ptr.2 + align_to size A ≤ b1.size) ∧
        (∀ (i j : Nat) (pi pj : Nat × Nat) (si : Nat), i < j → ptrs[i]? = some pi →
          ptrs[j]? = some pj → sizes[i]? = some si → pi.1 = pj.1 →
          pi.2 + align_to si A ≤ pj.2) := by
  intro sizes
  induction sizes with
  | nil =>
    intro p hok
    refine ⟨[], p, rfl, hok, pool_grows_refl p, rfl, ?_, ?_⟩
    · intro i ptr size h
      simp at h
    · intro i j pi pj si _ h
      simp at h
  | cons s rest ih =>
    intro p hok
    obtain ⟨k, off, p1, hp1, hok1, hg1, -, hbefore, b1, hb1, hb1s⟩ := alloc_grows A p s hok
    obtain ⟨ptrs, q, hrun, hokq, hgq, hlen, hplaced, hpair⟩ := ih p1 hok1
    refine ⟨(k, off) :: ptrs, q, by simp [alloc_all, hp1, hrun], hokq, pool_grows_trans hg1 hgq,
      by simp [hlen], ?_, ?_⟩
    · intro i ptr size hi hsz
      cases i with
      | zero =>
        simp only [List.getElem?_cons_zero, Option.some.injEq] at hi hsz
        subst hi
        subst hsz
        refine ⟨hbefore, ?_⟩
        obtain ⟨b2, hb2, -, hs2⟩ := hgq.2 k b1 hb1
        exact ⟨b2, hb2, by rw [← hb1s]; exact hs2⟩
      | succ i =>
        simp only [List.getElem?_cons_succ] at hi hsz
        obtain ⟨h1, h2⟩ := hplaced i ptr size hi hsz
        refine ⟨?_, h2⟩
        intro b hb
        obtain ⟨b2, hb2, -, hs2⟩ := hg1.2 ptr.1 b hb
        exact Nat.le_trans hs2 (h1 b2 hb2)
    · intro i j pi pj si hij hi hj hsi hsame
      cases j with
      | zero => omega
      | succ j =>
        simp only [List.getElem?_cons_succ] at hj
        cases i with
        | zero =>
          simp only [List.getElem?_cons_zero, Option.some.injEq] at hi hsi
          subst hi
          subst hsi
          have hjl : j < rest.length := by
            rw [← hlen]
            exact (List.getElem?_eq_some_iff.mp hj).1
          obtain ⟨h1, -⟩ := hplaced j pj rest[j] hj (List.getElem?_eq_getElem hjl)
          have := h1 b1 (by rw [← hsame]; exact hb1)
          rw [hb1s] at this
          exact this
        | succ i =>
          simp only [List.getElem?_cons_succ] at hi hsi
          exact hpair i j pi pj si (by omega) hi hj hsi hsame

/-- C28: every sequence of allocations and resets on a new pool returns, and in the pool
it leaves every block behind the current block has `size == 0`; so the next
allocation, whatever its size, returns as well: the assertion on the next block holds
at each step of its search loop, and the loop stops at a block of the list or at the
block it appends. -/
theorem blocks_after_cur_are_reset (A : Nat) (ops : List PoolOp) :
    ∃ ptrs p, run_pool_ops A new_mem_pool ops = some (ptrs, p) ∧
      (∀ (c i : Nat) (x : MemBlock), p.cur = some c → c < i → p.blocks[i]? = some x →
        x.size = 0) ∧
      (∀ size, ∃ k off q, alloc_from_mem_pool A p size = some ((k, off), q) ∧
        k ≤ p.blocks.length) := by
  obtain ⟨ptrs, p, hrun, hok⟩ := run_pool_ops_ok A ops new_mem_pool new_mem_pool_ok
  refine ⟨ptrs, p, hrun, ?_, ?_⟩
  · intro c i x hc hi hx
    simp only [PoolOk, hc] at hok
    exact hok.2.2 i x hi hx
  · intro size
    obtain ⟨k, off, q, hq, -, -, hk, -⟩ := alloc_grows A p size hok
    exact ⟨k, off, q, hq, hk⟩

/-! ## Theorems: replaying a run after a reset -/

theorem alloc_first_fit (A : Nat) (p : MemPool) (c size k : Nat) (blk : MemBlock)
    (hok : PoolOk p) (hc : p.cur = some c) (hck : c ≤ k) (hk : p.blocks[k]? = some blk)
    (hroom : has_room (align_to size A) blk = true)
    (hfirst : ∀ i x, c ≤ i → i < k → p.blocks[i]? = some x →
      has_room (align_to size A) x = false) :
    alloc_from_mem_pool A p size =
      some ((k, blk.size),
        { blocks := p.blocks.set k ⟨blk.size + align_to size A, blk.capacity⟩
          cur := some k }) := by
  obtain ⟨h1, -⟩ := alloc_from_mem_pool_spec A p c size hok hc
  have hidx := findIdx_drop_first (has_room (align_to size A)) p.blocks c k blk hck hk hroom
    hfirst
  rw [hidx] at h1
  exact h1 blk hk

theorem alloc_no_fit (A : Nat) (p : MemPool) (c size : Nat)
    (hok : PoolOk p) (hc : p.cur = some c)
    (hnone : ∀ i x, c ≤ i → p.blocks[i]? = some x → has_room (align_to size A) x = false) :
    alloc_from_mem_pool A p size =
      some ((p.blocks.length, 0),
        { blocks := p.blocks ++
            [⟨align_to size A, max (align_to size A) MIN_MEM_BLOCK_CAPACITY⟩]
          cur := some p.blocks.length }) := by
  obtain ⟨-, h2⟩ := alloc_from_mem_pool_spec A p c size hok hc
  exact h2 (findIdx_drop_none (has_room (align_to size A)) p.blocks c hnone)

theorem alloc_all_grows (A : Nat) (sizes : List Nat) (p q : MemPool) (ptrs : List (Nat × Nat))
    (hok : PoolOk p) (hrun : alloc_all A p sizes = some (ptrs, q)) : PoolOk q ∧ PoolGrows p q := by
  obtain ⟨ptrs1, q1, hrun1, hokq, hg, -⟩ := alloc_all_placed A sizes p hok
  rw [hrun] at hrun1
  simp only [Option.some.injEq, Prod.mk.injEq] at hrun1
  obtain ⟨-, rfl⟩ := hrun1
  exact ⟨hokq, hg⟩

theorem alloc_all_cons (A : Nat) (p q : MemPool) (s : Nat) (rest : List Nat)
    (ptrs : List (Nat × Nat)) (ptr : Nat × Nat) (p1 : MemPool)
    (hstep : alloc_from_mem_pool A p s = some (ptr, p1))
    (hrun : alloc_all A p (s :: rest) = some (ptrs, q)) :
    ∃ ptrs1, ptrs = ptr :: ptrs1 ∧ alloc_all A p1 rest = some (ptrs1, q) := by
  simp only [alloc_all, hstep] at hrun
  cases hr : alloc_all A p1 rest with
  | none => simp [hr] at hrun
  | some r =>
    obtain ⟨ptrs1, q1⟩ := r
    simp only [hr, Option.map_some', Option.some.injEq, Prod.mk.injEq] at hrun
    obtain ⟨rfl, rfl⟩ := hrun
    exact ⟨ptrs1, rfl, rfl⟩

theorem replay_pool_ok (p q : MemPool) (c : Nat) (hok : PoolOk p) (hc : p.cur = some c)
    (hlast : c + 1 = p.blocks.length) : PoolOk (replay_pool p q) := by
  have hcap := hok.size_le_capacity
  simp only [PoolOk, replay_pool, hc]
  refine ⟨by rw [List.length_append]; omega, ?_, ?_⟩
  · intro x hx
    rcases List.mem_append.1 hx with hx | hx
    · exact hcap x hx
    · obtain ⟨y, -, rfl⟩ := List.mem_map.1 hx
      exact Nat.zero_le _
  · intro i x hi hx
    rw [List.getElem?_append_right (by omega)] at hx
    obtain ⟨y, -, rfl⟩ := List.mem_map.1 (List.getElem?_mem hx)
    rfl

/-- Replaying a run that started in a pool whose current block is its last block: in the
pool that already owns the blocks the run appended, reset, the same requests get the
same placements and leave the same pool. -/
theorem replay_from_last (A : Nat) :
    ∀ (sizes : List Nat) (p : MemPool) (c : Nat), PoolOk p → p.cur = some c →
      c + 1 = p.blocks.length →
      ∀ (ptrs : List (Nat × Nat)) (q : MemPool), alloc_all A p sizes = some (ptrs, q) →
        alloc_all A (replay_pool p q) sizes = some (ptrs, q) := by
  intro sizes
  induction sizes with
  | nil =>
    intro p c _ _ _ ptrs q hrun
    simp only [alloc_all, Option.some.injEq, Prod.mk.injEq] at hrun
    obtain ⟨rfl, rfl⟩ := hrun
    simp [alloc_all, replay_pool]
  | cons s rest ih =>
    intro p c hok hc hlast ptrs q hrun
    have hcl : c < p.blocks.length := by omega
    have hrok := replay_pool_ok p q c hok hc hlast
    have hrc : (replay_pool p q).cur = some c := hc
    have hblk : p.blocks[c]? = some p.blocks[c] := List.getElem?_eq_getElem hcl
    have hrblk : (replay_pool p q).blocks[c]? = some p.blocks[c] := by
      simp only [replay_pool]
      rw [List.getElem?_append_left hcl]
      exact hblk
    by_cases hroom : has_room (align_to s A) p.blocks[c] = true
    · have hstep := alloc_first_fit A p c s c p.blocks[c] hok hc (Nat.le_refl _) hblk hroom
        (fun i x h1 h2 => by omega)
      obtain ⟨ptrs1, hptrs, hrest⟩ := alloc_all_cons A p q s rest ptrs _ _ hstep hrun
      obtain ⟨k1, off1, q1, hq1, hok1, -⟩ := alloc_grows A p s hok
      rw [hstep] at hq1
      simp only [Option.some.injEq, Prod.mk.injEq] at hq1
      obtain ⟨-, rfl⟩ := hq1
      have hih := ih _ c hok1 rfl (by simp only [List.length_set]; exact hlast) ptrs1 q hrest
      have hrstep := alloc_first_fit A (replay_pool p q) c s c p.blocks[c] hrok hrc
        (Nat.le_refl _) hrblk hroom (fun i x h1 h2 => by omega)
      have hsame : (⟨(replay_pool p q).blocks.set c
            ⟨p.blocks[c].size + align_to s A, p.blocks[c].capacity⟩, some c⟩ : MemPool) =
          replay_pool ⟨p.blocks.set c ⟨p.blocks[c].size + align_to s A, p.blocks[c].capacity⟩,
            some c⟩ q := by
        simp only [replay_pool, List.length_set]
        rw [List.set_append_left _ _ hcl]
      rw [hsame] at hrstep
      rw [hptrs]
      simp [alloc_all, hrstep, hih]
    · have hroomf : has_room (align_to s A) p.blocks[c] = false := by
        simpa using hroom
      have hnone : ∀ i x, c ≤ i → p.blocks[i]? = some x →
          has_room (align_to s A) x = false := by
        intro i x hi hx
        have hil : i < p.blocks.length := (List.getElem?_eq_some_iff.mp hx).1
        have hic : i = c := by omega
        subst hic
        rw [hblk] at hx
        rw [← Option.some.inj hx]
        exact hroomf
      have hstep := alloc_no_fit A p c s hok hc hnone
      obtain ⟨ptrs1, hptrs, hrest⟩ := alloc_all_cons A p q s rest ptrs _ _ hstep hrun
      obtain ⟨k1, off1, q1, hq1, hok1, -⟩ := alloc_grows A p s hok
      rw [hstep] at hq1
      simp only [Option.some.injEq, Prod.mk.injEq] at hq1
      obtain ⟨-, rfl⟩ := hq1
      have hih := ih _ p.blocks.length hok1 rfl (by simp) ptrs1 q hrest
      obtain ⟨-, hg⟩ := alloc_all_grows A rest _ q ptrs1 hok1 hrest
      obtain ⟨b1, hb1, hb1c, -⟩ := hg.2 p.blocks.length
        ⟨align_to s A, max (align_to s A) MIN_MEM_BLOCK_CAPACITY⟩
        (by simp)
      have hb1l : p.blocks.length < q.blocks.length := (List.getElem?_eq_some_iff.mp hb1).1
      have hdrop : q.blocks.drop p.blocks.length =
          b1 :: q.blocks.drop (p.blocks.length + 1) := by
        rw [List.drop_eq_getElem_cons hb1l]
        rw [List.getElem?_eq_getElem hb1l] at hb1
        rw [Option.some.inj hb1]
      have hnew : (replay_pool p q).blocks[p.blocks.length]? =
          some ⟨0, max (align_to s A) MIN_MEM_BLOCK_CAPACITY⟩ := by
        simp only [replay_pool]
        rw [List.getElem?_append_right (Nat.le_refl _), hdrop]
        simp [hb1c]
      have hnroom : has_room (align_to s A)
          ⟨0, max (align_to s A) MIN_MEM_BLOCK_CAPACITY⟩ = true := by
        simp [has_room]
      have hrstep := alloc_first_fit A (replay_pool p q) c s p.blocks.length
        ⟨0, max (align_to s A) MIN_MEM_BLOCK_CAPACITY⟩ hrok hrc (by omega) hnew hnroom
        (fun i x h1 h2 hx => by
          have hic : i = c := by omega
          subst hic
          rw [hrblk] at hx
          rw [← Option.some.inj hx]
          exact hroomf)
      have hsame : (⟨(replay_pool p q).blocks.set p.blocks.length
            ⟨0 + align_to s A, max (align_to s A) MIN_MEM_BLOCK_CAPACITY⟩,
            some p.blocks.length⟩ : MemPool) =
          replay_pool ⟨p.blocks ++ [⟨align_to s A, max (align_to s A) MIN_MEM_BLOCK_CAPACITY⟩],
            some p.blocks.length⟩ q := by
        simp only [replay_pool, List.length_append, List.length_singleton, hdrop, List.map_cons]
        rw [List.set_append_right _ _ (Nat.le_refl _)]
        simp
      rw [hsame] at hrstep
      rw [hptrs]
      simp [alloc_all, hrstep, hih]

/-- C29: every sequence of allocation requests on a new pool returns; and after
`reset_mem_pool`, performing the same sequence again returns the same (block, offset)
for every request and leaves the very pool the first run left, so the number of blocks
and their capacities are unchanged. -/
theorem replay_after_reset (A : Nat) (sizes : List Nat) :
    ∃ ptrs p, alloc_all A new_mem_pool sizes = some (ptrs, p) ∧
      alloc_all A (reset_mem_pool p) sizes = some (ptrs, p) ∧
      (reset_mem_pool p).blocks.map (fun b => b.capacity) = p.blocks.map (fun b => b.capacity) := by
  cases sizes with
  | nil =>
    exact ⟨[], new_mem_pool, rfl, by simp [alloc_all, reset_mem_pool, new_mem_pool],
      by simp [reset_mem_pool]⟩
  | cons s rest =>
    obtain ⟨k, off, p1, hstep, hok1, hcur, hcase⟩ := alloc_step A new_mem_pool s new_mem_pool_ok
    have hp1 : k = 0 ∧ off = 0 ∧
        p1 = ⟨[⟨align_to s A, max (align_to s A) MIN_MEM_BLOCK_CAPACITY⟩], some 0⟩ := by
      rcases hcase with ⟨blk, hblk, -, -⟩ | ⟨hoff, hk, happ⟩
      · simp [new_mem_pool] at hblk
      · have hk0 : k = 0 := by simpa [new_mem_pool] using hk
        refine ⟨hk0, hoff, ?_⟩
        cases p1 with
        | mk blocks cur =>
          simp only [new_mem_pool, List.nil_append] at happ
          simp only at hcur
          rw [hk0] at hcur
          simp only [happ, hcur]
    obtain ⟨rfl, rfl, rfl⟩ := hp1
    obtain ⟨ptrs1, q, hrun1, hokq, hg, -⟩ := alloc_all_placed A rest _ hok1
    have hgen := replay_from_last A rest _ 0 hok1 rfl (by simp) ptrs1 q hrun1
    refine ⟨(0, 0) :: ptrs1, q, by simp [alloc_all, hstep, hrun1], ?_, by simp [reset_mem_pool]⟩
    obtain ⟨b1, hb1, hb1c, -⟩ := hg.2 0
      ⟨align_to s A, max (align_to s A) MIN_MEM_BLOCK_CAPACITY⟩ (by simp)
    cases hqb : q.blocks with
    | nil => simp [hqb] at hb1
    | cons b tl =>
      rw [hqb] at hb1
      simp only [List.getElem?_cons_zero, Option.some.injEq] at hb1
      subst hb1
      simp only at hb1c
      have hreset : reset_mem_pool q =
          ⟨⟨0, max (align_to s A) MIN_MEM_BLOCK_CAPACITY⟩ ::
            tl.map (fun x => { x with size := 0 }), some 0⟩ := by
        simp [reset_mem_pool, hqb, hb1c]
      have hrok : PoolOk (reset_mem_pool q) := reset_mem_pool_ok q
      rw [hreset] at hrok ⊢
      have hrstep := alloc_first_fit A _ 0 s 0
        ⟨0, max (align_to s A) MIN_MEM_BLOCK_CAPACITY⟩ hrok rfl (Nat.le_refl _) (by simp)
        (by simp [has_room]) (fun i x h1 h2 => by omega)
      have hsame : replay_pool
          ⟨[⟨align_to s A, max (align_to s A) MIN_MEM_BLOCK_CAPACITY⟩], some 0⟩ q =
          ⟨⟨align_to s A, max (align_to s A) MIN_MEM_BLOCK_CAPACITY⟩ ::
            tl.map (fun x => { x with size := 0 }), some 0⟩ := by
        simp [replay_pool, hqb]
      rw [hsame] at hgen
      simp only [List.set_cons_zero, Nat.zero_add] at hrstep
      simp [alloc_all, hrstep, hgen]

/-! ## Theorems: classification by the length of the type chain -/

theorem is_kind_chain (n : ir_node) (h : error_on_chain n = false) :
    is_kind n = true ↔ type_chain_length n = 0 := by
  cases n with
  | mk tag type ops =>
    cases type with
    | none => simp [is_kind, ir_node.type, type_chain_length]
    | some t =>
      simp only [error_on_chain, Bool.or_eq_false_iff, beq_eq_false_iff_ne] at h
      simp [is_kind, ir_node.type, ir_node.tag, type_chain_length, h.1]

theorem is_type_chain (n : ir_node) (h : error_on_chain n = false) :
    is_type n = true ↔ type_chain_length n = 1 := by
  cases n with
  | mk tag type ops =>
    cases type with
    | none =>
      simp only [error_on_chain, beq_eq_false_iff_ne] at h
      simp [is_type, ir_node.type, ir_node.tag, type_chain_length, h]
    | some t =>
      simp only [error_on_chain, Bool.or_eq_false_iff, beq_eq_false_iff_ne] at h
      simp [is_type, ir_node.type, ir_node.tag, type_chain_length, h.1, is_kind_chain t h.2]

theorem is_val_chain (n : ir_node) (h : error_on_chain n = false) :
    is_val n = true ↔ type_chain_length n = 2 := by
  cases n with
  | mk tag type ops =>
    cases type with
    | none =>
      simp only [error_on_chain, beq_eq_false_iff_ne] at h
      simp [is_val, ir_node.type, ir_node.tag, type_chain_length, h]
    | some t =>
      simp only [error_on_chain, Bool.or_eq_false_iff, beq_eq_false_iff_ne] at h
      simp [is_val, ir_node.type, ir_node.tag, type_chain_length, h.1, is_type_chain t h.2]

/-- C30: for a node with no `IR_ERROR` tag on its type chain, `is_kind` holds exactly when
the chain has length 0, `is_type` exactly when it has length 1 and `is_val` exactly
when it has length 2, so at most one of the three holds and none holds on a longer
chain; and a node with the tag `IR_ERROR` satisfies all three. -/
theorem classification_by_chain_length (n : ir_node) :
    (error_on_chain n = false →
      (is_kind n = true ↔ type_chain_length n = 0) ∧
      (is_type n = true ↔ type_chain_length n = 1) ∧
      (is_val n = true ↔ type_chain_length n = 2) ∧
      ¬ (is_kind n = true ∧ is_type n = true) ∧ ¬ (is_kind n = true ∧ is_val n = true) ∧
      ¬ (is_type n = true ∧ is_val n = true) ∧
      (2 < type_chain_length n →
        is_kind n = false ∧ is_type n = false ∧ is_val n = false)) ∧
    (n.tag = ir_node_tag.IR_ERROR →
      is_kind n = true ∧ is_type n = true ∧ is_val n = true) := by
  constructor
  · intro h
    have hk := is_kind_chain n h
    have ht := is_type_chain n h
    have hv := is_val_chain n h
    refine ⟨hk, ht, hv, ?_, ?_, ?_, ?_⟩
    · rintro ⟨a, b⟩
      have := hk.1 a
      have := ht.1 b
      omega
    · rintro ⟨a, b⟩
      have := hk.1 a
      have := hv.1 b
      omega
    · rintro ⟨a, b⟩
      have := ht.1 a
      have := hv.1 b
      omega
    · intro hlong
      refine ⟨?_, ?_, ?_⟩
      · rw [Bool.eq_false_iff]
        intro a
        have := hk.1 a
        omega
      · rw [Bool.eq_false_iff]
        intro a
        have := ht.1 a
        omega
      · rw [Bool.eq_false_iff]
        intro a
        have := hv.1 a
        omega
  · intro h
    simp [is_kind, is_type, is_val, h]

/-- Witness for C30: a constant of integer type whose kind has no type is a value and
neither a type nor a kind; the error node is all three. -/
theorem classification_by_chain_length_witness :
    error_on_chain
      (.mk .IR_CONST (some (.mk .IR_TYPE_INT (some (.mk .IR_KIND_NAT none [])) [])) []) = false ∧
    type_chain_length
      (.mk .IR_CONST (some (.mk .IR_TYPE_INT (some (.mk .IR_KIND_NAT none [])) [])) []) = 2 ∧
    (is_val (.mk .IR_CONST (some (.mk .IR_TYPE_INT (some (.mk .IR_KIND_NAT none [])) [])) [])
        = true ↔
      type_chain_length
        (.mk .IR_CONST (some (.mk .IR_TYPE_INT (some (.mk .IR_KIND_NAT none [])) [])) []) = 2) ∧
    (is_kind (.mk .IR_ERROR none []) = true ∧ is_type (.mk .IR_ERROR none []) = true ∧
      is_val (.mk .IR_ERROR none []) = true) :=
  ⟨by simp [error_on_chain], by simp [type_chain_length],
    ((classification_by_chain_length
      (.mk .IR_CONST (some (.mk .IR_TYPE_INT (some (.mk .IR_KIND_NAT none [])) [])) [])).1
      (by simp [error_on_chain])).2.2.1,
    (classification_by_chain_length (.mk .IR_ERROR none [])).2 rfl⟩

/-! ## Theorems: scalar and vector tags -/

theorem vec_entry_of_to_scalar_tag (L : NodeLists) (t : ir_node_tag)
    (hv : to_scalar_tag L t ≠ t) : ∃ e ∈ L.vec_op_list, e.2.1 = t := by
  unfold to_scalar_tag at hv
  cases hl : (L.vec_op_list.map (fun e => (e.2.1, e.1))).lookup t with
  | none => simp [hl] at hv
  | some v =>
    obtain ⟨e, he, hev⟩ := List.mem_map.1 (mem_of_lookup_some _ _ _ hl)
    exact ⟨e, he, (Prod.mk.inj hev).1⟩

theorem vec_entry_of_is_vec_op (L : NodeLists) (t : ir_node_tag) (hv : is_vec_op L t = true) :
    ∃ e ∈ L.vec_op_list, e.2.1 = t := by
  unfold is_vec_op at hv
  obtain ⟨e, he, hte⟩ := List.any_eq_true.1 hv
  exact ⟨e, he, by simpa using hte⟩

theorem to_vec_tag_of_vec (L : NodeLists) (hwf : L.WellFormed) (t : ir_node_tag)
    (hv : is_vec_op L t = true) : to_vec_tag L t = t := by
  by_contra hne
  obtain ⟨e, he, rfl⟩ := vec_entry_of_to_vec_tag L t hne
  have := (vec_entry_tags L hwf e he).2.2.2.1
  rw [this] at hv
  exact Bool.noConfusion hv

theorem to_scalar_tag_of_not_vec (L : NodeLists) (t : ir_node_tag)
    (hv : is_vec_op L t = false) : to_scalar_tag L t = t := by
  by_contra hne
  obtain ⟨e, he, rfl⟩ := vec_entry_of_to_scalar_tag L t hne
  have hany : is_vec_op L e.2.1 = true := by
    unfold is_vec_op
    exact List.any_eq_true.2 ⟨e, he, by simp⟩
  rw [hany] at hv
  exact Bool.noConfusion hv

theorem is_vec_op_to_scalar_tag (L : NodeLists) (hwf : L.WellFormed) (t : ir_node_tag) :
    is_vec_op L (to_scalar_tag L t) = false := by
  cases hv : is_vec_op L t with
  | false => rw [to_scalar_tag_of_not_vec L t hv, hv]
  | true =>
    obtain ⟨e, he, rfl⟩ := vec_entry_of_is_vec_op L t hv
    obtain ⟨-, h2, -, h4, -⟩ := vec_entry_tags L hwf e he
    rw [h2, h4]

/-- C31: for well-formed lists and every tag `t`: when `t` is not a vector variant,
`to_scalar_tag (to_vec_tag t) = t`; when `t` is a vector variant,
`to_vec_tag (to_scalar_tag t) = t`; both functions are idempotent; and
`to_scalar_tag t` is never a vector variant. -/
theorem vec_scalar_tags_inverse (L : NodeLists) (hwf : L.WellFormed) (t : ir_node_tag) :
    (is_vec_op L t = false → to_scalar_tag L (to_vec_tag L t) = t) ∧
    (is_vec_op L t = true → to_vec_tag L (to_scalar_tag L t) = t) ∧
    to_vec_tag L (to_vec_tag L t) = to_vec_tag L t ∧
    to_scalar_tag L (to_scalar_tag L t) = to_scalar_tag L t ∧
    is_vec_op L (to_scalar_tag L t) = false := by
  refine ⟨?_, ?_, ?_, ?_, is_vec_op_to_scalar_tag L hwf t⟩
  · intro hv
    by_cases hne : to_vec_tag L t = t
    · rw [hne]
      exact to_scalar_tag_of_not_vec L t hv
    · obtain ⟨e, he, rfl⟩ := vec_entry_of_to_vec_tag L t hne
      obtain ⟨h1, h2, -⟩ := vec_entry_tags L hwf e he
      rw [h1, h2]
  · intro hv
    obtain ⟨e, he, rfl⟩ := vec_entry_of_is_vec_op L t hv
    obtain ⟨h1, h2, -⟩ := vec_entry_tags L hwf e he
    rw [h2, h1]
  · by_cases hne : to_vec_tag L t = t
    · rw [hne, hne]
    · obtain ⟨e, he, rfl⟩ := vec_entry_of_to_vec_tag L t hne
      obtain ⟨h1, -, h3, -⟩ := vec_entry_tags L hwf e he
      rw [h1]
      exact to_vec_tag_of_vec L hwf e.2.1 h3
  · exact to_scalar_tag_of_not_vec L _ (is_vec_op_to_scalar_tag L hwf t)

/-- Witness for C31 on the sample lists: the unsigned division and its vector variant
are mapped to each other, and mapping twice changes nothing. -/
theorem vec_scalar_tags_inverse_witness :
    sampleNodeLists.WellFormed ∧
    to_vec_tag sampleNodeLists .IR_VAL_UDIV = .IR_VAL_VUDIV ∧
    to_scalar_tag sampleNodeLists .IR_VAL_VUDIV = .IR_VAL_UDIV ∧
    ((is_vec_op sampleNodeLists .IR_VAL_UDIV = false →
        to_scalar_tag sampleNodeLists (to_vec_tag sampleNodeLists .IR_VAL_UDIV) =
          .IR_VAL_UDIV) ∧
      (is_vec_op sampleNodeLists .IR_VAL_UDIV = true →
        to_vec_tag sampleNodeLists (to_scalar_tag sampleNodeLists .IR_VAL_UDIV) =
          .IR_VAL_UDIV) ∧
      to_vec_tag sampleNodeLists (to_vec_tag sampleNodeLists .IR_VAL_UDIV) =
        to_vec_tag sampleNodeLists .IR_VAL_UDIV ∧
      to_scalar_tag sampleNodeLists (to_scalar_tag sampleNodeLists .IR_VAL_UDIV) =
        to_scalar_tag sampleNodeLists .IR_VAL_UDIV ∧
      is_vec_op sampleNodeLists (to_scalar_tag sampleNodeLists .IR_VAL_UDIV) = false) ∧
    to_vec_tag sampleNodeLists (to_scalar_tag sampleNodeLists .IR_VAL_VUDIV) = .IR_VAL_VUDIV :=
  ⟨sampleNodeLists_wf, by decide, by decide,
    vec_scalar_tags_inverse sampleNodeLists sampleNodeLists_wf .IR_VAL_UDIV,
    (vec_scalar_tags_inverse sampleNodeLists sampleNodeLists_wf .IR_VAL_VUDIV).2.1
      (by decide)⟩

end Eta
